import Mathlib

/-!
# turnate: admission control, session authentication and authorization

A shallow embedding of `internal/middleware/ratelimit.go`,
`internal/middleware/auth.go`, `internal/middleware/validation.go`,
`internal/handlers/channels.go`, `internal/handlers/messages.go` and
`internal/handlers/users.go`, with the properties of the rate limiter, of
the session authenticator, of the input validation and of the access
rules of the handlers proved about it.

Conventions of the embedding

* In the rate limiter a clock reading is a rational number of seconds since
  the zero time and a refill rate a rational number of tokens per second.
  Everywhere else a clock reading is a natural number of nanoseconds since
  the epoch, so that truncation to whole seconds is exact.
* Every call of `time.Now()` is a clock reading passed as an argument.
* A `*rate.Limiter` is an address: an index into the list of limiter
  objects that have been allocated so far.
* A Go map is an association list with unique keys (`AList`).
* A table is the list of its rows; an id is the text that the table
  stores. A query with `First` returns the first row by primary key among
  the rows that are not soft-deleted and match.
* A handler gets the decoded request body and the ids of the rows it
  inserts as arguments, and returns `none` where the Go code panics.
-/

namespace Turnate

/-! ## The token bucket (`rate.Limiter`) -/

/-- Modelled from the spec: `rate.Limiter` of `golang.org/x/time/rate` is
used by `ratelimit.go` but is not among the sources. This is the
`ClientBucket` of the data model: refill rate, burst capacity, current
token count and last-refill timestamp. The token count is an exact
rational where the library holds a `float64`. -/
structure Limiter where
  limit : ℚ
  burst : ℤ
  tokens : ℚ
  last : ℚ
deriving DecidableEq

/-- Modelled from the spec: `rate.NewLimiter(r, b)`, absent from the
sources. A bucket is created with full capacity; its last-refill
timestamp is the zero time. -/
def NewLimiter (r : ℚ) (b : ℤ) : Limiter :=
  { limit := r, burst := b, tokens := b, last := 0 }

/-- Modelled from the spec: `(*rate.Limiter).TokensAt(t)`, absent from the
sources. The token count refilled proportionally to the time elapsed since
the last refill, `min(capacity, tokens + elapsed * rate)`; the bucket is
not mutated. -/
def Limiter.TokensAt (lim : Limiter) (t : ℚ) : ℚ :=
  min (lim.burst : ℚ) (lim.tokens + (t - lim.last) * lim.limit)

/-- Modelled from the spec: `(*rate.Limiter).Allow()`, absent from the
sources, at clock reading `now`. Refill; then if `tokens >= 1` decrement
by one and return allowed, else return denied without mutating further. -/
def Limiter.Allow (lim : Limiter) (now : ℚ) : Bool × Limiter :=
  let tokens := lim.TokensAt now
  if 1 ≤ tokens then
    (true, { lim with tokens := tokens - 1, last := now })
  else
    (false, { lim with tokens := tokens, last := now })

/-! ## The bucket store (`IPRateLimiter`) -/

/-- The struct `IPRateLimiter`. `ips` is the map from client key to
limiter pointer, `objs` the limiter objects those pointers refer to (the
pointer is the index), `r` and `b` the tier's rate and burst. The mutex
`mu` has no counterpart: every function below is one critical section. -/
structure IPRateLimiter where
  ips : AList (fun _ : String => ℕ)
  objs : List Limiter
  r : ℚ
  b : ℤ

/-- `NewIPRateLimiter(r, b)`: an empty map. -/
def NewIPRateLimiter (r : ℚ) (b : ℤ) : IPRateLimiter :=
  { ips := ∅, objs := [], r := r, b := b }

/-- `AddIP(ip)`: allocate `rate.NewLimiter(i.r, i.b)`, store its pointer
under `ip` (overwriting any pointer already there) and return it. -/
def IPRateLimiter.AddIP (i : IPRateLimiter) (ip : String) : ℕ × IPRateLimiter :=
  let limiter := i.objs.length
  (limiter, { i with objs := i.objs ++ [NewLimiter i.r i.b], ips := i.ips.insert ip limiter })

/-- `GetLimiter(ip)`: the pointer stored under `ip`, or the result of
`AddIP(ip)` when there is none. -/
def IPRateLimiter.GetLimiter (i : IPRateLimiter) (ip : String) : ℕ × IPRateLimiter :=
  match i.ips.lookup ip with
  | some limiter => (limiter, i)
  | none => i.AddIP ip

/-- `limiter.Allow()` through the pointer `p` at clock reading `now`: the
object at `p` is replaced by its state after the check. -/
def IPRateLimiter.allowAt (i : IPRateLimiter) (p : ℕ) (now : ℚ) : Bool × IPRateLimiter :=
  match i.objs[p]? with
  | some lim => ((lim.Allow now).1, { i with objs := i.objs.set p (lim.Allow now).2 })
  | none => (false, i)

/-- One admission check, `i.GetLimiter(ip).Allow()`, as the three rate
limit middlewares perform it. -/
def IPRateLimiter.check (i : IPRateLimiter) (ip : String) (now : ℚ) : Bool × IPRateLimiter :=
  let g := i.GetLimiter ip
  g.2.allowAt g.1 now

/-- The test `limiter.TokensAt(time.Now()) == float64(i.b)` of
`cleanupLimiters`, for the limiter behind pointer `p`. -/
def IPRateLimiter.isFull (i : IPRateLimiter) (p : ℕ) (now : ℚ) : Bool :=
  match i.objs[p]? with
  | some limiter => decide (limiter.TokensAt now = (i.b : ℚ))
  | none => false

/-- One pass of the loop body of `cleanupLimiters` at clock reading `now`:
range over the map and delete every key whose limiter passes the test. -/
def IPRateLimiter.cleanupPass (i : IPRateLimiter) (now : ℚ) : IPRateLimiter :=
  { i with
    ips := i.ips.entries.foldl
      (fun m e => if i.isFull e.2 now then m.erase e.1 else m) i.ips }

/-- The bucket a client key currently maps to, if any. -/
def IPRateLimiter.bucket (i : IPRateLimiter) (ip : String) : Option Limiter :=
  (i.ips.lookup ip).bind (fun p => i.objs[p]?)

/-- What happens to a bucket store: an admission check for a key, or a
pass of the eviction sweep, each at a clock reading. -/
inductive Event where
  | check (ip : String) (t : ℚ)
  | sweep (t : ℚ)
deriving DecidableEq

/-- The clock reading of an event. -/
def Event.time : Event → ℚ
  | .check _ t => t
  | .sweep t => t

/-- Run a sequence of events in order; the result is the list of the
admission decisions of the checks, in order, and the final store. -/
def IPRateLimiter.run (i : IPRateLimiter) : List Event → List Bool × IPRateLimiter
  | [] => ([], i)
  | .check ip t :: es =>
    let c := i.check ip t
    let rest := c.2.run es
    (c.1 :: rest.1, rest.2)
  | .sweep t :: es => (i.cleanupPass t).run es

/-- Well-formedness of a bucket store at clock reading `now`: rate and
burst are non-negative, every pointer of the map refers to an allocated
limiter, distinct keys hold distinct pointers, and every limiter carries
the tier's rate and burst, a token count in `[0, b]` and a last-refill
timestamp that is not in the future. -/
structure IPRateLimiter.WF (i : IPRateLimiter) (now : ℚ) : Prop where
  r_nonneg : 0 ≤ i.r
  b_nonneg : 0 ≤ i.b
  now_nonneg : 0 ≤ now
  ptr_lt : ∀ k p, i.ips.lookup k = some p → p < i.objs.length
  ptr_inj : ∀ k k' p, i.ips.lookup k = some p → i.ips.lookup k' = some p → k = k'
  obj : ∀ lim ∈ i.objs, lim.limit = i.r ∧ lim.burst = i.b ∧ 0 ≤ lim.tokens ∧
    lim.tokens ≤ (i.b : ℚ) ∧ lim.last ≤ now

/-! ## Two concurrent admission checks -/

/-- Where one request stands inside `GetLimiter(ip).Allow()`. The store's
lock makes the map read of `GetLimiter` one atomic step and `AddIP`
another; the limiter's own lock makes `Allow` atomic. Between these steps
another request may run. -/
inductive Pc where
  | start
  | missed
  | holding (limiter : ℕ)
  | done (allowed : Bool)
deriving DecidableEq

/-- One atomic step of a request for key `ip` whose clock reads `now`:
the read-locked map lookup of `GetLimiter`, then `AddIP` when the lookup
missed, then `Allow` on the pointer the request holds. -/
def IPRateLimiter.stepReq (i : IPRateLimiter) (ip : String) (now : ℚ) :
    Pc → Pc × IPRateLimiter
  | .start =>
    match i.ips.lookup ip with
    | some limiter => (.holding limiter, i)
    | none => (.missed, i)
  | .missed => ((Pc.holding (i.AddIP ip).1), (i.AddIP ip).2)
  | .holding limiter => (.done (i.allowAt limiter now).1, (i.allowAt limiter now).2)
  | .done allowed => (.done allowed, i)

/-- Two requests for the same key run under a schedule: `false` lets the
first request take its next atomic step, `true` the second. -/
def IPRateLimiter.interleave (i : IPRateLimiter) (ip : String) (now : ℚ) :
    Pc → Pc → List Bool → Pc × Pc × IPRateLimiter
  | a, b, [] => (a, b, i)
  | a, b, false :: sched =>
    ((i.stepReq ip now a).2).interleave ip now (i.stepReq ip now a).1 b sched
  | a, b, true :: sched =>
    ((i.stepReq ip now b).2).interleave ip now a (i.stepReq ip now b).1 sched

/-! ## The request context (`gin.Context`) -/

/-- The struct `models.User` with the fields of `BaseModel` that queries
look at. `ID` is the string form of the UUID, `Role` the string under
`UserRole`; times are nanoseconds since the epoch. -/
structure User where
  ID : String
  DeletedAt : Option ℕ
  Username : String
  Email : String
  Password : String
  DisplayName : String
  Role : String
  IsActive : Bool
  LastSeenAt : Option ℕ
deriving DecidableEq, Repr

/-- A value stored in the context by `c.Set`: a string or a `*models.User`. -/
inductive Value where
  | str (s : String)
  | user (u : User)
deriving DecidableEq, Repr

/-- The part of `http.Request` the middlewares read. -/
structure Request where
  Method : String
  Header : List (String × String)
  Query : List (String × List String)
  PostForm : List (String × List String)
  RemoteIP : String
deriving DecidableEq

/-- The part of `gin.Context` the middlewares read and write: the request,
the path parameters, the values published with `Set`, the response
written with `JSON` (status and body) and whether `Abort` was called. -/
structure Context where
  Request : Request
  Params : List (String × String)
  Keys : AList (fun _ : String => Value)
  status : Option ℕ
  body : List (String × String)
  aborted : Bool

/-- `c.GetHeader(key)`: the first value of the header, `""` if absent. -/
def Context.GetHeader (c : Context) (key : String) : String :=
  (c.Request.Header.lookup key).getD ""

/-- `c.ClientIP()`. -/
def Context.ClientIP (c : Context) : String :=
  c.Request.RemoteIP

/-- `c.JSON(code, obj)`: write the status and the body. -/
def Context.JSON (c : Context) (code : ℕ) (obj : List (String × String)) : Context :=
  { c with status := some code, body := obj }

/-- `c.Abort()`: no later handler of the chain runs. -/
def Context.Abort (c : Context) : Context :=
  { c with aborted := true }

/-- `c.Set(key, value)`. -/
def Context.Set (c : Context) (key : String) (value : Value) : Context :=
  { c with Keys := c.Keys.insert key value }

/-- `c.Get(key)`. -/
def Context.Get (c : Context) (key : String) : Option Value :=
  c.Keys.lookup key

/-- `RateLimitMiddleware` over a tier `i` (the source has one copy of it
per tier, differing in the tier and the message): one admission check for
the client IP at clock reading `now`; on denial respond 429 and abort,
otherwise run the rest of the chain, `next`. -/
def RateLimitMiddleware (i : IPRateLimiter) (now : ℚ) (next : Context → Context)
    (c : Context) : Context × IPRateLimiter :=
  let ip := c.ClientIP
  let limiter := i.GetLimiter ip
  let a := limiter.2.allowAt limiter.1 now
  if !a.1 then
    ((c.JSON 429 [("error", "Rate limit exceeded"),
        ("message", "Too many requests. Please slow down.")]).Abort, a.2)
  else
    (next c, a.2)

/-! ## Session tokens (`golang-jwt`) -/

/-- The signing methods: the three HMAC methods, and any method that is
not an HMAC method, named by its `alg`. -/
inductive SigningMethod where
  | HS256
  | HS384
  | HS512
  | other (alg : String)
deriving DecidableEq, Repr

/-- The struct `Claims` of `auth.go`, with the registered claims that
`GenerateJWT` sets. A numeric date is in nanoseconds since the epoch. -/
structure Claims where
  UserID : String
  Username : String
  Role : String
  ExpiresAt : Option ℕ
  IssuedAt : Option ℕ
  Issuer : String
deriving DecidableEq, Repr

/-- Modelled from the spec: the signature of a session token; the library
`golang-jwt` that computes it is not among the sources. A signature is the
symbolic term "MAC under `key`, with the hash of `method`, of the token
whose header names `method` and whose payload is `claims`": two signatures
are equal exactly when they were made from the same three things. -/
structure Signature where
  method : SigningMethod
  key : String
  claims : Claims
deriving DecidableEq, Repr

/-- Modelled from the spec: a decoded session token (`jwt.Token`), the
claims object plus signature, with the signing method its header names.
A token that was never signed, or whose signature part is not the MAC of
anything, has no signature. `Valid` is set by verification. -/
structure Token where
  Method : SigningMethod
  Claims : Claims
  Signature : Option Signature
  Valid : Bool
deriving DecidableEq, Repr

/-- Modelled from the spec: the compact string encoding of a token, which
`golang-jwt` implements and the sources do not contain. It is left
abstract: `decode` returns `none` on a malformed string. -/
structure JWTLib where
  encode : Token → String
  decode : String → Option Token

/-- A compact encoding given by a finite table of strings and the tokens
they stand for. -/
def tableLib (table : List (String × Token)) : JWTLib :=
  { encode := fun tok => ((table.find? (fun e => e.2 = tok)).map Prod.fst).getD ""
    decode := fun s => table.lookup s }

/-- Modelled from the spec: `method.Sign(signingString, key)` of
`golang-jwt`, absent from the sources. -/
def SigningMethod.Sign (m : SigningMethod) (claims : Claims) (key : String) : Signature :=
  { method := m, key := key, claims := claims }

/-- Modelled from the spec: `method.Verify(signingString, sig, key)` of
`golang-jwt`, absent from the sources, for a key that is a byte string.
An HMAC method recomputes the MAC and compares; any other method does not
accept a byte string as its key. -/
def SigningMethod.Verify (m : SigningMethod) (claims : Claims) (sig : Option Signature)
    (key : String) : Bool :=
  match m with
  | .HS256 => sig = some (m.Sign claims key)
  | .HS384 => sig = some (m.Sign claims key)
  | .HS512 => sig = some (m.Sign claims key)
  | .other _ => false

/-- Modelled from the spec: `jwt.NewNumericDate(t)` of `golang-jwt`,
absent from the sources: the time truncated to whole seconds. -/
def NewNumericDate (t : ℕ) : ℕ :=
  t - t % 1000000000

/-- `time.Hour` in nanoseconds. -/
def Hour : ℕ := 3600 * 1000000000

/-- Modelled from the spec: `jwt.NewWithClaims(method, claims)` of
`golang-jwt`, absent from the sources: an unsigned token. -/
def NewWithClaims (method : SigningMethod) (claims : Claims) : Token :=
  { Method := method, Claims := claims, Signature := none, Valid := false }

/-- Modelled from the spec: `token.SignedString(key)` of `golang-jwt`,
absent from the sources: sign with the token's method and encode. -/
def Token.SignedString (lib : JWTLib) (token : Token) (key : String) : Except String String :=
  match token.Method with
  | .other alg => .error ("key is of invalid type for " ++ alg)
  | m => .ok (lib.encode { token with Signature := some (m.Sign token.Claims key) })

/-- Why parsing a token failed. -/
inductive ParseError where
  | malformed
  | unverifiable
  | signatureInvalid
  | expired
deriving DecidableEq, Repr

/-- Modelled from the spec: `jwt.ParseWithClaims(tokenString, claims,
keyFunc)` of `golang-jwt`, absent from the sources, at clock reading
`now`: parse, fetch the key from `keyFunc`, verify the signature with the
method the token names, and check the expiry; fail if the string is
malformed, wrongly signed or expired. No option is passed, so no signing
method is expected in particular. -/
def ParseWithClaims (lib : JWTLib) (tokenString : String)
    (keyFunc : Token → Except String String) (now : ℕ) : Except ParseError Token :=
  match lib.decode tokenString with
  | none => .error .malformed
  | some token =>
    match keyFunc token with
    | .error _ => .error .unverifiable
    | .ok key =>
      if token.Method.Verify token.Claims token.Signature key = false then
        .error .signatureInvalid
      else
        match token.Claims.ExpiresAt with
        | some exp =>
          if now < exp then .ok { token with Valid := true } else .error .expired
        | none => .ok { token with Valid := true }

/-! ## The session authenticator (`auth.go`) -/

/-- The struct `config.Config`, whose package is not among the sources;
the fields are those the tests set. -/
structure Config where
  JWTSecret : String
  Port : String

/-- `GenerateJWT(user, config)`. The clock is read twice: `now₁` is the
reading that the expiry is computed from, `now₂` the later reading stored
as the issue time. -/
def GenerateJWT (lib : JWTLib) (user : User) (config : Config) (now₁ now₂ : ℕ) :
    Except String String :=
  let expirationTime := now₁ + 24 * Hour
  let claims : Claims :=
    { UserID := user.ID
      Username := user.Username
      Role := user.Role
      ExpiresAt := some (NewNumericDate expirationTime)
      IssuedAt := some (NewNumericDate now₂)
      Issuer := "turnate" }
  let token := NewWithClaims .HS256 claims
  token.SignedString lib config.JWTSecret

/-- `strings.Split(s, sep)` for a separator of one character, on the
characters of `s`; `cur` holds the current part, reversed. -/
def splitChars (sep : Char) : List Char → List Char → List String
  | [], cur => [String.mk cur.reverse]
  | ch :: rest, cur =>
    if ch = sep then String.mk cur.reverse :: splitChars sep rest []
    else splitChars sep rest (ch :: cur)

/-- `strings.Split(s, sep)` for a separator of one character. -/
def Split (s : String) (sep : Char) : List String :=
  splitChars sep s.data []

/-- The user table behind `database.GetDB()`. -/
abbrev DB := List User

/-- `db.Where(cond).First(&user)` on the user table: the first row that is
not soft-deleted and satisfies the condition; `none` stands for the error
the query returns when there is no such row. -/
def DB.First (db : DB) (cond : User → Bool) : Option User :=
  db.find? (fun u => u.DeletedAt.isNone && cond u)

/-- `db.Save(&user)`: write all fields of the row that has the user's
primary key. -/
def DB.Save (db : DB) (user : User) : DB :=
  db.map (fun u => if u.ID = user.ID then user else u)

/-- The response `c.JSON(code, gin.H{"error": msg}); c.Abort()`. -/
def Context.reject (c : Context) (code : ℕ) (msg : String) : Context :=
  (c.JSON code [("error", msg)]).Abort

/-- `AuthMiddleware(config)`. `nowParse` is the clock reading at which the
token is validated, `nowSeen` the one stored as last-seen time, `next` the
rest of the chain that `c.Next()` runs. -/
def AuthMiddleware (lib : JWTLib) (config : Config) (nowParse nowSeen : ℕ)
    (next : Context → DB → Context × DB) (c : Context) (db : DB) : Context × DB :=
  let authHeader := c.GetHeader "Authorization"
  if authHeader = "" then
    (c.reject 401 "Authorization header required", db)
  else
    let bearerToken := Split authHeader ' '
    if bearerToken.length ≠ 2 ∨ bearerToken[0]? ≠ some "Bearer" then
      (c.reject 401 "Invalid authorization header format", db)
    else
      match ParseWithClaims lib (bearerToken.getD 1 "") (fun _ => .ok config.JWTSecret)
          nowParse with
      | .error _ => (c.reject 401 "Invalid token", db)
      | .ok token =>
        if token.Valid then
          let claims := token.Claims
          match db.First (fun u => u.ID = claims.UserID && u.IsActive = true) with
          | none => (c.reject 401 "User not found or inactive", db)
          | some user =>
            let user := { user with LastSeenAt := some nowSeen }
            let db := db.Save user
            let c := c.Set "user_id" (.str claims.UserID)
            let c := c.Set "username" (.str claims.Username)
            let c := c.Set "role" (.str claims.Role)
            let c := c.Set "user" (.user user)
            next c db
        else
          (c.reject 401 "Invalid token claims", db)

/-! ## Sample data -/

/-- A configuration with the secret `s3cret`. -/
def sampleConfig : Config :=
  { JWTSecret := "s3cret", Port := "8080" }

/-- An active user with id `u1`. -/
def sampleUser : User :=
  { ID := "u1", DeletedAt := none, Username := "ann", Email := "ann@example.com",
    Password := "", DisplayName := "Ann", Role := "normal", IsActive := true,
    LastSeenAt := none }

/-- Claims for `sampleUser` that expire 24 hours after the epoch. -/
def sampleClaims : Claims :=
  { UserID := "u1", Username := "ann", Role := "normal",
    ExpiresAt := some (24 * Hour), IssuedAt := some 0, Issuer := "turnate" }

/-- The sample claims signed with `key` under the method `m`. -/
def sampleToken (m : SigningMethod) (key : String) : Token :=
  { Method := m, Claims := sampleClaims, Signature := some (m.Sign sampleClaims key),
    Valid := false }

/-- An encoding that knows five strings: the sample claims signed with
the secret under each HMAC method, signed with another key, and expired
claims signed with the secret. -/
def sampleLib : JWTLib :=
  tableLib
    [("tok256", sampleToken .HS256 "s3cret"),
     ("tok384", sampleToken .HS384 "s3cret"),
     ("tok512", sampleToken .HS512 "s3cret"),
     ("forged", sampleToken .HS256 "guess"),
     ("old", { Method := .HS256,
               Claims := { sampleClaims with ExpiresAt := some Hour },
               Signature := some (SigningMethod.HS256.Sign
                 { sampleClaims with ExpiresAt := some Hour } "s3cret"),
               Valid := false })]

/-- A `GET` request whose `Authorization` header is `h`. -/
def sampleCtx (h : String) : Context :=
  { Request := { Method := "GET", Header := [("Authorization", h)], Query := [],
                 PostForm := [], RemoteIP := "10.0.0.1" },
    Params := [], Keys := ∅, status := none, body := [], aborted := false }

/-- A handler that answers 200, as the handlers of the tests do. -/
def sampleHandler (c : Context) (db : DB) : Context × DB :=
  (c.JSON 200 [("message", "success")], db)

/-- The token that `GenerateJWT(user, config)` signs and encodes when its
two clock readings are `now₁` and `now₂`. -/
def issuedToken (user : User) (config : Config) (now₁ now₂ : ℕ) : Token :=
  { Method := .HS256
    Claims :=
      { UserID := user.ID
        Username := user.Username
        Role := user.Role
        ExpiresAt := some (NewNumericDate (now₁ + 24 * Hour))
        IssuedAt := some (NewNumericDate now₂)
        Issuer := "turnate" }
    Signature := some (SigningMethod.HS256.Sign
      { UserID := user.ID
        Username := user.Username
        Role := user.Role
        ExpiresAt := some (NewNumericDate (now₁ + 24 * Hour))
        IssuedAt := some (NewNumericDate now₂)
        Issuer := "turnate" } config.JWTSecret)
    Valid := false }

/-- An encoding that knows one string: the token issued to `sampleUser`
when the clock reads 0.999999999 s and then 1 s. -/
def skewLib : JWTLib :=
  tableLib [("skew", issuedToken sampleUser sampleConfig 999999999 1000000000)]

/-! ## Role authorization (`AdminMiddleware`) -/

/-- `AdminMiddleware()`: read `role` from the context; if it is absent or
is not the string `admin`, respond 403 and abort, otherwise run the rest
of the chain, `next`, over whatever state `σ` the chain works on. -/
def AdminMiddleware {σ : Type} (next : Context → σ → Context × σ) (c : Context) (s : σ) :
    Context × σ :=
  match c.Get "role" with
  | none => (c.reject 403 "Admin access required", s)
  | some role =>
    if role ≠ Value.str "admin" then
      (c.reject 403 "Admin access required", s)
    else
      next c s

/-- A registry in which `u1` is an active user whose role is `normal`,
and an encoding that knows one token, signed with the secret, whose claims
name `u1` with the role `admin`. -/
def staleRoleLib : JWTLib :=
  tableLib
    [("stale", { Method := .HS256,
                 Claims := { sampleClaims with Role := "admin" },
                 Signature := some (SigningMethod.HS256.Sign
                   { sampleClaims with Role := "admin" } "s3cret"),
                 Valid := false })]

/-! ## The domain model (`models`) and its tables -/

/-- Library functions that the handlers call and that are not among the
sources: `parseUUID s` is `uuid.Parse(s)` followed by `String()`, the
canonical text of the UUID that `s` denotes, or `none` when `s` denotes
none; `toLower` is `unicode.ToLower`; `Atoi` is `strconv.Atoi`. -/
structure StdLib where
  parseUUID : String → Option String
  toLower : Char → Char
  Atoi : String → Option ℤ

/-- `models.ChannelTypePublic`. -/
def ChannelTypePublic : String := "public"

/-- `models.ChannelTypePrivate`. -/
def ChannelTypePrivate : String := "private"

/-- The struct `models.Channel` with its `BaseModel`. Ids are the text the
table stores; `Typ` is the field `Type`, the string under `ChannelType`. -/
structure Channel where
  ID : String
  CreatedAt : ℕ
  UpdatedAt : ℕ
  DeletedAt : Option ℕ
  Name : String
  Description : String
  Typ : String
  CreatedBy : String
deriving DecidableEq, Repr

/-- The struct `models.ChannelMember` with its `BaseModel`. -/
structure ChannelMember where
  ID : String
  CreatedAt : ℕ
  UpdatedAt : ℕ
  DeletedAt : Option ℕ
  ChannelID : String
  UserID : String
deriving DecidableEq, Repr

/-- The struct `models.Message` with its `BaseModel`. -/
structure Message where
  ID : String
  CreatedAt : ℕ
  UpdatedAt : ℕ
  DeletedAt : Option ℕ
  Content : String
  UserID : String
  ChannelID : String
  ThreadID : Option String
deriving DecidableEq, Repr

/-- The four tables behind `database.GetDB()`. -/
structure Database where
  Users : DB
  Channels : List Channel
  ChannelMembers : List ChannelMember
  Messages : List Message
deriving DecidableEq

/-- The row with the least key, the earliest of them if several have it. -/
def leastBy {α : Type} (key : α → String) : List α → Option α
  | [] => none
  | r :: rs =>
    match leastBy key rs with
    | none => some r
    | some b => if key b < key r then some b else some r

/-- Whether a query argument taken from the context (an `interface{}`)
equals the text of a column: only a string argument can. -/
def argEq (arg : Option Value) (col : String) : Bool :=
  match arg with
  | some (.str s) => col = s
  | _ => false

/-- `db.Where(cond).First(&channel)`: among the channels that are not
soft-deleted and satisfy the condition, the first by primary key; `none`
stands for the error of a query that finds no row. -/
def Database.firstChannel (d : Database) (cond : Channel → Bool) : Option Channel :=
  leastBy (fun r => r.ID) (d.Channels.filter (fun r => r.DeletedAt.isNone && cond r))

/-- `db.Where(cond).First(&membership)` on `channel_members`. -/
def Database.firstMember (d : Database) (cond : ChannelMember → Bool) : Option ChannelMember :=
  leastBy (fun r => r.ID) (d.ChannelMembers.filter (fun r => r.DeletedAt.isNone && cond r))

/-- `db.Where(cond).First(&message)` on `messages`. -/
def Database.firstMessage (d : Database) (cond : Message → Bool) : Option Message :=
  leastBy (fun r => r.ID) (d.Messages.filter (fun r => r.DeletedAt.isNone && cond r))

/-- The query `Where("channel_id = ? AND user_id = ?", channelID, userID)
.First(&membership)` that every handler uses to look for a membership. -/
def Database.membership (d : Database) (channelID : String) (userID : Option Value) :
    Option ChannelMember :=
  d.firstMember (fun m => m.ChannelID = channelID && argEq userID m.UserID)

/-- The membership relation: there is a membership of the user in the
channel that is not soft-deleted. -/
def Database.isMember (d : Database) (channelID userID : String) : Bool :=
  d.ChannelMembers.any (fun m => m.DeletedAt.isNone && (m.ChannelID = channelID && m.UserID = userID))

/-- `db.Create(&channel)`: the insert fails when the primary key is taken. -/
def Database.createChannel (d : Database) (row : Channel) : Option Database :=
  if d.Channels.any (fun r => r.ID = row.ID) then none
  else some { d with Channels := d.Channels ++ [row] }

/-- `db.Create(&member)`: the insert fails when the primary key is taken,
or when the unique index of `CreateIndexes` on `(channel_id, user_id)`
among the rows that are not soft-deleted is violated. -/
def Database.createMember (d : Database) (row : ChannelMember) : Option Database :=
  if d.ChannelMembers.any (fun r => r.ID = row.ID) then none
  else if row.DeletedAt.isNone && d.isMember row.ChannelID row.UserID then none
  else some { d with ChannelMembers := d.ChannelMembers ++ [row] }

/-- `db.Create(&message)`: the insert fails when the primary key is taken. -/
def Database.createMessage (d : Database) (row : Message) : Option Database :=
  if d.Messages.any (fun r => r.ID = row.ID) then none
  else some { d with Messages := d.Messages ++ [row] }

/-- `db.Delete(&membership)` at clock reading `now`: a soft delete of the
row with that primary key. -/
def Database.deleteMember (d : Database) (row : ChannelMember) (now : ℕ) : Database :=
  { d with ChannelMembers := d.ChannelMembers.map (fun m =>
      if m.ID = row.ID ∧ m.DeletedAt = none then { m with DeletedAt := some now } else m) }

/-- `db.Model(&models.ChannelMember{}).Where("channel_id = ?", id).Count(&n)`. -/
def Database.countMembers (d : Database) (channelID : String) : ℕ :=
  (d.ChannelMembers.filter (fun m => m.DeletedAt.isNone && m.ChannelID = channelID)).length

/-- `db.Model(&models.Message{}).Where("thread_id = ?", id).Count(&n)`. -/
def Database.countReplies (d : Database) (messageID : String) : ℕ :=
  (d.Messages.filter (fun m => m.DeletedAt.isNone && m.ThreadID = some messageID)).length

/-- The zero value of `models.User`, which a failed `First(&user)` leaves
in `user`. -/
def zeroUser : User :=
  { ID := "00000000-0000-0000-0000-000000000000", DeletedAt := none, Username := "",
    Email := "", Password := "", DisplayName := "", Role := "", IsActive := false,
    LastSeenAt := none }

/-! ## String helpers (`validation.go`, `strings`) -/

/-- `unicode.IsSpace`. -/
def isSpace (r : Char) : Bool :=
  r = '\t' || r = '\n' || r.val = 11 || r.val = 12 || r = '\r' || r = ' ' ||
    r.val = 0x85 || r.val = 0xA0 || r.val = 0x1680 ||
    (0x2000 ≤ r.val && r.val ≤ 0x200A) || r.val = 0x2028 || r.val = 0x2029 ||
    r.val = 0x202F || r.val = 0x205F || r.val = 0x3000

/-- `strings.TrimSpace(s)`. -/
def TrimSpace (s : String) : String :=
  String.mk ((s.data.dropWhile isSpace).rdropWhile isSpace)

/-- `SanitizeString(input)`: remove the null bytes, keep the characters
that are at least 32 or are tab, newline or carriage return, and trim the
white space at both ends. -/
def SanitizeString (input : String) : String :=
  let input := String.mk (input.data.filter (fun r => r ≠ Char.ofNat 0))
  let result := input.data.filter (fun r => 32 ≤ r.val || r = '\t' || r = '\n' || r = '\r')
  TrimSpace (String.mk result)

/-- `strings.ToLower(s)`. -/
def ToLower (lib : StdLib) (s : String) : String :=
  String.mk (s.data.map lib.toLower)

/-- `strings.ReplaceAll(s, " ", "-")`. -/
def spacesToHyphens (s : String) : String :=
  String.mk (s.data.map (fun r => if r = ' ' then '-' else r))

/-- The channel name that `CreateChannel` looks up and stores. -/
def channelName (lib : StdLib) (name : String) : String :=
  spacesToHyphens (ToLower lib (TrimSpace (SanitizeString name)))

/-! ## The handlers (`handlers`) -/

/-- The struct `models.MessageResponse`; the two times are the clock
readings that the handler formats. -/
structure MessageResponse where
  ID : String
  Content : String
  UserID : String
  Username : String
  DisplayName : String
  ChannelID : String
  ThreadID : Option String
  CreatedAt : ℕ
  UpdatedAt : ℕ
  ReplyCount : ℕ
deriving DecidableEq, Repr

/-- The struct `ChannelResponse`. -/
structure ChannelResponse where
  ID : String
  Name : String
  Description : String
  Typ : String
  CreatedBy : String
  CreatedAt : ℕ
  MemberCount : ℕ
  IsMember : Bool
deriving DecidableEq, Repr

/-- The struct `UserProfile`. -/
structure UserProfile where
  ID : String
  Username : String
  Email : String
  DisplayName : String
  Role : String
  IsActive : Bool
deriving DecidableEq, Repr

/-- The object that a success response carries next to its strings. -/
inductive Payload where
  | none
  | message (r : MessageResponse)
  | messages (rs : List MessageResponse)
  | channel (r : ChannelResponse)
  | members (ps : List UserProfile)
  | user (p : UserProfile)
deriving DecidableEq, Repr

/-- What a handler leaves behind: the context with the response written,
the tables, and the object of the response. -/
structure Reply where
  ctx : Context
  db : Database
  data : Payload

/-- A handler returns after `c.JSON(code, gin.H{"error": msg})`, the
tables untouched. -/
def failWith (c : Context) (d : Database) (code : ℕ) (msg : String) : Option Reply :=
  some { ctx := c.JSON code [("error", msg)], db := d, data := .none }

/-- `c.Param(key)`: the value of the path parameter, `""` if absent. -/
def Context.Param (c : Context) (key : String) : String :=
  (c.Params.lookup key).getD ""

/-- `c.DefaultQuery(key, dflt)`: the first value of the query parameter,
`dflt` if the parameter is absent. -/
def Context.DefaultQuery (c : Context) (key dflt : String) : String :=
  match c.Request.Query.lookup key with
  | some (v :: _) => v
  | _ => dflt

/-- The struct `CreateMessageRequest`. -/
structure CreateMessageRequest where
  Content : String
  ThreadID : Option String
deriving DecidableEq, Repr

/-- `c.ShouldBindJSON(&req)` for `CreateMessageRequest`: `body` is the
decoded request body, `none` when it does not decode; the binding
`required,min=1,max=2000` is checked on the content. -/
def bindCreateMessage (body : Option CreateMessageRequest) : Option CreateMessageRequest :=
  match body with
  | none => none
  | some req => if 1 ≤ req.Content.length ∧ req.Content.length ≤ 2000 then some req else none

/-- The struct `CreateChannelRequest`. -/
structure CreateChannelRequest where
  Name : String
  Description : String
  Typ : String
deriving DecidableEq, Repr

/-- `c.ShouldBindJSON(&req)` for `CreateChannelRequest`, with the binding
`required,min=1,max=100` on the name. -/
def bindCreateChannel (body : Option CreateChannelRequest) : Option CreateChannelRequest :=
  match body with
  | none => none
  | some req => if 1 ≤ req.Name.length ∧ req.Name.length ≤ 100 then some req else none

/-- The end of `CreateMessage`, from `db.Create(&message)` on: insert the
message, load the author, count the replies of a root message and answer
201 with the message. -/
def storeMessage (c : Context) (d : Database) (userID : Option Value) (message : Message) :
    Option Reply :=
  match d.createMessage message with
  | none => failWith c d 500 "Failed to create message"
  | some d' =>
    let user := (DB.First d'.Users (fun u => argEq userID u.ID)).getD zeroUser
    let replyCount := if message.ThreadID = none then d'.countReplies message.ID else 0
    some
      { ctx := c.JSON 201 []
        db := d'
        data := .message
          { ID := message.ID
            Content := message.Content
            UserID := user.ID
            Username := user.Username
            DisplayName := user.DisplayName
            ChannelID := message.ChannelID
            ThreadID := message.ThreadID
            CreatedAt := message.CreatedAt
            UpdatedAt := message.UpdatedAt
            ReplyCount := replyCount } }

/-- `MessageHandler.CreateMessage`. `body` is the decoded request body,
`newID` the id that `BeforeCreate` gives the message, `now` the clock
reading of the insert. The result `none` is the panic of the type
assertion `userID.(string)`. The `details` entry of the 400 response to a
body that does not bind is left out. -/
def CreateMessage (lib : StdLib) (newID : String) (now : ℕ)
    (body : Option CreateMessageRequest) (c : Context) (d : Database) : Option Reply :=
  let channelID := c.Param "id"
  let userID := c.Get "user_id"
  let role := c.Get "role"
  match bindCreateMessage body with
  | none => failWith c d 400 "Invalid request data"
  | some req =>
    match d.firstChannel (fun ch => ch.ID = channelID) with
    | none => failWith c d 404 "Channel not found"
    | some channel =>
      if channel.Typ = ChannelTypePrivate ∧ role ≠ some (Value.str "admin") ∧
          d.membership channelID userID = none then
        failWith c d 403 "Access denied to private channel"
      else if channel.Typ = ChannelTypePublic ∧ d.membership channelID userID = none then
        failWith c d 403 "Must join channel to post messages"
      else
        match userID with
        | some (.str userIDStr) =>
          match lib.parseUUID userIDStr with
          | none => failWith c d 400 "Invalid user ID"
          | some userUUID =>
            match lib.parseUUID channelID with
            | none => failWith c d 400 "Invalid channel ID"
            | some channelUUID =>
              let message : Message :=
                { ID := newID, CreatedAt := now, UpdatedAt := now, DeletedAt := none,
                  Content := SanitizeString req.Content, UserID := userUUID,
                  ChannelID := channelUUID, ThreadID := none }
              match req.ThreadID with
              | none => storeMessage c d userID message
              | some threadID =>
                if threadID = "" then storeMessage c d userID message
                else
                  match d.firstMessage
                      (fun m => m.ID = threadID && m.ChannelID = channelID) with
                  | none => failWith c d 400 "Invalid thread message"
                  | some _ =>
                    match lib.parseUUID threadID with
                    | none => failWith c d 400 "Invalid thread ID"
                    | some threadUUID =>
                      storeMessage c d userID { message with ThreadID := some threadUUID }
        | _ => none

/-- The response that `GetMessages` builds for one message: the author is
the preloaded `User` (the zero user when there is none), the reply count
the number of messages whose thread is this message. -/
def Database.messageResponse (d : Database) (message : Message) : MessageResponse :=
  let user := (DB.First d.Users (fun u => u.ID = message.UserID)).getD zeroUser
  { ID := message.ID
    Content := message.Content
    UserID := user.ID
    Username := user.Username
    DisplayName := user.DisplayName
    ChannelID := message.ChannelID
    ThreadID := none
    CreatedAt := message.CreatedAt
    UpdatedAt := message.UpdatedAt
    ReplyCount := d.countReplies message.ID }

/-- The query of `GetMessages`: the root messages of the channel that are
not soft-deleted, newest first, `limit` of them after skipping `offset`. -/
def Database.rootMessages (d : Database) (channelID : String) (limit offset : ℕ) :
    List Message :=
  (((d.Messages.filter (fun m => m.DeletedAt.isNone &&
        (m.ChannelID = channelID && m.ThreadID.isNone))).insertionSort
      (fun a b => b.CreatedAt ≤ a.CreatedAt)).drop offset).take limit

/-- `MessageHandler.GetMessages`. -/
def GetMessages (lib : StdLib) (c : Context) (d : Database) : Option Reply :=
  let channelID := c.Param "id"
  let userID := c.Get "user_id"
  let role := c.Get "role"
  let limitStr := c.DefaultQuery "limit" "50"
  let offsetStr := c.DefaultQuery "offset" "0"
  let limit : ℤ :=
    match lib.Atoi limitStr with
    | none => 50
    | some n => if n ≤ 0 ∨ n > 100 then 50 else n
  let offset : ℤ :=
    match lib.Atoi offsetStr with
    | none => 0
    | some n => if n < 0 then 0 else n
  match d.firstChannel (fun ch => ch.ID = channelID) with
  | none => failWith c d 404 "Channel not found"
  | some channel =>
    if channel.Typ = ChannelTypePrivate ∧ role ≠ some (Value.str "admin") ∧
        d.membership channelID userID = none then
      failWith c d 403 "Access denied to private channel"
    else if channel.Typ = ChannelTypePublic ∧ d.membership channelID userID = none then
      failWith c d 403 "Must join channel to view messages"
    else
      let messages := d.rootMessages channelID limit.toNat offset.toNat
      let messageResponses := messages.map d.messageResponse
      some { ctx := c.JSON 200 [], db := d, data := .messages messageResponses.reverse }

/-- The `ChannelResponse` that `GetChannel` builds. -/
def Database.channelResponse (d : Database) (channel : Channel) (userID : Option Value) :
    ChannelResponse :=
  { ID := channel.ID
    Name := channel.Name
    Description := channel.Description
    Typ := channel.Typ
    CreatedBy := channel.CreatedBy
    CreatedAt := channel.CreatedAt
    MemberCount := d.countMembers channel.ID
    IsMember := (d.membership channel.ID userID).isSome }

/-- `ChannelHandler.GetChannel`. -/
def GetChannel (c : Context) (d : Database) : Option Reply :=
  let channelID := c.Param "id"
  let userID := c.Get "user_id"
  let role := c.Get "role"
  match d.firstChannel (fun ch => ch.ID = channelID) with
  | none => failWith c d 404 "Channel not found"
  | some channel =>
    if channel.Typ = ChannelTypePrivate ∧ role ≠ some (Value.str "admin") ∧
        d.membership channelID userID = none then
      failWith c d 403 "Access denied to private channel"
    else
      some { ctx := c.JSON 200 [], db := d, data := .channel (d.channelResponse channel userID) }

/-- The query of `GetChannelMembers`: the users joined with the
memberships of the channel, neither soft-deleted. -/
def Database.channelUsers (d : Database) (channelID : String) : List User :=
  (d.ChannelMembers.filter (fun m => m.DeletedAt.isNone && m.ChannelID = channelID)).flatMap
    (fun m => d.Users.filter (fun u => u.DeletedAt.isNone && u.ID = m.UserID))

/-- `ChannelHandler.GetChannelMembers`. -/
def GetChannelMembers (c : Context) (d : Database) : Option Reply :=
  let channelID := c.Param "id"
  let userID := c.Get "user_id"
  let role := c.Get "role"
  match d.firstChannel (fun ch => ch.ID = channelID) with
  | none => failWith c d 404 "Channel not found"
  | some channel =>
    if channel.Typ = ChannelTypePrivate ∧ role ≠ some (Value.str "admin") ∧
        d.membership channelID userID = none then
      failWith c d 403 "Access denied to private channel"
    else
      let members := d.channelUsers channelID
      let memberProfiles := members.map (fun member =>
        ({ ID := member.ID, Username := member.Username, Email := "",
           DisplayName := member.DisplayName, Role := member.Role,
           IsActive := member.IsActive } : UserProfile))
      some { ctx := c.JSON 200 [], db := d, data := .members memberProfiles }

/-- `ChannelHandler.JoinChannel`. `newID` is the id that `BeforeCreate`
gives the membership, `now` the clock reading of the insert; `none` is the
panic of `userID.(string)`. -/
def JoinChannel (lib : StdLib) (newID : String) (now : ℕ) (c : Context) (d : Database) :
    Option Reply :=
  let channelID := c.Param "id"
  let userID := c.Get "user_id"
  let role := c.Get "role"
  match d.firstChannel (fun ch => ch.ID = channelID) with
  | none => failWith c d 404 "Channel not found"
  | some channel =>
    if channel.Typ = ChannelTypePrivate ∧ role ≠ some (Value.str "admin") then
      failWith c d 403 "Cannot join private channel"
    else
      match d.membership channelID userID with
      | some _ => failWith c d 409 "Already a member of this channel"
      | none =>
        match userID with
        | some (.str userIDStr) =>
          match lib.parseUUID userIDStr with
          | none => failWith c d 400 "Invalid user ID"
          | some userUUID =>
            let member : ChannelMember :=
              { ID := newID, CreatedAt := now, UpdatedAt := now, DeletedAt := none,
                ChannelID := channel.ID, UserID := userUUID }
            match d.createMember member with
            | none => failWith c d 500 "Failed to join channel"
            | some d' =>
              some { ctx := c.JSON 200 [("message", "Successfully joined channel! 🎉")],
                     db := d', data := .none }
        | _ => none

/-- `ChannelHandler.LeaveChannel` at clock reading `now`. -/
def LeaveChannel (now : ℕ) (c : Context) (d : Database) : Option Reply :=
  let channelID := c.Param "id"
  let userID := c.Get "user_id"
  match d.membership channelID userID with
  | none => failWith c d 404 "Not a member of this channel"
  | some membership =>
    match d.firstChannel (fun ch => ch.ID = channelID && ch.Name = "general") with
    | some _ => failWith c d 400 "Cannot leave the general channel"
    | none =>
      some { ctx := c.JSON 200 [("message", "Successfully left channel! 👋")],
             db := d.deleteMember membership now, data := .none }

/-- `ChannelHandler.CreateChannel`. `body` is the decoded request body,
`channelID` and `memberID` the ids that `BeforeCreate` gives the channel
and the creator's membership, `now` and `nowMember` the clock readings of
the two inserts;
`none` is the panic of `userID.(string)`. The `details` entry of the 400
response to a body that does not bind is left out. -/
def CreateChannel (lib : StdLib) (channelID memberID : String) (now nowMember : ℕ)
    (body : Option CreateChannelRequest) (c : Context) (d : Database) : Option Reply :=
  match bindCreateChannel body with
  | none => failWith c d 400 "Invalid request data"
  | some req =>
    let userID := c.Get "user_id"
    let role := c.Get "role"
    let name := channelName lib req.Name
    match d.firstChannel (fun ch => ch.Name = name) with
    | some _ => failWith c d 409 "Channel already exists"
    | none =>
      if req.Typ ≠ "" ∧ req.Typ = ChannelTypePrivate ∧ role ≠ some (Value.str "admin") then
        failWith c d 403 "Only admins can create private channels"
      else
        let channelType := if req.Typ ≠ "" then req.Typ else ChannelTypePublic
        match userID with
        | some (.str userIDStr) =>
          match lib.parseUUID userIDStr with
          | none => failWith c d 400 "Invalid user ID"
          | some createdBy =>
            let channel : Channel :=
              { ID := channelID, CreatedAt := now, UpdatedAt := now, DeletedAt := none,
                Name := name, Description := SanitizeString req.Description,
                Typ := channelType, CreatedBy := createdBy }
            match d.createChannel channel with
            | none => failWith c d 500 "Failed to create channel"
            | some d₁ =>
              let member : ChannelMember :=
                { ID := memberID, CreatedAt := nowMember, UpdatedAt := nowMember,
                  DeletedAt := none, ChannelID := channel.ID, UserID := channel.CreatedBy }
              let d₂ := (d₁.createMember member).getD d₁
              some
                { ctx := c.JSON 201 [("message", "Channel created successfully! 🎉")]
                  db := d₂
                  data := .channel
                    { ID := channel.ID, Name := channel.Name,
                      Description := channel.Description, Typ := channel.Typ,
                      CreatedBy := channel.CreatedBy, CreatedAt := channel.CreatedAt,
                      MemberCount := 1, IsMember := true } }
        | _ => none

/-- The status code of the response a handler wrote, if it returned. -/
def statusOf (r : Option Reply) : Option ℕ :=
  r.bind (fun x => x.ctx.status)

/-- The tables a handler left, if it returned. -/
def dbOf (r : Option Reply) : Option Database :=
  r.map (fun x => x.db)

/-! ## Sample tables -/

/-- The number that a list of decimal digits denotes, continuing from
`acc`; `none` if a character is not a digit. -/
def digitsToNat : List Char → ℕ → Option ℕ
  | [], acc => some acc
  | ch :: rest, acc =>
    if ch.isDigit then digitsToNat rest (acc * 10 + (ch.toNat - 48)) else none

/-- Decimal numbers with an optional sign, for the samples. -/
def sampleAtoi (s : String) : Option ℤ :=
  match s.data with
  | [] => none
  | ch :: rest =>
    if ch = '-' then
      if rest = [] then none else (digitsToNat rest 0).map (fun n => -(n : ℤ))
    else if ch = '+' then
      if rest = [] then none else (digitsToNat rest 0).map (fun n => (n : ℤ))
    else (digitsToNat (ch :: rest) 0).map (fun n => (n : ℤ))

/-- Library functions for the samples: a text of 36 characters is taken
for a canonical UUID, lower-casing is that of ASCII, numbers are decimal. -/
def sampleStd : StdLib :=
  { parseUUID := fun s => if s.length = 36 then some s else none
    toLower := Char.toLower
    Atoi := sampleAtoi }

/-- The id of the user `ann`. -/
def annID : String := "00000000-0000-7000-8000-000000000001"

/-- The id of the user `bob`. -/
def bobID : String := "00000000-0000-7000-8000-000000000002"

/-- The id of the admin `root`. -/
def rootID : String := "00000000-0000-7000-8000-000000000003"

/-- The id of the public channel `general`. -/
def generalID : String := "00000000-0000-7000-8000-0000000000a1"

/-- The id of the private channel `staff`. -/
def staffID : String := "00000000-0000-7000-8000-0000000000a2"

/-- The id of the public channel `random`. -/
def randomID : String := "00000000-0000-7000-8000-0000000000a3"

/-- The id of a root message in `general`. -/
def helloID : String := "00000000-0000-7000-8000-0000000000b1"

/-- The id of a root message in `random`. -/
def otherID : String := "00000000-0000-7000-8000-0000000000b2"

/-- Sample tables: users `ann` and `bob` and the admin `root`; the public
channels `general` and `random` and the private channel `staff`; `ann` is
a member of `general`, `root` of `staff` and `bob` of `random`; one root
message in `general` and one in `random`. -/
def sampleDb : Database :=
  { Users :=
      [{ sampleUser with ID := annID },
       { sampleUser with ID := bobID, Username := "bob", Email := "bob@example.com",
                         DisplayName := "Bob" },
       { sampleUser with ID := rootID, Username := "root", Email := "root@example.com",
                         DisplayName := "Root", Role := "admin" }]
    Channels :=
      [{ ID := generalID, CreatedAt := 1, UpdatedAt := 1, DeletedAt := none, Name := "general",
         Description := "", Typ := "public", CreatedBy := rootID },
       { ID := staffID, CreatedAt := 2, UpdatedAt := 2, DeletedAt := none, Name := "staff",
         Description := "", Typ := "private", CreatedBy := rootID },
       { ID := randomID, CreatedAt := 3, UpdatedAt := 3, DeletedAt := none, Name := "random",
         Description := "", Typ := "public", CreatedBy := rootID }]
    ChannelMembers :=
      [{ ID := "00000000-0000-7000-8000-0000000000c1", CreatedAt := 4, UpdatedAt := 4,
         DeletedAt := none, ChannelID := generalID, UserID := annID },
       { ID := "00000000-0000-7000-8000-0000000000c2", CreatedAt := 5, UpdatedAt := 5,
         DeletedAt := none, ChannelID := staffID, UserID := rootID },
       { ID := "00000000-0000-7000-8000-0000000000c3", CreatedAt := 6, UpdatedAt := 6,
         DeletedAt := none, ChannelID := randomID, UserID := bobID }]
    Messages :=
      [{ ID := helloID, CreatedAt := 7, UpdatedAt := 7, DeletedAt := none, Content := "hello",
         UserID := annID, ChannelID := generalID, ThreadID := none },
       { ID := otherID, CreatedAt := 8, UpdatedAt := 8, DeletedAt := none, Content := "other",
         UserID := bobID, ChannelID := randomID, ThreadID := none }] }

/-- The context of a request on channel `channelID` as `AuthMiddleware`
leaves it for a user with id `userID` and role `role`. -/
def handlerCtx (channelID userID role : String) : Context :=
  { Request := { Method := "POST", Header := [], Query := [], PostForm := [],
                 RemoteIP := "10.0.0.1" },
    Params := [("id", channelID)],
    Keys := ((∅ : AList (fun _ : String => Value)).insert "user_id" (.str userID)).insert
      "role" (.str role),
    status := none, body := [], aborted := false }

/-- The thread id that a `CreateMessageRequest` names: its `thread_id`
when that is present and not empty. -/
def threadRef (req : CreateMessageRequest) : Option String :=
  match req.ThreadID with
  | none => none
  | some threadID => if threadID = "" then none else some threadID

/-! ## Input validation (`validation.go`) -/

/-- `strings.Contains(s, substr)` on the characters of the two texts. -/
def containsChars : List Char → List Char → Bool
  | [], sub => sub.isEmpty
  | ch :: rest, sub => sub.isPrefixOf (ch :: rest) || containsChars rest sub

/-- `strings.Contains(s, substr)`. -/
def Contains (s substr : String) : Bool :=
  containsChars s.data substr.data

/-- `ValidateContentType()`: for the methods POST, PUT and PATCH the header
`Content-Type` has to contain `application/json` or `multipart/form-data`,
else the response is 415 and the chain is aborted; `next` is the rest of
the chain. -/
def ValidateContentType (next : Context → Context) (c : Context) : Context :=
  if c.Request.Method = "POST" ∨ c.Request.Method = "PUT" ∨ c.Request.Method = "PATCH" then
    let contentType := c.GetHeader "Content-Type"
    if !Contains contentType "application/json" &&
        !Contains contentType "multipart/form-data" then
      (c.JSON 415 [("error", "Unsupported content type"),
        ("message", "Expected application/json or multipart/form-data")]).Abort
    else next c
  else next c

/-- The package `regexp` is not among the sources: `MatchString p s` is
`regexp.MustCompile(p).MatchString(s)`. -/
structure RegexpLib where
  MatchString : String → String → Bool

/-- The text of `sqlInjectionPattern`. -/
def sqlInjectionPattern : String :=
  "(?i)(union|select|insert|update|delete|drop|create|alter|exec|script|javascript|onload|onerror|eval|alert|confirm|prompt)"

/-- The text of `xssPattern`. -/
def xssPattern : String :=
  "(?i)(<script|javascript:|onload=|onerror=|onclick=|onmouseover=|<iframe|<object|<embed|<link)"

/-- The text of `commandInjectionPattern`. -/
def commandInjectionPattern : String :=
  "(;\\s*rm\\s+|;\\s*cat\\s+|;\\s*ls\\s+|;\\s*wget\\s+|;\\s*curl\\s+|&&|&|\\|\\||;)"

/-- The text of `pathTraversalPattern`. -/
def pathTraversalPattern : String :=
  "(\\.\\.\\/|\\.\\.\\\\|%2e%2e%2f|%2e%2e%5c)"

/-- `isValidInput(input)`: lower-case the input, then refuse it when one
of the four patterns matches. -/
def isValidInput (re : RegexpLib) (lib : StdLib) (input : String) : Bool :=
  let input := ToLower lib input
  if re.MatchString sqlInjectionPattern input then false
  else if re.MatchString xssPattern input then false
  else if re.MatchString commandInjectionPattern input then false
  else if re.MatchString pathTraversalPattern input then false
  else true

/-- The two nested loops over a `url.Values`: the key of the first entry,
in the order of the iteration, one of whose values `isValidInput` refuses. -/
def firstInvalid (re : RegexpLib) (lib : StdLib) (values : List (String × List String)) :
    Option String :=
  (values.find? (fun e => e.2.any (fun value => !isValidInput re lib value))).map (fun e => e.1)

/-- `InputValidationMiddleware()`. The query values are checked first,
then for POST, PUT and PATCH the values of `PostForm` unless
`c.Request.ParseForm()` returned an error (`formErr`), then the values of
the path parameters; the first refused value ends the request with 400
and the key of the value, else the rest of the chain, `next`, runs. -/
def InputValidationMiddleware (re : RegexpLib) (lib : StdLib) (formErr : Bool)
    (next : Context → Context) (c : Context) : Context :=
  match firstInvalid re lib c.Request.Query with
  | some key =>
    (c.JSON 400 [("error", "Invalid input detected"),
      ("message", "Request contains potentially malicious content"), ("field", key)]).Abort
  | none =>
    let form :=
      if c.Request.Method = "POST" ∨ c.Request.Method = "PUT" ∨ c.Request.Method = "PATCH" then
        if formErr then none else firstInvalid re lib c.Request.PostForm
      else none
    match form with
    | some key =>
      (c.JSON 400 [("error", "Invalid input detected"),
        ("message", "Request contains potentially malicious content"), ("field", key)]).Abort
    | none =>
      match c.Params.find? (fun param => !isValidInput re lib param.2) with
      | some param =>
        (c.JSON 400 [("error", "Invalid path parameter"),
          ("message", "Path contains potentially malicious content"),
          ("field", param.1)]).Abort
      | none => next c

/-- A regular-expression engine for the samples. It knows the four
patterns of `validation.go`: each is an alternation, and a text matches
when it contains one of the alternatives. The alternatives of the third
pattern that hold `\s` all begin with `;`, itself an alternative. -/
def sampleRegexp : RegexpLib :=
  { MatchString := fun p s =>
      if p = sqlInjectionPattern then
        ["union", "select", "insert", "update", "delete", "drop", "create", "alter", "exec",
          "script", "javascript", "onload", "onerror", "eval", "alert", "confirm",
          "prompt"].any (fun w => Contains s w)
      else if p = xssPattern then
        ["<script", "javascript:", "onload=", "onerror=", "onclick=", "onmouseover=",
          "<iframe", "<object", "<embed", "<link"].any (fun w => Contains s w)
      else if p = commandInjectionPattern then
        ["&&", "&", "||", ";"].any (fun w => Contains s w)
      else if p = pathTraversalPattern then
        ["../", "..\\", "%2e%2e%2f", "%2e%2e%5c"].any (fun w => Contains s w)
      else false }

/-! ## Updating a user (`users.go`) -/

/-- The struct `UpdateUserRequest`: each field is a pointer, `none` when
the body does not set it. -/
structure UpdateUserRequest where
  DisplayName : Option String
  Role : Option String
  IsActive : Option Bool
deriving DecidableEq, Repr

/-- `UserHandler.UpdateUser`. `body` is the decoded request body, `none`
when it does not decode. The `details` entry of the 400 response is left
out. -/
def UpdateUser (body : Option UpdateUserRequest) (c : Context) (d : Database) : Option Reply :=
  let userID := c.Param "id"
  let currentUserID := c.Get "user_id"
  let currentRole := c.Get "role"
  match body with
  | none => failWith c d 400 "Invalid request data"
  | some req =>
    match DB.First d.Users (fun u => u.ID = userID) with
    | none => failWith c d 404 "User not found"
    | some user =>
      if currentRole ≠ some (Value.str "admin") ∧ currentUserID ≠ some (Value.str userID) then
        failWith c d 403 "Permission denied"
      else if currentRole ≠ some (Value.str "admin") ∧
          (req.Role ≠ none ∨ req.IsActive ≠ none) then
        failWith c d 403 "Only admins can update role and status"
      else
        let user₁ : User :=
          match req.DisplayName with
          | some displayName => { user with DisplayName := displayName }
          | none => user
        let user₂ : User :=
          if currentRole = some (Value.str "admin") then
            let u : User :=
              match req.Role with
              | some role => { user₁ with Role := role }
              | none => user₁
            match req.IsActive with
            | some isActive => { u with IsActive := isActive }
            | none => u
          else user₁
        some
          { ctx := c.JSON 200 [("message", "User updated successfully! ✅")]
            db := { d with Users := DB.Save d.Users user₂ }
            data := .user
              { ID := user₂.ID, Username := user₂.Username, Email := "",
                DisplayName := user₂.DisplayName, Role := user₂.Role,
                IsActive := user₂.IsActive } }

/-! ## Vocabulary of the later claims -/

/-- `unicode.IsControl`: the control characters, U+0000 to U+001F and
U+007F to U+009F. -/
def isControl (r : Char) : Bool :=
  r.val < 32 || (0x7F ≤ r.val && r.val < 0xA0)

/-- The order of `Order("created_at DESC")` is total. -/
instance : IsTotal Message (fun a b => b.CreatedAt ≤ a.CreatedAt) :=
  ⟨fun a b => Nat.le_total b.CreatedAt a.CreatedAt⟩

/-- The order of `Order("created_at DESC")` is transitive. -/
instance : IsTrans Message (fun a b => b.CreatedAt ≤ a.CreatedAt) :=
  ⟨fun _ _ _ hab hbc => Nat.le_trans hbc hab⟩

/-- The property of C21 as a test on the tables: every message that has a
thread parent references a stored message that has none. -/
def Database.repliesFlat (d : Database) : Bool :=
  d.Messages.all (fun m =>
    match m.ThreadID with
    | none => true
    | some t => d.Messages.any (fun p => p.ID = t && p.ThreadID.isNone))

/-- The id of a reply to the message `hello`, for the samples. -/
def replyOne : String := "00000000-0000-7000-8000-0000000000b3"

/-- The id of a reply to the reply `replyOne`, for the samples. -/
def replyTwo : String := "00000000-0000-7000-8000-0000000000b4"

/-- Membership uniqueness: among the memberships that are not
soft-deleted no pair of channel and user occurs twice. -/
def Database.membersUnique (d : Database) : Prop :=
  ((d.ChannelMembers.filter (fun m => m.DeletedAt.isNone)).map
    (fun m => (m.ChannelID, m.UserID))).Nodup

instance (d : Database) : Decidable d.membersUnique := by
  unfold Database.membersUnique
  infer_instance

/-- A call of one of the three handlers that write memberships, with the
arguments of the call. -/
inductive ChannelOp where
  | create (channelID memberID : String) (now nowMember : ℕ)
      (body : Option CreateChannelRequest) (c : Context)
  | join (newID : String) (now : ℕ) (c : Context)
  | leave (now : ℕ) (c : Context)

/-- The tables after a call; a call that panics leaves them as they are. -/
def ChannelOp.run (lib : StdLib) (d : Database) : ChannelOp → Database
  | .create channelID memberID now nowMember body c =>
    (dbOf (CreateChannel lib channelID memberID now nowMember body c d)).getD d
  | .join newID now c => (dbOf (JoinChannel lib newID now c d)).getD d
  | .leave now c => (dbOf (LeaveChannel now c d)).getD d

/-- A GET request of `ann` whose query holds the one parameter `q` with
the value `value`, for the samples. -/
def queryCtx (value : String) : Context :=
  { handlerCtx generalID annID "normal" with
    Request := { Method := "GET", Header := [], Query := [("q", [value])], PostForm := [],
                 RemoteIP := "10.0.0.1" } }

/-- A POST request of `ann` with a form body in which the field `q` has
the value `value`, as `ParseForm` leaves it in `PostForm`, for the
samples. -/
def formCtx (value : String) : Context :=
  { handlerCtx generalID annID "normal" with
    Request := { Method := "POST",
                 Header := [("Content-Type", "application/x-www-form-urlencoded")],
                 Query := [], PostForm := [("q", [value])], RemoteIP := "10.0.0.1" } }

/-- The relation between a bucket store `A` and the store `B` that a
sweep at or after `t₀` leaves of it: rate and burst agree, and every key
either has the same bucket in both, or has none in `B` and in `A` a bucket
that is full from `t₀` on. -/
def Sim (t₀ : ℚ) (A B : IPRateLimiter) : Prop :=
  A.r = B.r ∧ A.b = B.b ∧ ∀ k, B.bucket k = A.bucket k ∨
    (B.bucket k = none ∧ ∃ lim, A.bucket k = some lim ∧
      ∀ t, t₀ ≤ t → lim.TokensAt t = (A.b : ℚ))

/-! ## Theorems: the token bucket -/

theorem Limiter.tokensAt_le_burst (lim : Limiter) (t : ℚ) :
    lim.TokensAt t ≤ (lim.burst : ℚ) :=
  min_le_left _ _

theorem Limiter.tokensAt_nonneg (lim : Limiter) (t : ℚ) (hb : 0 ≤ lim.burst)
    (hr : 0 ≤ lim.limit) (htok : 0 ≤ lim.tokens) (hl : lim.last ≤ t) :
    0 ≤ lim.TokensAt t := by
  unfold Limiter.TokensAt
  have h1 : (0 : ℚ) ≤ (lim.burst : ℚ) := by exact_mod_cast hb
  have h2 : 0 ≤ (t - lim.last) * lim.limit := mul_nonneg (sub_nonneg.2 hl) hr
  exact le_min h1 (by linarith)

theorem Limiter.allow_fst (lim : Limiter) (t : ℚ) :
    (lim.Allow t).1 = decide (1 ≤ lim.TokensAt t) := by
  unfold Limiter.Allow
  by_cases h : 1 ≤ lim.TokensAt t <;> simp [h]

theorem Limiter.allow_snd (lim : Limiter) (t : ℚ) :
    (lim.Allow t).2 =
      { lim with
        tokens := if 1 ≤ lim.TokensAt t then lim.TokensAt t - 1 else lim.TokensAt t,
        last := t } := by
  unfold Limiter.Allow
  by_cases h : 1 ≤ lim.TokensAt t <;> simp [h]

theorem Limiter.allow_keeps (lim : Limiter) (t : ℚ) (hb : 0 ≤ lim.burst)
    (hr : 0 ≤ lim.limit) (htok : 0 ≤ lim.tokens) (hl : lim.last ≤ t) :
    (lim.Allow t).2.limit = lim.limit ∧ (lim.Allow t).2.burst = lim.burst ∧
      0 ≤ (lim.Allow t).2.tokens ∧ (lim.Allow t).2.tokens ≤ (lim.burst : ℚ) ∧
      (lim.Allow t).2.last = t := by
  have h0 := lim.tokensAt_nonneg t hb hr htok hl
  have h1 := lim.tokensAt_le_burst t
  rw [Limiter.allow_snd]
  refine ⟨rfl, rfl, ?_, ?_, rfl⟩
  · show 0 ≤ (if 1 ≤ lim.TokensAt t then lim.TokensAt t - 1 else lim.TokensAt t)
    split_ifs with h <;> linarith
  · show (if 1 ≤ lim.TokensAt t then lim.TokensAt t - 1 else lim.TokensAt t) ≤ _
    split_ifs with h <;> linarith

theorem Limiter.tokensAt_ge_one (lim : Limiter) (t t' : ℚ) (hb : 1 ≤ lim.burst)
    (hr : 0 < lim.limit) (htok : 0 ≤ lim.tokens) (hl : lim.last ≤ t)
    (hw : t + 1 / lim.limit ≤ t') : 1 ≤ lim.TokensAt t' := by
  unfold Limiter.TokensAt
  have h1 : (1 : ℚ) ≤ (lim.burst : ℚ) := by exact_mod_cast hb
  have h2 : 1 / lim.limit ≤ t' - lim.last := by linarith
  have h3 : 1 ≤ (t' - lim.last) * lim.limit := by
    have := mul_le_mul_of_nonneg_right h2 hr.le
    rwa [one_div, inv_mul_cancel₀ hr.ne.symm] at this
  exact le_min h1 (by linarith)

theorem NewLimiter_tokensAt (r : ℚ) (b : ℤ) (t : ℚ) (hr : 0 ≤ r) (ht : 0 ≤ t) :
    (NewLimiter r b).TokensAt t = (b : ℚ) := by
  unfold Limiter.TokensAt NewLimiter
  simp only [sub_zero]
  exact min_eq_left (by nlinarith [mul_nonneg ht hr])

/-! ## Theorems: one admission check -/

theorem check_of_lookup_some (i : IPRateLimiter) (k : String) (t : ℚ) (p : ℕ)
    (lim : Limiter) (hk : i.ips.lookup k = some p) (hp : i.objs[p]? = some lim) :
    i.check k t = ((lim.Allow t).1, { i with objs := i.objs.set p (lim.Allow t).2 }) := by
  simp [IPRateLimiter.check, IPRateLimiter.GetLimiter, IPRateLimiter.allowAt, hk, hp]

theorem check_of_lookup_none (i : IPRateLimiter) (k : String) (t : ℚ)
    (hk : i.ips.lookup k = none) :
    i.check k t = (((NewLimiter i.r i.b).Allow t).1,
      { i with objs := i.objs ++ [((NewLimiter i.r i.b).Allow t).2],
               ips := i.ips.insert k i.objs.length }) := by
  simp [IPRateLimiter.check, IPRateLimiter.GetLimiter, IPRateLimiter.allowAt,
    IPRateLimiter.AddIP, hk]

theorem check_r (i : IPRateLimiter) (k : String) (t : ℚ) : (i.check k t).2.r = i.r := by
  cases hk : i.ips.lookup k with
  | none => rw [check_of_lookup_none i k t hk]
  | some p =>
    cases hp : i.objs[p]? with
    | none => simp [IPRateLimiter.check, IPRateLimiter.GetLimiter, IPRateLimiter.allowAt, hk, hp]
    | some lim => rw [check_of_lookup_some i k t p lim hk hp]

theorem check_b (i : IPRateLimiter) (k : String) (t : ℚ) : (i.check k t).2.b = i.b := by
  cases hk : i.ips.lookup k with
  | none => rw [check_of_lookup_none i k t hk]
  | some p =>
    cases hp : i.objs[p]? with
    | none => simp [IPRateLimiter.check, IPRateLimiter.GetLimiter, IPRateLimiter.allowAt, hk, hp]
    | some lim => rw [check_of_lookup_some i k t p lim hk hp]

theorem rateLimitMiddleware_eq (i : IPRateLimiter) (now : ℚ) (next : Context → Context)
    (c : Context) :
    RateLimitMiddleware i now next c =
      if (i.check c.ClientIP now).1 then (next c, (i.check c.ClientIP now).2)
      else ((c.JSON 429 [("error", "Rate limit exceeded"),
        ("message", "Too many requests. Please slow down.")]).Abort,
        (i.check c.ClientIP now).2) := by
  unfold RateLimitMiddleware IPRateLimiter.check
  cases h : ((i.GetLimiter c.ClientIP).2.allowAt (i.GetLimiter c.ClientIP).1 now).1 <;> simp [h]

theorem IPRateLimiter.WF.mono {i : IPRateLimiter} {now t : ℚ} (h : i.WF now) (ht : now ≤ t) :
    i.WF t :=
  { r_nonneg := h.r_nonneg
    b_nonneg := h.b_nonneg
    now_nonneg := h.now_nonneg.trans ht
    ptr_lt := h.ptr_lt
    ptr_inj := h.ptr_inj
    obj := fun lim hl =>
      let ⟨a, b, c, d, e⟩ := h.obj lim hl
      ⟨a, b, c, d, e.trans ht⟩ }

theorem NewIPRateLimiter_wf (r : ℚ) (b : ℤ) (hr : 0 ≤ r) (hb : 0 ≤ b) :
    (NewIPRateLimiter r b).WF 0 :=
  { r_nonneg := hr
    b_nonneg := hb
    now_nonneg := le_refl _
    ptr_lt := fun k p h => by simp [NewIPRateLimiter] at h
    ptr_inj := fun k k' p h => by simp [NewIPRateLimiter] at h
    obj := fun lim h => by simp [NewIPRateLimiter] at h }

theorem IPRateLimiter.WF.check {i : IPRateLimiter} {now : ℚ} (h : i.WF now)
    (k : String) (t : ℚ) (ht : now ≤ t) : (i.check k t).2.WF t := by
  have h' := h.mono ht
  cases hk : i.ips.lookup k with
  | none =>
    rw [check_of_lookup_none i k t hk]
    have hnew := (NewLimiter i.r i.b).allow_keeps t h.b_nonneg h.r_nonneg
      (by simpa [NewLimiter] using (show (0 : ℚ) ≤ (i.b : ℚ) by exact_mod_cast h.b_nonneg))
      h'.now_nonneg
    refine ⟨h.r_nonneg, h.b_nonneg, h'.now_nonneg, ?_, ?_, ?_⟩
    · intro k' p hp
      simp only [List.length_append, List.length_singleton]
      by_cases hkk : k' = k
      · subst hkk
        rw [AList.lookup_insert] at hp
        cases hp
        exact Nat.lt_succ_self _
      · rw [AList.lookup_insert_ne hkk] at hp
        exact Nat.lt_succ_of_lt (h.ptr_lt k' p hp)
    · intro k1 k2 p h1 h2
      simp only at h1 h2
      by_cases hk1 : k1 = k <;> by_cases hk2 : k2 = k
      · rw [hk1, hk2]
      · rw [hk1, AList.lookup_insert] at h1
        rw [AList.lookup_insert_ne hk2] at h2
        cases h1
        exact absurd (h.ptr_lt k2 _ h2) (lt_irrefl _)
      · rw [hk2, AList.lookup_insert] at h2
        rw [AList.lookup_insert_ne hk1] at h1
        cases h2
        exact absurd (h.ptr_lt k1 _ h1) (lt_irrefl _)
      · rw [AList.lookup_insert_ne hk1] at h1
        rw [AList.lookup_insert_ne hk2] at h2
        exact h.ptr_inj k1 k2 p h1 h2
    · intro lim hl
      simp only at hl
      rcases List.mem_append.1 hl with hl | hl
      · exact h'.obj lim hl
      · rw [List.mem_singleton] at hl
        subst hl
        obtain ⟨a, b, c, d, e⟩ := hnew
        exact ⟨a, b, c, d, e.le⟩
  | some p =>
    have hlt := h.ptr_lt k p hk
    have hp : i.objs[p]? = some i.objs[p] := List.getElem?_eq_getElem hlt
    rw [check_of_lookup_some i k t p _ hk hp]
    obtain ⟨a, b, c, d, e⟩ := h.obj _ (List.getElem_mem hlt)
    have hb0 : 0 ≤ (i.objs[p]).burst := by rw [b]; exact h.b_nonneg
    have hr0 : 0 ≤ (i.objs[p]).limit := by rw [a]; exact h.r_nonneg
    have hnew := (i.objs[p]).allow_keeps t hb0 hr0 c (e.trans ht)
    refine ⟨h.r_nonneg, h.b_nonneg, h'.now_nonneg, ?_, h.ptr_inj, ?_⟩
    · intro k' q hq
      simp only [List.length_set]
      exact h.ptr_lt k' q hq
    · intro lim hl
      simp only at hl
      rcases List.mem_or_eq_of_mem_set hl with hl | hl
      · exact h'.obj lim hl
      · subst hl
        obtain ⟨a', b', c', d', e'⟩ := hnew
        exact ⟨a'.trans a, b'.trans b, c', by rw [← b]; exact d', e'.le⟩

/-! ## Theorems: the eviction sweep -/

theorem lookup_foldl_erase (P : ℕ → Bool) (L : List (Σ _ : String, ℕ))
    (m : AList (fun _ : String => ℕ)) (k : String) :
    (L.foldl (fun m e => if P e.2 then m.erase e.1 else m) m).lookup k =
      if ∃ e ∈ L, e.1 = k ∧ P e.2 = true then none else m.lookup k := by
  induction L generalizing m with
  | nil => simp
  | cons e L ih =>
    rw [List.foldl_cons, ih]
    by_cases hL : ∃ e' ∈ L, e'.1 = k ∧ P e'.2 = true
    · have : ∃ e' ∈ e :: L, e'.1 = k ∧ P e'.2 = true := by
        obtain ⟨e', he', h⟩ := hL
        exact ⟨e', List.mem_cons_of_mem _ he', h⟩
      rw [if_pos hL, if_pos this]
    · rw [if_neg hL]
      by_cases hP : P e.2 = true
      · by_cases hk : e.1 = k
        · have : ∃ e' ∈ e :: L, e'.1 = k ∧ P e'.2 = true :=
            ⟨e, List.mem_cons_self _ _, hk, hP⟩
          rw [if_pos this, if_pos hP, ← hk, AList.lookup_erase]
        · have : ¬ ∃ e' ∈ e :: L, e'.1 = k ∧ P e'.2 = true := by
            rintro ⟨e', he', h1, h2⟩
            rcases List.mem_cons.1 he' with rfl | he'
            · exact hk h1
            · exact hL ⟨e', he', h1, h2⟩
          rw [if_neg this, if_pos hP, AList.lookup_erase_ne (Ne.symm hk)]
      · have : ¬ ∃ e' ∈ e :: L, e'.1 = k ∧ P e'.2 = true := by
          rintro ⟨e', he', h1, h2⟩
          rcases List.mem_cons.1 he' with rfl | he'
          · exact hP h2
          · exact hL ⟨e', he', h1, h2⟩
        rw [if_neg this, if_neg hP]

theorem lookup_cleanupPass (i : IPRateLimiter) (now : ℚ) (ip : String) :
    (i.cleanupPass now).ips.lookup ip =
      (i.ips.lookup ip).bind (fun p => if i.isFull p now then none else some p) := by
  unfold IPRateLimiter.cleanupPass
  simp only
  rw [lookup_foldl_erase (fun p => i.isFull p now)]
  cases hl : i.ips.lookup ip with
  | none =>
    have : ¬ ∃ e ∈ i.ips.entries, e.1 = ip ∧ i.isFull e.2 now = true := by
      rintro ⟨⟨k, p⟩, he, rfl, _⟩
      have : p ∈ i.ips.lookup k := AList.mem_lookup_iff.2 he
      rw [hl] at this
      exact absurd this (by simp)
    rw [if_neg this]; rfl
  | some p =>
    have hp : (⟨ip, p⟩ : Σ _ : String, ℕ) ∈ i.ips.entries :=
      AList.mem_lookup_iff.1 (by rw [hl]; exact rfl)
    by_cases hf : i.isFull p now = true
    · rw [if_pos ⟨⟨ip, p⟩, hp, rfl, hf⟩]
      simp [hf]
    · have : ¬ ∃ e ∈ i.ips.entries, e.1 = ip ∧ i.isFull e.2 now = true := by
        rintro ⟨⟨k, q⟩, he, rfl, hq⟩
        have hq' : q ∈ i.ips.lookup k := AList.mem_lookup_iff.2 he
        rw [hl] at hq'
        have : p = q := by simpa using hq'
        exact hf (this ▸ hq)
      rw [if_neg this]
      simp [hf]

theorem IPRateLimiter.WF.cleanupPass {i : IPRateLimiter} {now : ℚ} (h : i.WF now) (t : ℚ) :
    (i.cleanupPass t).WF now := by
  have hsub : ∀ k p, (i.cleanupPass t).ips.lookup k = some p → i.ips.lookup k = some p := by
    intro k p hp
    rw [lookup_cleanupPass] at hp
    cases hl : i.ips.lookup k with
    | none => rw [hl] at hp; simp at hp
    | some q =>
      rw [hl] at hp
      by_cases hf : i.isFull q t = true
      · simp [hf] at hp
      · simpa [hf] using hp
  exact
    { r_nonneg := h.r_nonneg
      b_nonneg := h.b_nonneg
      now_nonneg := h.now_nonneg
      ptr_lt := fun k p hp => h.ptr_lt k p (hsub k p hp)
      ptr_inj := fun k k' p h1 h2 => h.ptr_inj k k' p (hsub k p h1) (hsub k' p h2)
      obj := h.obj }

/-! ## Theorems: sequences of events -/

theorem run_r_b (i : IPRateLimiter) (evs : List Event) :
    (i.run evs).2.r = i.r ∧ (i.run evs).2.b = i.b := by
  induction evs generalizing i with
  | nil => exact ⟨rfl, rfl⟩
  | cons e es ih =>
    cases e with
    | check k t =>
      simp only [IPRateLimiter.run]
      rw [(ih _).1, (ih _).2, check_r, check_b]
      exact ⟨rfl, rfl⟩
    | sweep t =>
      simp only [IPRateLimiter.run]
      rw [(ih _).1, (ih _).2]
      exact ⟨rfl, rfl⟩

theorem run_append (i : IPRateLimiter) (es fs : List Event) :
    i.run (es ++ fs) = ((i.run es).1 ++ ((i.run es).2.run fs).1, ((i.run es).2.run fs).2) := by
  induction es generalizing i with
  | nil => simp [IPRateLimiter.run]
  | cons e es ih =>
    cases e with
    | check k t => simp [IPRateLimiter.run, ih]
    | sweep t => simp [IPRateLimiter.run, ih]

theorem IPRateLimiter.WF.run {i : IPRateLimiter} {now : ℚ} (h : i.WF now)
    (evs : List Event) (hs : List.Sorted (· ≤ ·) (now :: evs.map Event.time))
    (T : ℚ) (hT : ∀ x ∈ now :: evs.map Event.time, x ≤ T) : (i.run evs).2.WF T := by
  induction evs generalizing i now with
  | nil => exact h.mono (hT now (List.mem_cons_self _ _))
  | cons e es ih =>
    have hs' : List.Sorted (· ≤ ·) (e.time :: es.map Event.time) := by
      simpa using (List.sorted_cons.1 hs).2
    have hle : now ≤ e.time :=
      (List.sorted_cons.1 hs).1 _ (by simp)
    have hT' : ∀ x ∈ e.time :: es.map Event.time, x ≤ T := by
      intro x hx
      exact hT x (List.mem_cons_of_mem _ (by simpa using hx))
    cases e with
    | check k t =>
      simp only [IPRateLimiter.run]
      exact ih (h.check k t hle) hs' hT'
    | sweep t =>
      simp only [IPRateLimiter.run]
      exact ih ((h.cleanupPass t).mono hle) hs' hT'

/-- Either the key is unmapped, or it is mapped to a pointer whose object
is `lim`. -/
theorem frame_check {i : IPRateLimiter} {now : ℚ} (h : i.WF now) (k k' : String) (t : ℚ)
    (hne : k' ≠ k) (lim : Limiter)
    (hk : i.ips.lookup k = none ∨ ∃ p, i.ips.lookup k = some p ∧ i.objs[p]? = some lim) :
    (i.check k' t).2.ips.lookup k = none ∨
      ∃ p, (i.check k' t).2.ips.lookup k = some p ∧ (i.check k' t).2.objs[p]? = some lim := by
  cases hk' : i.ips.lookup k' with
  | none =>
    rw [check_of_lookup_none i k' t hk']
    simp only
    rw [AList.lookup_insert_ne (Ne.symm hne)]
    rcases hk with hk | ⟨p, hp1, hp2⟩
    · exact Or.inl hk
    · refine Or.inr ⟨p, hp1, ?_⟩
      rw [List.getElem?_append_left (h.ptr_lt k p hp1)]
      exact hp2
  | some q =>
    have hlt := h.ptr_lt k' q hk'
    have hq : i.objs[q]? = some i.objs[q] := List.getElem?_eq_getElem hlt
    rw [check_of_lookup_some i k' t q _ hk' hq]
    simp only
    rcases hk with hk | ⟨p, hp1, hp2⟩
    · exact Or.inl hk
    · refine Or.inr ⟨p, hp1, ?_⟩
      have hpq : q ≠ p := by
        rintro rfl
        exact hne (h.ptr_inj k' k q hk' hp1)
      rw [List.getElem?_set_ne hpq]
      exact hp2

theorem frame_cleanupPass (i : IPRateLimiter) (k : String) (t : ℚ) (lim : Limiter)
    (hk : i.ips.lookup k = none ∨ ∃ p, i.ips.lookup k = some p ∧ i.objs[p]? = some lim) :
    (i.cleanupPass t).ips.lookup k = none ∨
      ∃ p, (i.cleanupPass t).ips.lookup k = some p ∧ (i.cleanupPass t).objs[p]? = some lim := by
  rw [lookup_cleanupPass]
  rcases hk with hk | ⟨p, hp1, hp2⟩
  · left; rw [hk]; rfl
  · rw [hp1]
    by_cases hf : i.isFull p t = true
    · left; simp [hf]
    · right
      exact ⟨p, by simp [hf], hp2⟩

theorem frame_run {i : IPRateLimiter} {now : ℚ} (h : i.WF now) (k : String)
    (evs : List Event) (hs : List.Sorted (· ≤ ·) (now :: evs.map Event.time))
    (hother : ∀ τ, Event.check k τ ∉ evs) (lim : Limiter)
    (hk : i.ips.lookup k = none ∨ ∃ p, i.ips.lookup k = some p ∧ i.objs[p]? = some lim) :
    (i.run evs).2.ips.lookup k = none ∨
      ∃ p, (i.run evs).2.ips.lookup k = some p ∧ (i.run evs).2.objs[p]? = some lim := by
  induction evs generalizing i now with
  | nil => exact hk
  | cons e es ih =>
    have hs' : List.Sorted (· ≤ ·) (e.time :: es.map Event.time) := by
      simpa using (List.sorted_cons.1 hs).2
    have hle : now ≤ e.time :=
      (List.sorted_cons.1 hs).1 _ (by simp)
    have hother' : ∀ τ, Event.check k τ ∉ es :=
      fun τ hmem => hother τ (List.mem_cons_of_mem _ hmem)
    cases e with
    | check k' t =>
      have hne : k' ≠ k := by
        rintro rfl
        exact hother t (List.mem_cons_self _ _)
      simp only [IPRateLimiter.run]
      exact ih (h.check k' t hle) hs' hother' (frame_check h k k' t hne lim hk)
    | sweep t =>
      simp only [IPRateLimiter.run]
      exact ih ((h.cleanupPass t).mono hle) hs' hother' (frame_cleanupPass i k t lim hk)

theorem run_cons_check (i : IPRateLimiter) (k : String) (t : ℚ) (es : List Event) :
    i.run (Event.check k t :: es) =
      ((i.check k t).1 :: ((i.check k t).2.run es).1, ((i.check k t).2.run es).2) :=
  rfl

theorem run_cons_sweep (i : IPRateLimiter) (t : ℚ) (es : List Event) :
    i.run (Event.sweep t :: es) = (i.cleanupPass t).run es :=
  rfl

theorem run_drain (i : IPRateLimiter) (k : String) (t : ℚ) (p : ℕ) (m : ℕ) (lim : Limiter)
    (hk : i.ips.lookup k = some p) (hp : i.objs[p]? = some lim) (hl : lim.last = t)
    (htok : lim.tokens = (m : ℚ)) (hb : (m : ℚ) ≤ (lim.burst : ℚ)) :
    (i.run (List.replicate (m + 1) (Event.check k t))).1 =
      List.replicate m true ++ [false] := by
  induction m generalizing i lim with
  | zero =>
    have hT : lim.TokensAt t = 0 := by
      unfold Limiter.TokensAt
      rw [hl, htok]
      simpa using hb
    simp [IPRateLimiter.run, check_of_lookup_some i k t p lim hk hp, Limiter.allow_fst, hT]
  | succ m ih =>
    have hT : lim.TokensAt t = (m : ℚ) + 1 := by
      unfold Limiter.TokensAt
      rw [hl, htok]
      simpa using hb
    have h1 : (1 : ℚ) ≤ (m : ℚ) + 1 := by
      have : (0 : ℚ) ≤ (m : ℚ) := Nat.cast_nonneg m
      linarith
    have hlt : p < i.objs.length := by
      rcases Nat.lt_or_ge p i.objs.length with h | h
      · exact h
      · rw [List.getElem?_eq_none h] at hp; cases hp
    rw [List.replicate_succ, run_cons_check, check_of_lookup_some i k t p lim hk hp]
    simp only
    rw [ih { i with objs := i.objs.set p (lim.Allow t).2 } (lim.Allow t).2 hk (by simp [hlt])
      (by rw [Limiter.allow_snd]) (by rw [Limiter.allow_snd]; simp [hT, h1])
      (by
        rw [Limiter.allow_snd]
        have : (m : ℚ) ≤ (m : ℚ) + 1 := by linarith
        push_cast at hb
        exact this.trans hb)]
    simp [Limiter.allow_fst, hT, h1, List.replicate_succ]

theorem run_fresh (i : IPRateLimiter) (n : ℕ) (ip : String) (t : ℚ) (hb : i.b = (n : ℤ))
    (hn : 1 ≤ n) (hr : 0 ≤ i.r) (ht : 0 ≤ t) (hfresh : i.ips.lookup ip = none) :
    (i.run (List.replicate (n + 1) (Event.check ip t))).1 =
      List.replicate n true ++ [false] := by
  obtain ⟨m, rfl⟩ : ∃ m, n = m + 1 := ⟨n - 1, by omega⟩
  have hT : (NewLimiter i.r i.b).TokensAt t = (m : ℚ) + 1 := by
    rw [NewLimiter_tokensAt i.r i.b t hr ht, hb]
    push_cast
    ring
  have h1 : (1 : ℚ) ≤ (m : ℚ) + 1 := by
    have : (0 : ℚ) ≤ (m : ℚ) := Nat.cast_nonneg m
    linarith
  rw [List.replicate_succ, run_cons_check, check_of_lookup_none i ip t hfresh]
  simp only
  rw [run_drain _ ip t i.objs.length m ((NewLimiter i.r i.b).Allow t).2
    (by simp) (by simp) (by rw [Limiter.allow_snd]) (by rw [Limiter.allow_snd]; simp [hT, h1])
    (by
      rw [Limiter.allow_snd]
      show (m : ℚ) ≤ ((NewLimiter i.r i.b).burst : ℚ)
      simp only [NewLimiter, hb]
      push_cast
      linarith)]
  simp [Limiter.allow_fst, hT, h1, List.replicate_succ]

theorem check_maps {i : IPRateLimiter} {now : ℚ} (h : i.WF now) (k : String) (t : ℚ) :
    ∃ p lim, (i.check k t).2.ips.lookup k = some p ∧ (i.check k t).2.objs[p]? = some lim := by
  cases hk : i.ips.lookup k with
  | none =>
    rw [check_of_lookup_none i k t hk]
    exact ⟨i.objs.length, _, by simp, List.getElem?_concat_length _ _⟩
  | some p =>
    have hlt := h.ptr_lt k p hk
    rw [check_of_lookup_some i k t p _ hk (List.getElem?_eq_getElem hlt)]
    exact ⟨p, (i.objs[p].Allow t).2, hk, by simp [hlt]⟩

theorem check_after_wait {i : IPRateLimiter} {t t' : ℚ} (h : i.WF t') (k : String)
    (hr : 0 < i.r) (hb : 1 ≤ i.b) (lim : Limiter) (hlim : lim.limit = i.r)
    (hburst : lim.burst = i.b) (htok : 0 ≤ lim.tokens) (hlast : lim.last ≤ t)
    (hw : t + 1 / i.r ≤ t')
    (hk : i.ips.lookup k = none ∨ ∃ p, i.ips.lookup k = some p ∧ i.objs[p]? = some lim) :
    (i.check k t').1 = true := by
  rcases hk with hk | ⟨p, hp1, hp2⟩
  · rw [check_of_lookup_none i k t' hk]
    simp only [Limiter.allow_fst, decide_eq_true_eq]
    rw [NewLimiter_tokensAt i.r i.b t' hr.le h.now_nonneg]
    exact_mod_cast hb
  · rw [check_of_lookup_some i k t' p lim hp1 hp2]
    simp only [Limiter.allow_fst, decide_eq_true_eq]
    exact lim.tokensAt_ge_one t t' (hburst ▸ hb) (hlim ▸ hr) htok hlast (hlim ▸ hw)

theorem readmitted_after_wait (r : ℚ) (n : ℕ) (hr : 0 < r) (hn : 1 ≤ n)
    (evs1 evs2 : List Event) (ip : String) (t t' : ℚ)
    (htimes : List.Sorted (· ≤ ·)
      (0 :: (evs1 ++ Event.check ip t :: evs2 ++ [Event.check ip t']).map Event.time))
    (hother : ∀ τ, Event.check ip τ ∉ evs2)
    (hwait : t + 1 / r ≤ t') :
    (((((NewIPRateLimiter r n).run evs1).2.check ip t).2.run evs2).2.check ip t').1 = true := by
  simp only [List.Sorted, List.map_append, List.map_cons, List.map_nil, Event.time,
    List.pairwise_cons, List.pairwise_append, List.append_assoc, List.cons_append] at htimes
  obtain ⟨h0, hs1, ⟨ht2, hs2, -, h2t'⟩, h1t⟩ := htimes
  have hn' : (0 : ℤ) ≤ (n : ℤ) := by exact_mod_cast Nat.zero_le n
  have ht0 : (0 : ℚ) ≤ t := h0 t (by simp)
  have htt' : t ≤ t' := ht2 t' (by simp)
  -- the store before the check at `t`
  have hwf1 : ((NewIPRateLimiter r n).run evs1).2.WF t := by
    refine (NewIPRateLimiter_wf r n hr.le hn').run evs1 ?_ t ?_
    · exact List.sorted_cons.2 ⟨fun b hb => h0 b (by simp [hb]), hs1⟩
    · intro x hx
      rcases List.mem_cons.1 hx with rfl | hx
      · exact ht0
      · exact h1t x hx t (by simp)
  -- the store after the check at `t`
  have hwf2 := hwf1.check ip t le_rfl
  obtain ⟨p, lim, hp1, hp2⟩ := check_maps hwf1 ip t
  obtain ⟨hl1, hl2, hl3, -, hl5⟩ := hwf2.obj lim (List.getElem?_mem hp2)
  have hs2' : List.Sorted (· ≤ ·) (t :: evs2.map Event.time) :=
    List.sorted_cons.2 ⟨fun b hb => ht2 b (by simp [hb]), hs2⟩
  -- the store before the check at `t'`
  have hwf3 := hwf2.run evs2 hs2' t' (by
    intro x hx
    rcases List.mem_cons.1 hx with rfl | hx
    · exact htt'
    · exact h2t' x hx t' (by simp))
  have hfr := frame_run hwf2 ip evs2 hs2' hother lim (Or.inr ⟨p, hp1, hp2⟩)
  have hrb := run_r_b ((((NewIPRateLimiter r n).run evs1).2.check ip t).2) evs2
  have hrb1 := run_r_b (NewIPRateLimiter r n) evs1
  have hR : (((((NewIPRateLimiter r n).run evs1).2.check ip t).2.run evs2).2).r = r := by
    rw [hrb.1, check_r, hrb1.1]; rfl
  have hB : (((((NewIPRateLimiter r n).run evs1).2.check ip t).2.run evs2).2).b = (n : ℤ) := by
    rw [hrb.2, check_b, hrb1.2]; rfl
  have hR2 : ((((NewIPRateLimiter r n).run evs1).2.check ip t).2).r = r := by
    rw [check_r, hrb1.1]; rfl
  have hB2 : ((((NewIPRateLimiter r n).run evs1).2.check ip t).2).b = (n : ℤ) := by
    rw [check_b, hrb1.2]; rfl
  refine check_after_wait (t := t) hwf3 ip (by rw [hR]; exact hr)
    (by rw [hB]; exact_mod_cast hn) lim (by rw [hR, hl1, hR2]) (by rw [hB, hl2, hB2]) hl3 hl5
    (by rw [hR]; exact hwait) hfr

theorem scenario_burst3 (ip : String) :
    ((NewIPRateLimiter 1 3).run [Event.check ip 0, Event.check ip 0, Event.check ip 0,
      Event.check ip 0, Event.check ip 3]).1 = [true, true, true, false, true] := by
  have h4 := run_fresh (NewIPRateLimiter 1 3) 3 ip 0 rfl (by norm_num)
    (by norm_num [NewIPRateLimiter]) le_rfl (by simp [NewIPRateLimiter])
  have h5 := readmitted_after_wait 1 3 one_pos (by norm_num)
    [Event.check ip 0, Event.check ip 0, Event.check ip 0] [] ip 0 3
    (by simp [List.Sorted, Event.time]) (by simp) (by norm_num)
  have happ := run_append (NewIPRateLimiter 1 3)
    [Event.check ip 0, Event.check ip 0, Event.check ip 0, Event.check ip 0]
    [Event.check ip 3]
  have hrep : List.replicate (3 + 1) (Event.check ip 0) =
      [Event.check ip 0, Event.check ip 0, Event.check ip 0, Event.check ip 0] := rfl
  rw [hrep] at h4
  simp only [List.cons_append, List.nil_append] at happ
  rw [happ, h4]
  have hsplit := run_append (NewIPRateLimiter 1 3)
    [Event.check ip 0, Event.check ip 0, Event.check ip 0] [Event.check ip 0]
  simp only [List.cons_append, List.nil_append] at hsplit
  rw [hsplit]
  simp only [run_cons_check, IPRateLimiter.run] at h5 ⊢
  simp only [Int.cast_ofNat, Nat.cast_ofNat] at h5 ⊢
  rw [h5]
  rfl

theorem exists_upper_bound (l : List ℚ) : ∃ T, ∀ x ∈ l, x ≤ T := by
  induction l with
  | nil => exact ⟨0, fun x hx => absurd hx (List.not_mem_nil x)⟩
  | cons a l ih =>
    obtain ⟨T, hT⟩ := ih
    refine ⟨max a T, fun x hx => ?_⟩
    rcases List.mem_cons.1 hx with rfl | hx
    · exact le_max_left _ _
    · exact (hT x hx).trans (le_max_right _ _)

theorem bucket_cleanupPass (i : IPRateLimiter) (now : ℚ) (ip : String) :
    (i.cleanupPass now).bucket ip =
      (i.bucket ip).bind (fun lim => if lim.TokensAt now = (i.b : ℚ) then none else some lim) := by
  unfold IPRateLimiter.bucket
  rw [lookup_cleanupPass]
  have hobjs : (i.cleanupPass now).objs = i.objs := rfl
  rw [hobjs]
  cases hl : i.ips.lookup ip with
  | none => rfl
  | some p =>
    cases hp : i.objs[p]? with
    | none => simp [IPRateLimiter.isFull, hp]
    | some lim =>
      by_cases hf : lim.TokensAt now = (i.b : ℚ)
      · simp [IPRateLimiter.isFull, hp, hf]
      · simp [IPRateLimiter.isFull, hp, hf]

theorem denied_after_burst (i : IPRateLimiter) (n : ℕ) (ip : String) (t : ℚ)
    (hb : i.b = (n : ℤ)) (hn : 1 ≤ n) (hr : 0 ≤ i.r) (ht : 0 ≤ t)
    (hfresh : i.ips.lookup ip = none) :
    ((i.run (List.replicate n (Event.check ip t))).2.check ip t).1 = false := by
  have h := run_fresh i n ip t hb hn hr ht hfresh
  rw [List.replicate_succ', run_append] at h
  simp only [run_cons_check, IPRateLimiter.run] at h
  have h2 := congrArg List.getLast? h
  simpa using h2

/-! ## The claims about the rate limiter -/

/-- C1: for a tier with burst `b = n ≥ 1` and a client key that is not in
the store, `n + 1` consecutive admission checks `GetLimiter(key).Allow()`
at one instant `t` give `n` admissions followed by one denial. The rate
is a non-negative number and `t` is not before the zero time. -/
theorem C1_burst_admitted_then_denied (i : IPRateLimiter) (n : ℕ) (ip : String) (t : ℚ)
    (hb : i.b = (n : ℤ)) (hn : 1 ≤ n) (hr : 0 ≤ i.r) (ht : 0 ≤ t)
    (hfresh : i.ips.lookup ip = none) :
    (i.run (List.replicate (n + 1) (Event.check ip t))).1 =
      List.replicate n true ++ [false] :=
  run_fresh i n ip t hb hn hr ht hfresh

/-- Witness of C1: the global tier (10 per second, burst 20) and a new key. -/
theorem C1_burst_admitted_then_denied_witness :
    (NewIPRateLimiter 10 20).ips.lookup "10.0.0.1" = none ∧
    ((NewIPRateLimiter 10 20).run (List.replicate (20 + 1) (Event.check "10.0.0.1" 0))).1 =
      List.replicate 20 true ++ [false] :=
  ⟨by simp [NewIPRateLimiter],
   C1_burst_admitted_then_denied (NewIPRateLimiter 10 20) 20 "10.0.0.1" 0 rfl (by decide)
    (by norm_num [NewIPRateLimiter]) le_rfl (by simp [NewIPRateLimiter])⟩

/-- C2: in a tier with rate `r > 0` and burst `b ≥ 1`, started empty and
run through any events with non-decreasing clock readings, a key whose
check was denied at `t` is admitted on its next check at any
`t' ≥ t + 1/r` (other keys may be checked and sweeps may run in between);
and with burst 3 and rate 1 per second the checks at 0, 0, 0, 0, 3 give
allowed, allowed, allowed, denied, allowed. -/
theorem C2_denied_key_readmitted (r : ℚ) (n : ℕ) (hr : 0 < r) (hn : 1 ≤ n)
    (evs1 evs2 : List Event) (ip : String) (t t' : ℚ)
    (htimes : List.Sorted (· ≤ ·)
      (0 :: (evs1 ++ Event.check ip t :: evs2 ++ [Event.check ip t']).map Event.time))
    (hother : ∀ τ, Event.check ip τ ∉ evs2)
    (hwait : t + 1 / r ≤ t')
    (_hdenied : (((NewIPRateLimiter r n).run evs1).2.check ip t).1 = false) :
    (((((NewIPRateLimiter r n).run evs1).2.check ip t).2.run evs2).2.check ip t').1 = true ∧
    ∀ key : String,
      ((NewIPRateLimiter 1 3).run [Event.check key 0, Event.check key 0, Event.check key 0,
        Event.check key 0, Event.check key 3]).1 = [true, true, true, false, true] :=
  ⟨readmitted_after_wait r n hr hn evs1 evs2 ip t t' htimes hother hwait, scenario_burst3⟩

/-- Witness of C2: burst 3 at one token per second; key `K` is drained
at time 0, another key is checked and a sweep runs, and `K` is checked
again at time 3. -/
theorem C2_denied_key_readmitted_witness :
    (((NewIPRateLimiter 1 ((3 : ℕ) : ℤ)).run
        [Event.check "K" 0, Event.check "K" 0, Event.check "K" 0]).2.check "K" 0).1 = false ∧
    (((((NewIPRateLimiter 1 ((3 : ℕ) : ℤ)).run
        [Event.check "K" 0, Event.check "K" 0, Event.check "K" 0]).2.check "K" 0).2.run
          [Event.check "J" 1, Event.sweep 2]).2.check "K" 3).1 = true :=
  have hd : (((NewIPRateLimiter 1 ((3 : ℕ) : ℤ)).run
      [Event.check "K" 0, Event.check "K" 0, Event.check "K" 0]).2.check "K" 0).1 = false :=
    denied_after_burst (NewIPRateLimiter 1 ((3 : ℕ) : ℤ)) 3 "K" 0 rfl (by decide)
      (by norm_num [NewIPRateLimiter]) le_rfl (by simp [NewIPRateLimiter])
  ⟨hd, (C2_denied_key_readmitted 1 3 one_pos (by decide)
    [Event.check "K" 0, Event.check "K" 0, Event.check "K" 0]
    [Event.check "J" 1, Event.sweep 2] "K" 0 3
    (by norm_num [List.Sorted, Event.time]) (by simp) (by norm_num) hd).1⟩

/-- C3: in a tier with rate `r ≥ 0` and burst `b ≥ 0`, started empty,
after any sequence of events with non-decreasing clock readings every
limiter ever allocated, and so every bucket of the store, holds a token
count in `[0, b]`. A fresh bucket starts at `b`, the refilled count never
exceeds the burst, a check is admitted exactly when the refilled count is
at least one (and then takes one token), and a denied check stores the
refilled count unchanged. -/
theorem C3_tokens_within_capacity (r : ℚ) (b : ℤ) (hr : 0 ≤ r) (hb : 0 ≤ b)
    (evs : List Event) (htimes : List.Sorted (· ≤ ·) (0 :: evs.map Event.time)) :
    (∀ lim ∈ ((NewIPRateLimiter r b).run evs).2.objs,
      0 ≤ lim.tokens ∧ lim.tokens ≤ (b : ℚ)) ∧
    (∀ ip lim, ((NewIPRateLimiter r b).run evs).2.bucket ip = some lim →
      0 ≤ lim.tokens ∧ lim.tokens ≤ (b : ℚ)) ∧
    (NewLimiter r b).tokens = (b : ℚ) ∧
    (∀ (lim : Limiter) (t : ℚ), lim.TokensAt t ≤ (lim.burst : ℚ)) ∧
    (∀ (lim : Limiter) (t : ℚ), (lim.Allow t).1 = true ↔ 1 ≤ lim.TokensAt t) ∧
    (∀ (lim : Limiter) (t : ℚ), (lim.Allow t).1 = true →
      (lim.Allow t).2.tokens = lim.TokensAt t - 1) ∧
    (∀ (lim : Limiter) (t : ℚ), (lim.Allow t).1 = false →
      (lim.Allow t).2.tokens = lim.TokensAt t) := by
  obtain ⟨T, hT⟩ := exists_upper_bound (0 :: evs.map Event.time)
  have hwf := (NewIPRateLimiter_wf r b hr hb).run evs htimes T hT
  have hB : ((NewIPRateLimiter r b).run evs).2.b = b := (run_r_b _ evs).2
  have hobj : ∀ lim ∈ ((NewIPRateLimiter r b).run evs).2.objs,
      0 ≤ lim.tokens ∧ lim.tokens ≤ (b : ℚ) := by
    intro lim hl
    obtain ⟨-, -, h3, h4, -⟩ := hwf.obj lim hl
    rw [hB] at h4
    exact ⟨h3, h4⟩
  refine ⟨hobj, ?_, rfl, Limiter.tokensAt_le_burst, ?_, ?_, ?_⟩
  · intro ip lim hlim
    unfold IPRateLimiter.bucket at hlim
    cases hl : ((NewIPRateLimiter r b).run evs).2.ips.lookup ip with
    | none => rw [hl] at hlim; cases hlim
    | some p =>
      rw [hl] at hlim
      exact hobj lim (List.getElem?_mem hlim)
  · intro lim t
    rw [Limiter.allow_fst, decide_eq_true_eq]
  · intro lim t h
    rw [Limiter.allow_fst, decide_eq_true_eq] at h
    rw [Limiter.allow_snd]
    simp [h]
  · intro lim t h
    rw [Limiter.allow_fst, decide_eq_false_iff_not] at h
    rw [Limiter.allow_snd]
    simp [h]

/-- Witness of C3: burst 3 at one token per second with the checks of
the end-to-end scenario and a sweep. -/
theorem C3_tokens_within_capacity_witness :
    (((NewIPRateLimiter 1 3).run [Event.check "K" 0, Event.check "K" 0,
        Event.check "K" 0, Event.check "K" 0, Event.sweep 2, Event.check "K" 3]).2.objs.all
      (fun lim => decide (0 ≤ lim.tokens ∧ lim.tokens ≤ ((3 : ℤ) : ℚ)))) = true :=
  List.all_eq_true.2 (fun lim hlim => decide_eq_true
    ((C3_tokens_within_capacity 1 3 zero_le_one (by decide)
      [Event.check "K" 0, Event.check "K" 0, Event.check "K" 0, Event.check "K" 0,
        Event.sweep 2, Event.check "K" 3]
      (by norm_num [List.Sorted, Event.time])).1 lim hlim))

/-- C4: one pass of the eviction sweep at time `now` deletes from the map
exactly the keys whose limiter reports `TokensAt(now) = b`; every other
key keeps its pointer, no limiter object is touched, so every other key
maps to its unchanged bucket, and a bucket with a different count at
`now` is kept. -/
theorem C4_sweep_removes_exactly_full (i : IPRateLimiter) (now : ℚ) :
    (∀ ip, (i.cleanupPass now).ips.lookup ip =
      (i.ips.lookup ip).bind (fun p => if i.isFull p now then none else some p)) ∧
    (i.cleanupPass now).objs = i.objs ∧
    (i.cleanupPass now).r = i.r ∧ (i.cleanupPass now).b = i.b ∧
    (∀ ip, (i.cleanupPass now).bucket ip =
      (i.bucket ip).bind
        (fun lim => if lim.TokensAt now = (i.b : ℚ) then none else some lim)) :=
  ⟨lookup_cleanupPass i now, rfl, rfl, rfl, bucket_cleanupPass i now⟩

/-! ## Theorems: two concurrent first sights of a key -/

theorem race_first_sight (i : IPRateLimiter) (ip : String) (now : ℚ)
    (hb : 1 ≤ i.b) (hr : 0 ≤ i.r) (ht : 0 ≤ now) (hfresh : i.ips.lookup ip = none) :
    (i.interleave ip now .start .start [false, true, false, true, false, true]).1 =
        Pc.done true ∧
      (i.interleave ip now .start .start [false, true, false, true, false, true]).2.1 =
        Pc.done true := by
  have hT : (1 : ℚ) ≤ (NewLimiter i.r i.b).TokensAt now := by
    rw [NewLimiter_tokensAt i.r i.b now hr ht]
    exact_mod_cast hb
  have hA : ((NewLimiter i.r i.b).Allow now).1 = true := by
    rw [Limiter.allow_fst, decide_eq_true_eq]; exact hT
  have h0 : (i.objs ++ [NewLimiter i.r i.b] ++ [NewLimiter i.r i.b])[i.objs.length]? =
      some (NewLimiter i.r i.b) := by
    rw [List.append_assoc, List.getElem?_append_right (le_refl _)]
    simp
  have h1 : ((i.objs ++ [NewLimiter i.r i.b] ++ [NewLimiter i.r i.b]).set i.objs.length
      ((NewLimiter i.r i.b).Allow now).2)[i.objs.length + 1]? = some (NewLimiter i.r i.b) := by
    rw [List.getElem?_set_ne (by omega), List.getElem?_append_right (by simp)]
    simp
  simp only [IPRateLimiter.interleave, IPRateLimiter.stepReq, hfresh, IPRateLimiter.AddIP,
    IPRateLimiter.allowAt, List.length_append, List.length_singleton, h0, h1, hA, and_self]

/-- C5: in a tier of burst 1 two requests for a key that is not in the
store, interleaved so that both read the map before either calls `AddIP`,
are both admitted: each is handed a limiter of its own. Run one after the
other, the same two checks give one admission and one denial. -/
theorem C5_first_sight_race_admits_both :
    ((NewIPRateLimiter 1 1).interleave "K" 0 .start .start
        [false, true, false, true, false, true]).1 = Pc.done true ∧
    ((NewIPRateLimiter 1 1).interleave "K" 0 .start .start
        [false, true, false, true, false, true]).2.1 = Pc.done true ∧
    ((NewIPRateLimiter 1 1).run [Event.check "K" 0, Event.check "K" 0]).1 = [true, false] :=
  have h := race_first_sight (NewIPRateLimiter 1 1) "K" 0 (le_refl _)
    (by norm_num [NewIPRateLimiter]) le_rfl (by simp [NewIPRateLimiter])
  ⟨h.1, h.2, run_fresh (NewIPRateLimiter 1 1) 1 "K" 0 rfl le_rfl
    (by norm_num [NewIPRateLimiter]) le_rfl (by simp [NewIPRateLimiter])⟩

/-! ## Theorems: the session authenticator -/

theorem header_ne_empty_of_split (h tokenString : String)
    (hsplit : Split h ' ' = ["Bearer", tokenString]) : h ≠ "" := by
  rintro rfl
  have : Split "" ' ' = [""] := by decide
  rw [this] at hsplit
  simp at hsplit

theorem parse_ok (lib : JWTLib) (tokenString key : String) (now : ℕ) (tok : Token)
    (hdec : lib.decode tokenString = some tok)
    (hsig : tok.Method.Verify tok.Claims tok.Signature key = true)
    (hexp : ∀ e, tok.Claims.ExpiresAt = some e → now < e) :
    ParseWithClaims lib tokenString (fun _ => .ok key) now = .ok { tok with Valid := true } := by
  unfold ParseWithClaims
  simp only [hdec, hsig]
  cases he : tok.Claims.ExpiresAt with
  | none => simp
  | some e => simp [hexp e he]

theorem parse_error (lib : JWTLib) (tokenString key : String) (now : ℕ)
    (hbad : lib.decode tokenString = none ∨
      ∃ tok, lib.decode tokenString = some tok ∧
        (tok.Method.Verify tok.Claims tok.Signature key = false ∨
          ∃ e, tok.Claims.ExpiresAt = some e ∧ e < now)) :
    ∃ err, ParseWithClaims lib tokenString (fun _ => .ok key) now = .error err := by
  unfold ParseWithClaims
  rcases hbad with hnone | ⟨tok, hdec, hsig | ⟨e, he, hlt⟩⟩
  · exact ⟨.malformed, by simp [hnone]⟩
  · exact ⟨.signatureInvalid, by simp [hdec, hsig]⟩
  · by_cases hv : tok.Method.Verify tok.Claims tok.Signature key = false
    · exact ⟨.signatureInvalid, by simp [hdec, hv]⟩
    · exact ⟨.expired, by simp [hdec, hv, he, Nat.not_lt.2 hlt.le]⟩

theorem auth_of_split (lib : JWTLib) (config : Config) (nowParse nowSeen : ℕ)
    (next : Context → DB → Context × DB) (c : Context) (db : DB) (tokenString : String)
    (hsplit : Split (c.GetHeader "Authorization") ' ' = ["Bearer", tokenString]) :
    AuthMiddleware lib config nowParse nowSeen next c db =
      match ParseWithClaims lib tokenString (fun _ => .ok config.JWTSecret) nowParse with
      | .error _ => (c.reject 401 "Invalid token", db)
      | .ok token =>
        if token.Valid then
          match db.First (fun u => u.ID = token.Claims.UserID && u.IsActive = true) with
          | none => (c.reject 401 "User not found or inactive", db)
          | some user =>
            next ((((c.Set "user_id" (.str token.Claims.UserID)).Set "username"
              (.str token.Claims.Username)).Set "role" (.str token.Claims.Role)).Set "user"
              (.user { user with LastSeenAt := some nowSeen }))
              (db.Save { user with LastSeenAt := some nowSeen })
        else
          (c.reject 401 "Invalid token claims", db) := by
  have hne := header_ne_empty_of_split _ _ hsplit
  unfold AuthMiddleware
  simp only [hne, hsplit, if_false]
  simp

theorem split_two_iff (l : List String) :
    (l.length = 2 ∧ l[0]? = some "Bearer") ↔ ∃ tokenString, l = ["Bearer", tokenString] := by
  constructor
  · rintro ⟨hlen, h0⟩
    match l, hlen, h0 with
    | [a, b], _, h0 =>
      simp at h0
      exact ⟨b, by rw [h0]⟩
  · rintro ⟨t, rfl⟩
    exact ⟨rfl, rfl⟩

/-! ## The claims about the session authenticator -/

/-- C6: a request whose bearer token is correctly signed with the
configured secret and not expired, while the registry holds no user with
the token's user id that is both not soft-deleted and active (the user is
absent, soft-deleted or inactive), is answered 401 and aborted: the rest
of the chain is not run, nothing is published in the context and the
registry is unchanged. -/
theorem C6_inactive_principal_rejected (lib : JWTLib) (config : Config) (nowParse nowSeen : ℕ)
    (next : Context → DB → Context × DB) (c : Context) (db : DB) (tokenString : String)
    (tok : Token)
    (hsplit : Split (c.GetHeader "Authorization") ' ' = ["Bearer", tokenString])
    (hdec : lib.decode tokenString = some tok)
    (hsig : tok.Method.Verify tok.Claims tok.Signature config.JWTSecret = true)
    (hexp : ∀ e, tok.Claims.ExpiresAt = some e → nowParse < e)
    (hreg : ∀ u ∈ db, u.DeletedAt = none → u.ID = tok.Claims.UserID → u.IsActive = false) :
    AuthMiddleware lib config nowParse nowSeen next c db =
      (c.reject 401 "User not found or inactive", db) := by
  rw [auth_of_split lib config nowParse nowSeen next c db tokenString hsplit,
    parse_ok lib tokenString config.JWTSecret nowParse tok hdec hsig hexp]
  have hnone : DB.First db (fun u => u.ID = tok.Claims.UserID && u.IsActive = true) = none := by
    unfold DB.First
    rw [List.find?_eq_none]
    intro u hu
    cases hdel : u.DeletedAt with
    | some t => simp
    | none =>
      by_cases hid : u.ID = tok.Claims.UserID
      · simp [hreg u hu hdel hid]
      · simp [hid]
  simp only [↓reduceIte, hnone]

/-- Witness of C6: a token for `u1` signed with the secret, presented
when the registry holds two rows with the id `u1`, one soft-deleted and
still active, the other live and deactivated. -/
theorem C6_inactive_principal_rejected_witness :
    AuthMiddleware sampleLib sampleConfig 5 6 sampleHandler (sampleCtx "Bearer tok256")
        [{ sampleUser with DeletedAt := some 3 }, { sampleUser with IsActive := false }] =
      ((sampleCtx "Bearer tok256").reject 401 "User not found or inactive",
        [{ sampleUser with DeletedAt := some 3 }, { sampleUser with IsActive := false }]) :=
  C6_inactive_principal_rejected sampleLib sampleConfig 5 6 sampleHandler
    (sampleCtx "Bearer tok256")
    [{ sampleUser with DeletedAt := some 3 }, { sampleUser with IsActive := false }] "tok256"
    (sampleToken .HS256 "s3cret") (by decide) (by decide) (by decide)
    (by intro e he; cases he; decide)
    (by
      intro u hu hlive _
      simp only [List.mem_cons, List.mem_singleton, List.not_mem_nil, or_false] at hu
      rcases hu with hu | hu
      · rw [hu] at hlive; exact absurd hlive (by decide)
      · rw [hu])

/-- C7: a request whose `Authorization` header is empty, or does not
split on single spaces into exactly two parts the first of which is
`Bearer`, is answered 401 and aborted; the rest of the chain is not run
and the registry is unchanged. -/
theorem C7_missing_or_malformed_header_rejected (lib : JWTLib) (config : Config)
    (nowParse nowSeen : ℕ) (next : Context → DB → Context × DB) (c : Context) (db : DB)
    (hbad : c.GetHeader "Authorization" = "" ∨
      ¬ ((Split (c.GetHeader "Authorization") ' ').length = 2 ∧
          (Split (c.GetHeader "Authorization") ' ')[0]? = some "Bearer")) :
    AuthMiddleware lib config nowParse nowSeen next c db =
        (c.reject 401 "Authorization header required", db) ∨
      AuthMiddleware lib config nowParse nowSeen next c db =
        (c.reject 401 "Invalid authorization header format", db) := by
  unfold AuthMiddleware
  by_cases hempty : c.GetHeader "Authorization" = ""
  · left
    simp [hempty]
  · right
    rcases hbad with h | h
    · exact absurd h hempty
    · have h' : (Split (c.GetHeader "Authorization") ' ').length ≠ 2 ∨
          (Split (c.GetHeader "Authorization") ' ')[0]? ≠ some "Bearer" := by
        by_cases hl : (Split (c.GetHeader "Authorization") ' ').length = 2
        · exact Or.inr (fun h0 => h ⟨hl, h0⟩)
        · exact Or.inl hl
      simp only [hempty, if_false, h', if_true]

/-- Witness of C7: a header with a scheme other than `Bearer`. -/
theorem C7_missing_or_malformed_header_rejected_witness :
    AuthMiddleware sampleLib sampleConfig 5 6 sampleHandler (sampleCtx "Basic tok256")
          [sampleUser] =
        ((sampleCtx "Basic tok256").reject 401 "Authorization header required",
          [sampleUser]) ∨
      AuthMiddleware sampleLib sampleConfig 5 6 sampleHandler (sampleCtx "Basic tok256")
          [sampleUser] =
        ((sampleCtx "Basic tok256").reject 401 "Invalid authorization header format",
          [sampleUser]) :=
  C7_missing_or_malformed_header_rejected sampleLib sampleConfig 5 6 sampleHandler
    (sampleCtx "Basic tok256") [sampleUser] (Or.inr (by decide))

/-- C8: a bearer token that is malformed (does not decode), or whose
signature does not verify under the configured secret, or whose expiry
time is in the past, is answered 401 and aborted, whatever the registry
holds and whatever the rest of the chain is: neither is consulted, and
the registry is unchanged. -/
theorem C8_invalid_token_rejected (lib : JWTLib) (config : Config) (nowParse nowSeen : ℕ)
    (c : Context) (tokenString : String)
    (hsplit : Split (c.GetHeader "Authorization") ' ' = ["Bearer", tokenString])
    (hbad : lib.decode tokenString = none ∨
      ∃ tok, lib.decode tokenString = some tok ∧
        (tok.Method.Verify tok.Claims tok.Signature config.JWTSecret = false ∨
          ∃ e, tok.Claims.ExpiresAt = some e ∧ e < nowParse)) :
    ∀ (next : Context → DB → Context × DB) (db : DB),
      AuthMiddleware lib config nowParse nowSeen next c db =
        (c.reject 401 "Invalid token", db) := by
  intro next db
  obtain ⟨err, herr⟩ := parse_error lib tokenString config.JWTSecret nowParse hbad
  rw [auth_of_split lib config nowParse nowSeen next c db tokenString hsplit, herr]

/-- Witness of C8: the token `forged`, signed with a key that is not the
configured secret. -/
theorem C8_invalid_token_rejected_witness :
    AuthMiddleware sampleLib sampleConfig 5 6 sampleHandler (sampleCtx "Bearer forged")
        [sampleUser] =
      ((sampleCtx "Bearer forged").reject 401 "Invalid token", [sampleUser]) :=
  C8_invalid_token_rejected sampleLib sampleConfig 5 6 (sampleCtx "Bearer forged") "forged"
    (by decide) (Or.inr ⟨sampleToken .HS256 "guess", by decide, Or.inl (by decide)⟩)
    sampleHandler [sampleUser]

theorem auth_admits (lib : JWTLib) (config : Config) (nowParse nowSeen : ℕ)
    (next : Context → DB → Context × DB) (c : Context) (db : DB) (tokenString : String)
    (tok : Token) (user : User)
    (hsplit : Split (c.GetHeader "Authorization") ' ' = ["Bearer", tokenString])
    (hdec : lib.decode tokenString = some tok)
    (hsig : tok.Method.Verify tok.Claims tok.Signature config.JWTSecret = true)
    (hexp : ∀ e, tok.Claims.ExpiresAt = some e → nowParse < e)
    (huser : DB.First db (fun u => u.ID = tok.Claims.UserID && u.IsActive = true) = some user) :
    AuthMiddleware lib config nowParse nowSeen next c db =
      next ((((c.Set "user_id" (.str tok.Claims.UserID)).Set "username"
          (.str tok.Claims.Username)).Set "role" (.str tok.Claims.Role)).Set "user"
          (.user { user with LastSeenAt := some nowSeen }))
        (db.Save { user with LastSeenAt := some nowSeen }) := by
  rw [auth_of_split lib config nowParse nowSeen next c db tokenString hsplit,
    parse_ok lib tokenString config.JWTSecret nowParse tok hdec hsig hexp]
  simp only [if_true, huser]

theorem verify_signed (m : SigningMethod) (claims : Claims) (key : String)
    (hm : m = .HS256 ∨ m = .HS384 ∨ m = .HS512) :
    m.Verify claims (some (m.Sign claims key)) key = true := by
  rcases hm with rfl | rfl | rfl <;> simp [SigningMethod.Verify]

/-- C9, as the code has it: the HS384 token signed with the shared secret
is not rejected; the handler runs (status 200), the chain is not aborted
and the claims are published. -/
theorem C9_hs384_token_admitted :
    (AuthMiddleware sampleLib sampleConfig 5 6 sampleHandler (sampleCtx "Bearer tok384")
        [sampleUser]).1.status = some 200 ∧
    (AuthMiddleware sampleLib sampleConfig 5 6 sampleHandler (sampleCtx "Bearer tok384")
        [sampleUser]).1.aborted = false ∧
    (AuthMiddleware sampleLib sampleConfig 5 6 sampleHandler (sampleCtx "Bearer tok384")
        [sampleUser]).1.Get "user_id" = some (.str "u1") := by
  decide

/-- C9, amended: AuthMiddleware accepts a token only if its signature
verifies under the shared secret with the signing method that the token
itself names. A token whose signature does not verify, in particular one
naming a method that is not an HMAC method, is answered 401; a token
signed with the shared secret under HS256, HS384 or HS512, not expired,
for an active user, is admitted and the rest of the chain runs. -/
theorem C9_accepts_method_named_by_token (lib : JWTLib) (config : Config)
    (nowParse nowSeen : ℕ) (next : Context → DB → Context × DB) (c : Context) (db : DB)
    (tokenString : String) (tok : Token)
    (hsplit : Split (c.GetHeader "Authorization") ' ' = ["Bearer", tokenString])
    (hdec : lib.decode tokenString = some tok) :
    (tok.Method.Verify tok.Claims tok.Signature config.JWTSecret = false →
      AuthMiddleware lib config nowParse nowSeen next c db =
        (c.reject 401 "Invalid token", db)) ∧
    ((∃ alg, tok.Method = .other alg) →
      AuthMiddleware lib config nowParse nowSeen next c db =
        (c.reject 401 "Invalid token", db)) ∧
    (∀ user, (tok.Method = .HS256 ∨ tok.Method = .HS384 ∨ tok.Method = .HS512) →
      tok.Signature = some (tok.Method.Sign tok.Claims config.JWTSecret) →
      (∀ e, tok.Claims.ExpiresAt = some e → nowParse < e) →
      DB.First db (fun u => u.ID = tok.Claims.UserID && u.IsActive = true) = some user →
      AuthMiddleware lib config nowParse nowSeen next c db =
        next ((((c.Set "user_id" (.str tok.Claims.UserID)).Set "username"
            (.str tok.Claims.Username)).Set "role" (.str tok.Claims.Role)).Set "user"
            (.user { user with LastSeenAt := some nowSeen }))
          (db.Save { user with LastSeenAt := some nowSeen })) := by
  have hrej : tok.Method.Verify tok.Claims tok.Signature config.JWTSecret = false →
      AuthMiddleware lib config nowParse nowSeen next c db =
        (c.reject 401 "Invalid token", db) := by
    intro hv
    obtain ⟨err, herr⟩ := parse_error lib tokenString config.JWTSecret nowParse
      (Or.inr ⟨tok, hdec, Or.inl hv⟩)
    rw [auth_of_split lib config nowParse nowSeen next c db tokenString hsplit, herr]
  refine ⟨hrej, ?_, ?_⟩
  · rintro ⟨alg, halg⟩
    exact hrej (by rw [halg]; rfl)
  · intro user hm hsig hexp huser
    refine auth_admits lib config nowParse nowSeen next c db tokenString tok user hsplit hdec
      ?_ hexp huser
    rw [hsig]
    exact verify_signed tok.Method tok.Claims config.JWTSecret hm

/-- Witness of the amended C9: the HS512 token signed with the secret is
admitted. -/
theorem C9_accepts_method_named_by_token_witness :
    AuthMiddleware sampleLib sampleConfig 5 6 sampleHandler (sampleCtx "Bearer tok512")
        [sampleUser] =
      sampleHandler
        (((((sampleCtx "Bearer tok512").Set "user_id" (.str "u1")).Set "username"
          (.str "ann")).Set "role" (.str "normal")).Set "user"
          (.user { sampleUser with LastSeenAt := some 6 }))
        (DB.Save [sampleUser] { sampleUser with LastSeenAt := some 6 }) :=
  (C9_accepts_method_named_by_token sampleLib sampleConfig 5 6 sampleHandler
    (sampleCtx "Bearer tok512") [sampleUser] "tok512" (sampleToken .HS512 "s3cret")
    (by decide) (by decide)).2.2 sampleUser (by decide) (by decide)
    (by intro e he; cases he; decide) (by decide)

theorem generateJWT_eq (lib : JWTLib) (user : User) (config : Config) (now₁ now₂ : ℕ) :
    GenerateJWT lib user config now₁ now₂ =
      .ok (lib.encode (issuedToken user config now₁ now₂)) :=
  rfl

theorem numericDate_add_day (t : ℕ) :
    NewNumericDate (t + 24 * Hour) = NewNumericDate t + 24 * Hour := by
  unfold NewNumericDate Hour
  omega

theorem numericDate_mono (t₁ t₂ : ℕ) (h : t₁ ≤ t₂) : NewNumericDate t₁ ≤ NewNumericDate t₂ := by
  unfold NewNumericDate
  omega

/-- C10, as the code has it: when the clock passes a whole second between
the two readings of `GenerateJWT` (0.999999999 s, then 1 s), the token
verifies and decodes to an expiry of 86400 s and an issue time of 1 s:
the expiry is 23 h 59 min 59 s after the issue time, not 24 hours. -/
theorem C10_expiry_not_24h_after_issue :
    (GenerateJWT skewLib sampleUser sampleConfig 999999999 1000000000).toOption =
      some "skew" ∧
    ((ParseWithClaims skewLib "skew" (fun _ => .ok sampleConfig.JWTSecret)
        1000000001).toOption.map
      (fun t => (t.Valid, t.Claims.ExpiresAt, t.Claims.IssuedAt))) =
      some (true, some 86400000000000, some 1000000000) ∧
    (86400000000000 : ℕ) ≠ 1000000000 + 24 * Hour := by
  decide

/-- C10, amended: for every user and secret the string that `GenerateJWT`
returns, if the encoding decodes it back, verifies under the same secret
at any time before the expiry, as an HS256 token whose user id, username
and role are the user's ID string, Username and Role, whose issuer is
`turnate`, whose expiry is the first clock reading plus 24 hours and whose
issue time is the second clock reading, both truncated to the second. The
expiry is exactly 24 hours after the first reading truncated to the
second, hence exactly 24 hours after the issue time when both readings
fall in the same second, and at most 24 hours after it in general. -/
theorem C10_generated_token_verifies (lib : JWTLib) (user : User) (config : Config)
    (now₁ now₂ nowParse : ℕ)
    (hcodec : lib.decode (lib.encode (issuedToken user config now₁ now₂)) =
      some (issuedToken user config now₁ now₂))
    (hfresh : nowParse < NewNumericDate (now₁ + 24 * Hour)) :
    GenerateJWT lib user config now₁ now₂ =
      .ok (lib.encode (issuedToken user config now₁ now₂)) ∧
    ParseWithClaims lib (lib.encode (issuedToken user config now₁ now₂))
        (fun _ => .ok config.JWTSecret) nowParse =
      .ok { issuedToken user config now₁ now₂ with Valid := true } ∧
    (issuedToken user config now₁ now₂).Method = .HS256 ∧
    (issuedToken user config now₁ now₂).Claims.UserID = user.ID ∧
    (issuedToken user config now₁ now₂).Claims.Username = user.Username ∧
    (issuedToken user config now₁ now₂).Claims.Role = user.Role ∧
    (issuedToken user config now₁ now₂).Claims.Issuer = "turnate" ∧
    (issuedToken user config now₁ now₂).Claims.ExpiresAt =
      some (NewNumericDate now₁ + 24 * Hour) ∧
    (issuedToken user config now₁ now₂).Claims.IssuedAt = some (NewNumericDate now₂) ∧
    (NewNumericDate now₁ = NewNumericDate now₂ →
      (issuedToken user config now₁ now₂).Claims.ExpiresAt =
        some (NewNumericDate now₂ + 24 * Hour)) ∧
    (now₁ ≤ now₂ → NewNumericDate now₁ + 24 * Hour ≤ NewNumericDate now₂ + 24 * Hour) := by
  refine ⟨rfl, ?_, rfl, rfl, rfl, rfl, rfl, ?_, rfl, ?_, ?_⟩
  · exact parse_ok lib _ config.JWTSecret nowParse _ hcodec
      (by simp [issuedToken, SigningMethod.Verify])
      (by
        intro e he
        simp only [issuedToken, Option.some.injEq] at he
        rw [← he]
        exact hfresh)
  · simp only [issuedToken, numericDate_add_day]
  · intro h
    simp only [issuedToken, numericDate_add_day, h]
  · intro h
    exact Nat.add_le_add_right (numericDate_mono now₁ now₂ h) _

/-- Witness of the amended C10: a token issued to `sampleUser` with both
clock readings at 0.5 s, verified at 2 s. -/
theorem C10_generated_token_verifies_witness :
    ParseWithClaims (tableLib [("t", issuedToken sampleUser sampleConfig 500000000 500000000)])
        ((tableLib [("t", issuedToken sampleUser sampleConfig 500000000 500000000)]).encode
          (issuedToken sampleUser sampleConfig 500000000 500000000))
        (fun _ => .ok sampleConfig.JWTSecret) 2000000000 =
      .ok { issuedToken sampleUser sampleConfig 500000000 500000000 with Valid := true } :=
  (C10_generated_token_verifies
    (tableLib [("t", issuedToken sampleUser sampleConfig 500000000 500000000)])
    sampleUser sampleConfig 500000000 500000000 2000000000 (by decide) (by decide)).2.1

theorem get_set_self (c : Context) (k : String) (v : Value) : (c.Set k v).Get k = some v := by
  simp [Context.Set, Context.Get]

theorem get_set_ne (c : Context) (k k' : String) (v : Value) (h : k ≠ k') :
    (c.Set k' v).Get k = c.Get k := by
  simp [Context.Set, Context.Get, AList.lookup_insert_ne h]

theorem auth_cases (lib : JWTLib) (config : Config) (nowParse nowSeen : ℕ)
    (next : Context → DB → Context × DB) (c : Context) (db : DB) :
    (∃ msg, AuthMiddleware lib config nowParse nowSeen next c db = (c.reject 401 msg, db)) ∨
    (∃ tokenString token user,
      Split (c.GetHeader "Authorization") ' ' = ["Bearer", tokenString] ∧
      ParseWithClaims lib tokenString (fun _ => .ok config.JWTSecret) nowParse = .ok token ∧
      DB.First db (fun u => u.ID = token.Claims.UserID && u.IsActive = true) = some user ∧
      AuthMiddleware lib config nowParse nowSeen next c db =
        next ((((c.Set "user_id" (.str token.Claims.UserID)).Set "username"
            (.str token.Claims.Username)).Set "role" (.str token.Claims.Role)).Set "user"
            (.user { user with LastSeenAt := some nowSeen }))
          (db.Save { user with LastSeenAt := some nowSeen })) := by
  by_cases hbad : c.GetHeader "Authorization" = "" ∨
      ¬ ((Split (c.GetHeader "Authorization") ' ').length = 2 ∧
          (Split (c.GetHeader "Authorization") ' ')[0]? = some "Bearer")
  · left
    unfold AuthMiddleware
    by_cases hempty : c.GetHeader "Authorization" = ""
    · exact ⟨"Authorization header required", by simp [hempty]⟩
    · rcases hbad with h | h
      · exact absurd h hempty
      · have h' : (Split (c.GetHeader "Authorization") ' ').length ≠ 2 ∨
            (Split (c.GetHeader "Authorization") ' ')[0]? ≠ some "Bearer" := by
          by_cases hl : (Split (c.GetHeader "Authorization") ' ').length = 2
          · exact Or.inr (fun h0 => h ⟨hl, h0⟩)
          · exact Or.inl hl
        exact ⟨"Invalid authorization header format", by
          simp only [hempty, if_false, h', if_true]⟩
  · push_neg at hbad
    obtain ⟨tokenString, hsplit⟩ := (split_two_iff _).1 hbad.2
    rw [auth_of_split lib config nowParse nowSeen next c db tokenString hsplit]
    cases hparse : ParseWithClaims lib tokenString (fun _ => .ok config.JWTSecret) nowParse with
    | error e => exact Or.inl ⟨_, rfl⟩
    | ok token =>
      by_cases hv : token.Valid = true
      · cases huser : DB.First db
            (fun u => u.ID = token.Claims.UserID && u.IsActive = true) with
        | none =>
          left
          exact ⟨"User not found or inactive", by simp only [hv, if_true, huser]⟩
        | some user =>
          right
          exact ⟨tokenString, token, user, hsplit, hparse, huser, by
            simp only [hv, if_true, huser]⟩
      · left
        exact ⟨"Invalid token claims", by simp only [hv]; rfl⟩

/-- C11: AuthMiddleware either answers 401 and aborts, or it has a token
that verified and an active user of the registry and runs the rest of the
chain on a context in which `user_id`, `username` and `role` are the user
id, username and role of the token claims. The role comes from the claims,
not from the registry: a token that says `admin` for a user whose registry
role is `normal` publishes `admin`. -/
theorem C11_admitted_context_from_claims (lib : JWTLib) (config : Config)
    (nowParse nowSeen : ℕ) (next : Context → DB → Context × DB) (c : Context) (db : DB) :
    ((∃ msg, AuthMiddleware lib config nowParse nowSeen next c db = (c.reject 401 msg, db)) ∨
      (∃ tokenString token user published,
        Split (c.GetHeader "Authorization") ' ' = ["Bearer", tokenString] ∧
        ParseWithClaims lib tokenString (fun _ => .ok config.JWTSecret) nowParse = .ok token ∧
        DB.First db (fun u => u.ID = token.Claims.UserID && u.IsActive = true) = some user ∧
        AuthMiddleware lib config nowParse nowSeen next c db =
          next published (db.Save { user with LastSeenAt := some nowSeen }) ∧
        published.Get "user_id" = some (.str token.Claims.UserID) ∧
        published.Get "username" = some (.str token.Claims.Username) ∧
        published.Get "role" = some (.str token.Claims.Role) ∧
        published.status = c.status ∧ published.aborted = c.aborted)) ∧
    sampleUser.Role = "normal" ∧
    (AuthMiddleware staleRoleLib sampleConfig 5 6 (fun c db => (c, db))
      (sampleCtx "Bearer stale") [sampleUser]).1.Get "role" = some (.str "admin") := by
  refine ⟨?_, by decide, by decide⟩
  rcases auth_cases lib config nowParse nowSeen next c db with h | ⟨ts, token, user, h1, h2, h3, h4⟩
  · exact Or.inl h
  · refine Or.inr ⟨ts, token, user, _, h1, h2, h3, h4, ?_, ?_, ?_, rfl, rfl⟩
    · rw [get_set_ne _ _ _ _ (by decide), get_set_ne _ _ _ _ (by decide),
        get_set_ne _ _ _ _ (by decide), get_set_self]
    · rw [get_set_ne _ _ _ _ (by decide), get_set_ne _ _ _ _ (by decide), get_set_self]
    · rw [get_set_ne _ _ _ _ (by decide), get_set_self]

/-- C12: AdminMiddleware runs the rest of the chain when the context holds
a `role` equal to the string `admin`, and in every other case (no role, a
role that is another string, a role that is not a string) answers 403 and
aborts without running it. -/
theorem C12_admin_only (σ : Type) (next : Context → σ → Context × σ) (c : Context) (s : σ) :
    AdminMiddleware next c s =
      if c.Get "role" = some (Value.str "admin") then next c s
      else (c.reject 403 "Admin access required", s) := by
  unfold AdminMiddleware
  cases h : c.Get "role" with
  | none => simp
  | some role =>
    by_cases hr : role = Value.str "admin"
    · simp [hr]
    · simp [hr]

/-! ## Theorems: the tables -/

theorem leastBy_eq_none {α : Type} (key : α → String) (l : List α) :
    leastBy key l = none ↔ l = [] := by
  cases l with
  | nil => simp [leastBy]
  | cons r rs =>
    simp only [leastBy]
    cases leastBy key rs with
    | none => simp
    | some b => by_cases h : key b < key r <;> simp [h]

theorem leastBy_mem {α : Type} (key : α → String) (l : List α) (r : α)
    (h : leastBy key l = some r) : r ∈ l := by
  induction l generalizing r with
  | nil => simp [leastBy] at h
  | cons a as ih =>
    simp only [leastBy] at h
    cases hb : leastBy key as with
    | none =>
      rw [hb] at h
      simp only [Option.some.injEq] at h
      rw [← h]
      exact List.mem_cons_self _ _
    | some b =>
      rw [hb] at h
      by_cases hlt : key b < key a
      · simp only [hlt, if_true, Option.some.injEq] at h
        rw [← h]
        exact List.mem_cons_of_mem _ (ih b hb)
      · simp only [hlt, if_false, Option.some.injEq] at h
        rw [← h]
        exact List.mem_cons_self _ _

theorem membership_eq_none (d : Database) (channelID : String) (userID : Option Value) :
    d.membership channelID userID = none ↔
      ∀ m ∈ d.ChannelMembers, m.DeletedAt = none → m.ChannelID = channelID →
        argEq userID m.UserID = false := by
  unfold Database.membership Database.firstMember
  rw [leastBy_eq_none, List.filter_eq_nil_iff]
  constructor
  · intro h m hm hd hc
    have := h m hm
    simpa [hd, hc] using this
  · intro h m hm
    by_cases hd : m.DeletedAt = none
    · by_cases hc : m.ChannelID = channelID
      · simp [hd, hc, h m hm hd hc]
      · simp [hc]
    · cases hdel : m.DeletedAt with
      | none => exact absurd hdel hd
      | some t => simp

theorem membership_some (d : Database) (channelID : String) (userID : Option Value)
    (row : ChannelMember) (h : d.membership channelID userID = some row) :
    row ∈ d.ChannelMembers ∧ row.DeletedAt = none ∧ row.ChannelID = channelID ∧
      argEq userID row.UserID = true := by
  unfold Database.membership Database.firstMember at h
  have hmem := leastBy_mem _ _ _ h
  rw [List.mem_filter] at hmem
  obtain ⟨h1, h2⟩ := hmem
  simp only [Bool.and_eq_true, decide_eq_true_eq, Option.isNone_iff_eq_none] at h2
  exact ⟨h1, h2.1, h2.2.1, h2.2.2⟩

theorem argEq_str (u col : String) : argEq (some (Value.str u)) col = decide (col = u) := rfl

theorem membership_none_iff_isMember (d : Database) (channelID u : String) :
    d.membership channelID (some (Value.str u)) = none ↔ d.isMember channelID u = false := by
  rw [membership_eq_none]
  unfold Database.isMember
  rw [List.any_eq_false]
  constructor
  · intro h m hm
    by_cases hd : m.DeletedAt = none
    · by_cases hc : m.ChannelID = channelID
      · have := h m hm hd hc
        rw [argEq_str] at this
        simp [hd, hc, of_decide_eq_false this]
      · simp [hc]
    · cases hdel : m.DeletedAt with
      | none => exact absurd hdel hd
      | some t => simp
  · intro h m hm hd hc
    have := h m hm
    rw [argEq_str]
    simpa [hd, hc] using this

theorem firstChannel_some (d : Database) (cond : Channel → Bool) (ch : Channel)
    (h : d.firstChannel cond = some ch) :
    ch ∈ d.Channels ∧ ch.DeletedAt = none ∧ cond ch = true := by
  unfold Database.firstChannel at h
  have hmem := leastBy_mem _ _ _ h
  rw [List.mem_filter] at hmem
  obtain ⟨h1, h2⟩ := hmem
  simp only [Bool.and_eq_true, Option.isNone_iff_eq_none] at h2
  exact ⟨h1, h2.1, h2.2⟩

/-! ## Theorems: posting a message -/

theorem statusOf_failWith (c : Context) (d : Database) (code : ℕ) (msg : String) :
    statusOf (failWith c d code msg) = some code := rfl

theorem dbOf_failWith (c : Context) (d : Database) (code : ℕ) (msg : String) :
    dbOf (failWith c d code msg) = some d := rfl

theorem statusOf_storeMessage (c : Context) (d : Database) (userID : Option Value)
    (message : Message) :
    statusOf (storeMessage c d userID message) = some 500 ∨
      statusOf (storeMessage c d userID message) = some 201 := by
  unfold storeMessage
  cases d.createMessage message with
  | none => exact Or.inl rfl
  | some d' => exact Or.inr rfl

theorem statusOf_storeMessage_ne (c : Context) (d : Database) (userID : Option Value)
    (message : Message) : statusOf (storeMessage c d userID message) ≠ some 403 := by
  rcases statusOf_storeMessage c d userID message with h | h <;> simp [h]

theorem public_ne_private : ChannelTypePublic ≠ ChannelTypePrivate := by decide

/-- `CreateMessage` once the body binds and the channel is found: the two
access checks, then the rest. -/
theorem createMessage_access (lib : StdLib) (newID : String) (now : ℕ)
    (body : Option CreateMessageRequest) (c : Context) (d : Database)
    (req : CreateMessageRequest) (channel : Channel)
    (hbind : bindCreateMessage body = some req)
    (hch : d.firstChannel (fun ch => ch.ID = c.Param "id") = some channel) :
    (channel.Typ = ChannelTypePrivate ∧ c.Get "role" ≠ some (Value.str "admin") ∧
        d.membership (c.Param "id") (c.Get "user_id") = none →
      CreateMessage lib newID now body c d =
        failWith c d 403 "Access denied to private channel") ∧
    (channel.Typ = ChannelTypePublic ∧ d.membership (c.Param "id") (c.Get "user_id") = none →
      CreateMessage lib newID now body c d =
        failWith c d 403 "Must join channel to post messages") ∧
    (¬ (channel.Typ = ChannelTypePrivate ∧ c.Get "role" ≠ some (Value.str "admin") ∧
        d.membership (c.Param "id") (c.Get "user_id") = none) →
      ¬ (channel.Typ = ChannelTypePublic ∧
        d.membership (c.Param "id") (c.Get "user_id") = none) →
      statusOf (CreateMessage lib newID now body c d) ≠ some 403) := by
  refine ⟨?_, ?_, ?_⟩
  · intro h
    unfold CreateMessage
    simp only [hbind, hch, h, ne_eq, not_false_eq_true, and_self, if_true]
  · intro h
    unfold CreateMessage
    simp only [hbind, hch, h, public_ne_private, false_and, if_false, and_self, if_true]
  · intro h1 h2
    unfold CreateMessage
    simp only [hbind, hch, h1, h2, if_false]
    split
    · split
      · simp [statusOf_failWith]
      · split
        · simp [statusOf_failWith]
        · split
          · exact statusOf_storeMessage_ne _ _ _ _
          · split
            · exact statusOf_storeMessage_ne _ _ _ _
            · split
              · simp [statusOf_failWith]
              · split
                · simp [statusOf_failWith]
                · exact statusOf_storeMessage_ne _ _ _ _
    · simp [statusOf]

theorem storeMessage_fresh (c : Context) (d : Database) (userID : Option Value)
    (message : Message) (hfresh : ∀ m ∈ d.Messages, m.ID ≠ message.ID) :
    ∃ r, storeMessage c d userID message = some r ∧ r.ctx.status = some 201 ∧
      r.db = { d with Messages := d.Messages ++ [message] } := by
  have h1 : d.Messages.any (fun r => decide (r.ID = message.ID)) = false := by
    rw [List.any_eq_false]
    intro m hm
    simpa using hfresh m hm
  unfold storeMessage Database.createMessage
  simp only [h1]
  exact ⟨_, rfl, rfl, rfl⟩

theorem createMessage_reaches_store (lib : StdLib) (newID : String) (now : ℕ)
    (body : Option CreateMessageRequest) (c : Context) (d : Database)
    (req : CreateMessageRequest) (channel : Channel) (u : String)
    (hbind : bindCreateMessage body = some req)
    (hch : d.firstChannel (fun ch => ch.ID = c.Param "id") = some channel)
    (h1 : ¬ (channel.Typ = ChannelTypePrivate ∧ c.Get "role" ≠ some (Value.str "admin") ∧
        d.membership (c.Param "id") (c.Get "user_id") = none))
    (h2 : ¬ (channel.Typ = ChannelTypePublic ∧
        d.membership (c.Param "id") (c.Get "user_id") = none))
    (hu : c.Get "user_id" = some (Value.str u)) (hcu : lib.parseUUID u = some u)
    (hcc : lib.parseUUID (c.Param "id") = some (c.Param "id"))
    (hthr : ∀ t, threadRef req = some t →
      d.firstMessage (fun m => m.ID = t && m.ChannelID = c.Param "id") ≠ none ∧
        lib.parseUUID t = some t) :
    CreateMessage lib newID now body c d =
      storeMessage c d (c.Get "user_id")
        { ID := newID, CreatedAt := now, UpdatedAt := now, DeletedAt := none,
          Content := SanitizeString req.Content, UserID := u, ChannelID := c.Param "id",
          ThreadID := threadRef req } := by
  unfold CreateMessage
  simp only [hbind, hch, h1, h2, if_false]
  rw [hu] at h1 h2 ⊢
  simp only [hcu, hcc]
  cases hT : req.ThreadID with
  | none => simp [threadRef, hT]
  | some t =>
    by_cases ht : t = ""
    · simp [threadRef, hT, ht]
    · have hr : threadRef req = some t := by simp [threadRef, hT, ht]
      obtain ⟨hm, hp⟩ := hthr t hr
      cases hfm : d.firstMessage (fun m => m.ID = t && m.ChannelID = c.Param "id") with
      | none => exact absurd hfm hm
      | some msg => simp [hr, ht, hfm, hp]

theorem createMessage_bad_thread (lib : StdLib) (newID : String) (now : ℕ)
    (body : Option CreateMessageRequest) (c : Context) (d : Database)
    (req : CreateMessageRequest) (channel : Channel) (u t : String)
    (hbind : bindCreateMessage body = some req)
    (hch : d.firstChannel (fun ch => ch.ID = c.Param "id") = some channel)
    (h1 : ¬ (channel.Typ = ChannelTypePrivate ∧ c.Get "role" ≠ some (Value.str "admin") ∧
        d.membership (c.Param "id") (c.Get "user_id") = none))
    (h2 : ¬ (channel.Typ = ChannelTypePublic ∧
        d.membership (c.Param "id") (c.Get "user_id") = none))
    (hu : c.Get "user_id" = some (Value.str u))
    (ht : threadRef req = some t)
    (hno : d.firstMessage (fun m => m.ID = t && m.ChannelID = c.Param "id") = none) :
    CreateMessage lib newID now body c d =
      match lib.parseUUID u with
      | none => failWith c d 400 "Invalid user ID"
      | some _ =>
        match lib.parseUUID (c.Param "id") with
        | none => failWith c d 400 "Invalid channel ID"
        | some _ => failWith c d 400 "Invalid thread message" := by
  unfold CreateMessage
  simp only [hbind, hch, h1, h2, if_false]
  rw [hu] at h1 h2 ⊢
  rcases hcu : lib.parseUUID u with _ | u'
  · simp only [hcu]
  · rcases hcc : lib.parseUUID (c.Param "id") with _ | ch'
    · simp only [hcu, hcc]
    · rcases hT : req.ThreadID with _ | t'
      · simp [threadRef, hT] at ht
      · have ht' : t' ≠ "" ∧ t' = t := by
          by_cases he : t' = "" <;> simp [threadRef, hT, he] at ht
          exact ⟨he, ht⟩
        have htne : t ≠ "" := ht'.2 ▸ ht'.1
        simp only [hcu, hcc, hT, ht'.2, htne, if_false, hno]

/-! ## Theorems: joining and leaving -/

theorem createMember_fresh (d : Database) (row : ChannelMember)
    (hid : ∀ m ∈ d.ChannelMembers, m.ID ≠ row.ID)
    (hnew : d.isMember row.ChannelID row.UserID = false) :
    d.createMember row = some { d with ChannelMembers := d.ChannelMembers ++ [row] } := by
  unfold Database.createMember
  have h1 : d.ChannelMembers.any (fun r => decide (r.ID = row.ID)) = false := by
    rw [List.any_eq_false]
    intro m hm
    simpa using hid m hm
  simp [h1, hnew]

theorem joinChannel_cases (lib : StdLib) (newID : String) (now : ℕ) (c : Context)
    (d : Database) (channel : Channel)
    (hch : d.firstChannel (fun ch => ch.ID = c.Param "id") = some channel) :
    (channel.Typ = ChannelTypePrivate ∧ c.Get "role" ≠ some (Value.str "admin") →
      JoinChannel lib newID now c d = failWith c d 403 "Cannot join private channel") ∧
    (¬ (channel.Typ = ChannelTypePrivate ∧ c.Get "role" ≠ some (Value.str "admin")) →
      d.membership (c.Param "id") (c.Get "user_id") ≠ none →
      JoinChannel lib newID now c d = failWith c d 409 "Already a member of this channel") ∧
    (¬ (channel.Typ = ChannelTypePrivate ∧ c.Get "role" ≠ some (Value.str "admin")) →
      d.membership (c.Param "id") (c.Get "user_id") = none →
      ∀ u, c.Get "user_id" = some (Value.str u) → lib.parseUUID u = some u →
      (∀ m ∈ d.ChannelMembers, m.ID ≠ newID) →
      JoinChannel lib newID now c d =
        some { ctx := c.JSON 200 [("message", "Successfully joined channel! 🎉")]
               db := { d with ChannelMembers := d.ChannelMembers ++
                 [{ ID := newID, CreatedAt := now, UpdatedAt := now, DeletedAt := none,
                    ChannelID := c.Param "id", UserID := u }] }
               data := .none }) := by
  have hid : channel.ID = c.Param "id" := by
    simpa using (firstChannel_some d _ channel hch).2.2
  refine ⟨?_, ?_, ?_⟩
  · intro h
    unfold JoinChannel
    simp only [hch, h, ne_eq, not_false_eq_true, and_self, if_true]
  · intro h hm
    unfold JoinChannel
    simp only [hch, h, if_false]
    cases hmem : d.membership (c.Param "id") (c.Get "user_id") with
    | none => exact absurd hmem hm
    | some row => rfl
  · intro h hm u hu hcanon hfresh
    have hcm := createMember_fresh d
      { ID := newID, CreatedAt := now, UpdatedAt := now, DeletedAt := none,
        ChannelID := c.Param "id", UserID := u } hfresh
      ((membership_none_iff_isMember d (c.Param "id") u).1 (hu ▸ hm))
    rw [hu] at hm
    unfold JoinChannel
    simp only [hch, h, if_false, hu, hm, hcanon, hid, hcm]

theorem failWith_db {c : Context} {d : Database} {code : ℕ} {msg : String} {r : Reply}
    (h : failWith c d code msg = some r) : r.db = d := by
  simp only [failWith, Option.some.injEq] at h
  rw [← h]

theorem joinChannel_unchanged (lib : StdLib) (newID : String) (now : ℕ) (c : Context)
    (d : Database) (r : Reply) (h : JoinChannel lib newID now c d = some r)
    (hs : r.ctx.status ≠ some 200) : r.db = d := by
  unfold JoinChannel at h
  dsimp only at h
  revert h
  split
  · exact failWith_db
  · split
    · exact failWith_db
    · split
      · exact failWith_db
      · split
        · split
          · exact failWith_db
          · split
            · exact failWith_db
            · intro h
              simp only [Option.some.injEq] at h
              rw [← h] at hs
              exact absurd rfl hs
        · intro h
          simp at h

theorem isMember_append_self (d : Database) (row : ChannelMember) (hlive : row.DeletedAt = none) :
    ({ d with ChannelMembers := d.ChannelMembers ++ [row] } : Database).isMember
      row.ChannelID row.UserID = true := by
  unfold Database.isMember
  rw [List.any_eq_true]
  exact ⟨row, by simp, by simp [hlive]⟩

theorem firstMessage_eq_none (d : Database) (t channelID : String)
    (hno : ∀ m ∈ d.Messages, m.DeletedAt = none → m.ID = t → m.ChannelID ≠ channelID) :
    d.firstMessage (fun m => m.ID = t && m.ChannelID = channelID) = none := by
  unfold Database.firstMessage
  rw [leastBy_eq_none, List.filter_eq_nil_iff]
  intro m hm
  by_cases hd : m.DeletedAt = none
  · by_cases hi : m.ID = t
    · simp [hd, hi, hno m hm hd hi]
    · simp [hi]
  · cases hdel : m.DeletedAt with
    | none => exact absurd hdel hd
    | some x => simp

theorem firstChannel_ne_none (d : Database) (cond : Channel → Bool)
    (h : ∃ ch ∈ d.Channels, ch.DeletedAt = none ∧ cond ch = true) :
    d.firstChannel cond ≠ none := by
  obtain ⟨ch, hmem, hlive, hcond⟩ := h
  unfold Database.firstChannel
  rw [Ne, leastBy_eq_none, List.filter_eq_nil_iff]
  intro hall
  have := hall ch hmem
  simp [hlive, hcond] at this

theorem firstChannel_eq_none (d : Database) (cond : Channel → Bool)
    (h : d.firstChannel cond = none) :
    ¬ ∃ ch ∈ d.Channels, ch.DeletedAt = none ∧ cond ch = true :=
  fun hex => firstChannel_ne_none d cond hex h

theorem deleteMember_not_live (d : Database) (row : ChannelMember) (now : ℕ) :
    ∀ m ∈ (d.deleteMember row now).ChannelMembers, m.ID = row.ID → m.DeletedAt ≠ none := by
  intro m hm hid
  unfold Database.deleteMember at hm
  simp only [List.mem_map] at hm
  obtain ⟨m₀, _, hm₀⟩ := hm
  by_cases hc : m₀.ID = row.ID ∧ m₀.DeletedAt = none
  · rw [if_pos hc] at hm₀
    rw [← hm₀]
    simp
  · rw [if_neg hc] at hm₀
    rw [← hm₀] at hid ⊢
    intro hdel
    exact hc ⟨hid, hdel⟩

theorem leaveChannel_cases (now : ℕ) (c : Context) (d : Database) :
    (d.membership (c.Param "id") (c.Get "user_id") = none →
      LeaveChannel now c d = failWith c d 404 "Not a member of this channel") ∧
    (∀ row, d.membership (c.Param "id") (c.Get "user_id") = some row →
      d.firstChannel (fun ch => ch.ID = c.Param "id" && ch.Name = "general") ≠ none →
      LeaveChannel now c d = failWith c d 400 "Cannot leave the general channel") ∧
    (∀ row, d.membership (c.Param "id") (c.Get "user_id") = some row →
      d.firstChannel (fun ch => ch.ID = c.Param "id" && ch.Name = "general") = none →
      LeaveChannel now c d =
        some { ctx := c.JSON 200 [("message", "Successfully left channel! 👋")]
               db := d.deleteMember row now, data := .none }) := by
  refine ⟨?_, ?_, ?_⟩
  · intro h
    unfold LeaveChannel
    simp only [h]
  · intro row h hg
    unfold LeaveChannel
    simp only [h]
    cases hfc : d.firstChannel (fun ch => ch.ID = c.Param "id" && ch.Name = "general") with
    | none => exact absurd hfc hg
    | some ch => rfl
  · intro row h hg
    unfold LeaveChannel
    simp only [h, hg]

theorem createMember_getD_channels (d : Database) (row : ChannelMember) :
    ((d.createMember row).getD d).Channels = d.Channels := by
  unfold Database.createMember
  split
  · rfl
  · split <;> rfl

theorem private_ne_empty : ¬ ChannelTypePrivate = "" := by decide

/-! ## The claims about the handlers -/

/-- C13: when the body binds and the channel exists, `CreateMessage`
answers 403 on a private channel exactly when the caller's role is not
`admin` and the caller has no membership in the channel, and on a public
channel exactly when the caller has no membership, whatever the role; a
403 leaves the tables as they were. For a caller whose user id is a string
the membership query fails exactly when the membership relation does not
hold. -/
theorem C13_post_access_decision (lib : StdLib) (newID : String) (now : ℕ)
    (body : Option CreateMessageRequest) (c : Context) (d : Database)
    (req : CreateMessageRequest) (channel : Channel)
    (hbind : bindCreateMessage body = some req)
    (hch : d.firstChannel (fun ch => ch.ID = c.Param "id") = some channel) :
    (channel.Typ = ChannelTypePrivate →
      (statusOf (CreateMessage lib newID now body c d) = some 403 ↔
        c.Get "role" ≠ some (Value.str "admin") ∧
          d.membership (c.Param "id") (c.Get "user_id") = none)) ∧
    (channel.Typ = ChannelTypePublic →
      (statusOf (CreateMessage lib newID now body c d) = some 403 ↔
        d.membership (c.Param "id") (c.Get "user_id") = none)) ∧
    (statusOf (CreateMessage lib newID now body c d) = some 403 →
      dbOf (CreateMessage lib newID now body c d) = some d) ∧
    (∀ u, c.Get "user_id" = some (Value.str u) →
      (d.membership (c.Param "id") (c.Get "user_id") = none ↔
        d.isMember (c.Param "id") u = false)) := by
  obtain ⟨hpriv, hpub, hrest⟩ := createMessage_access lib newID now body c d req channel hbind hch
  refine ⟨?_, ?_, ?_, ?_⟩
  · intro ht
    constructor
    · intro h403
      by_contra hcon
      refine hrest (fun h => hcon ⟨h.2.1, h.2.2⟩) (fun h => ?_) h403
      exact public_ne_private (h.1.symm.trans ht)
    · intro h
      rw [hpriv ⟨ht, h.1, h.2⟩]
      rfl
  · intro ht
    constructor
    · intro h403
      by_contra hcon
      refine hrest (fun h => ?_) (fun h => hcon h.2) h403
      exact public_ne_private (ht.symm.trans h.1)
    · intro h
      rw [hpub ⟨ht, h⟩]
      rfl
  · intro h403
    by_cases h1 : channel.Typ = ChannelTypePrivate ∧ c.Get "role" ≠ some (Value.str "admin") ∧
        d.membership (c.Param "id") (c.Get "user_id") = none
    · rw [hpriv h1]; rfl
    · by_cases h2 : channel.Typ = ChannelTypePublic ∧
          d.membership (c.Param "id") (c.Get "user_id") = none
      · rw [hpub h2]; rfl
      · exact absurd h403 (hrest h1 h2)
  · intro u hu
    rw [hu]
    exact membership_none_iff_isMember d (c.Param "id") u

/-- Witness of C13: the admin `root`, who is not a member of the public
channel `random`, is answered 403 there. -/
theorem C13_post_access_decision_witness :
    statusOf (CreateMessage sampleStd "00000000-0000-7000-8000-0000000000b9" 9
      (some { Content := "hi", ThreadID := none }) (handlerCtx randomID rootID "admin")
      sampleDb) = some 403 :=
  ((C13_post_access_decision sampleStd "00000000-0000-7000-8000-0000000000b9" 9
    (some { Content := "hi", ThreadID := none }) (handlerCtx randomID rootID "admin") sampleDb
    { Content := "hi", ThreadID := none }
    { ID := randomID, CreatedAt := 3, UpdatedAt := 3, DeletedAt := none, Name := "random",
      Description := "", Typ := "public", CreatedBy := rootID }
    (by decide) (by decide)).2.1 rfl).2 (by decide)

/-- C15: on an existing channel `JoinChannel` answers 403 when the channel
is private and the caller's role is not `admin`; otherwise 409 when the
caller already has a membership; otherwise, for a caller whose user id is
a UUID in canonical text and a membership id that is not taken, it
answers 200 and adds exactly one membership, of the caller in the channel,
to the table. Whenever the answer is not 200 the tables are unchanged. -/
theorem C15_join_rules (lib : StdLib) (newID : String) (now : ℕ) (c : Context)
    (d : Database) (channel : Channel)
    (hch : d.firstChannel (fun ch => ch.ID = c.Param "id") = some channel) :
    (channel.Typ = ChannelTypePrivate ∧ c.Get "role" ≠ some (Value.str "admin") →
      JoinChannel lib newID now c d = failWith c d 403 "Cannot join private channel") ∧
    (¬ (channel.Typ = ChannelTypePrivate ∧ c.Get "role" ≠ some (Value.str "admin")) →
      d.membership (c.Param "id") (c.Get "user_id") ≠ none →
      JoinChannel lib newID now c d = failWith c d 409 "Already a member of this channel") ∧
    (¬ (channel.Typ = ChannelTypePrivate ∧ c.Get "role" ≠ some (Value.str "admin")) →
      d.membership (c.Param "id") (c.Get "user_id") = none →
      ∀ u, c.Get "user_id" = some (Value.str u) → lib.parseUUID u = some u →
      (∀ m ∈ d.ChannelMembers, m.ID ≠ newID) →
      JoinChannel lib newID now c d =
        some { ctx := c.JSON 200 [("message", "Successfully joined channel! 🎉")]
               db := { d with ChannelMembers := d.ChannelMembers ++
                 [{ ID := newID, CreatedAt := now, UpdatedAt := now, DeletedAt := none,
                    ChannelID := c.Param "id", UserID := u }] }
               data := .none }) ∧
    (∀ r, JoinChannel lib newID now c d = some r → r.ctx.status ≠ some 200 → r.db = d) :=
  have h := joinChannel_cases lib newID now c d channel hch
  ⟨h.1, h.2.1, h.2.2, joinChannel_unchanged lib newID now c d⟩

/-- Witness of C15: `bob`, who is not an admin, may not join the private
channel `staff`, and he joins the public channel `general`, which adds one
membership. -/
theorem C15_join_rules_witness :
    JoinChannel sampleStd "00000000-0000-7000-8000-0000000000c9" 9
        (handlerCtx staffID bobID "normal") sampleDb =
      failWith (handlerCtx staffID bobID "normal") sampleDb 403
        "Cannot join private channel" ∧
    JoinChannel sampleStd "00000000-0000-7000-8000-0000000000c9" 9
        (handlerCtx generalID bobID "normal") sampleDb =
      some { ctx := (handlerCtx generalID bobID "normal").JSON 200
               [("message", "Successfully joined channel! 🎉")]
             db := { sampleDb with ChannelMembers := sampleDb.ChannelMembers ++
               [{ ID := "00000000-0000-7000-8000-0000000000c9", CreatedAt := 9, UpdatedAt := 9,
                  DeletedAt := none, ChannelID := (handlerCtx generalID bobID "normal").Param "id",
                  UserID := bobID }] }
             data := .none } :=
  ⟨(C15_join_rules sampleStd "00000000-0000-7000-8000-0000000000c9" 9
      (handlerCtx staffID bobID "normal") sampleDb
      { ID := staffID, CreatedAt := 2, UpdatedAt := 2, DeletedAt := none, Name := "staff",
        Description := "", Typ := "private", CreatedBy := rootID }
      (by decide)).1 ⟨rfl, by decide⟩,
   (C15_join_rules sampleStd "00000000-0000-7000-8000-0000000000c9" 9
      (handlerCtx generalID bobID "normal") sampleDb
      { ID := generalID, CreatedAt := 1, UpdatedAt := 1, DeletedAt := none, Name := "general",
        Description := "", Typ := "public", CreatedBy := rootID }
      (by decide)).2.2.1 (by decide) (by decide) bobID (by decide) (by decide) (by decide)⟩

/-- C14: a caller who is not an admin and has no membership in a public
channel is answered 403 by `CreateMessage`, which stores nothing. When the
caller's user id and the channel id are UUIDs in canonical text and the
ids for the new rows are not taken, `JoinChannel` then answers 200, and
the identical `CreateMessage` request (its body binds; its thread, if it
names one, is a message of the channel) on the tables that the join left
answers 201 and appends the message to the message table. -/
theorem C14_post_after_join (lib : StdLib) (msgID memberID : String) (now₁ now₂ now₃ : ℕ)
    (body : Option CreateMessageRequest) (c : Context) (d : Database)
    (req : CreateMessageRequest) (channel : Channel) (u : String)
    (hbind : bindCreateMessage body = some req)
    (hch : d.firstChannel (fun ch => ch.ID = c.Param "id") = some channel)
    (hpub : channel.Typ = ChannelTypePublic)
    (_hrole : c.Get "role" ≠ some (Value.str "admin"))
    (hu : c.Get "user_id" = some (Value.str u)) (hcu : lib.parseUUID u = some u)
    (hcc : lib.parseUUID (c.Param "id") = some (c.Param "id"))
    (hnomem : d.isMember (c.Param "id") u = false)
    (hthr : ∀ t, threadRef req = some t →
      d.firstMessage (fun m => m.ID = t && m.ChannelID = c.Param "id") ≠ none ∧
        lib.parseUUID t = some t)
    (hfm : ∀ m ∈ d.ChannelMembers, m.ID ≠ memberID)
    (hfmsg : ∀ m ∈ d.Messages, m.ID ≠ msgID) :
    CreateMessage lib msgID now₁ body c d =
      failWith c d 403 "Must join channel to post messages" ∧
    ∃ joined, JoinChannel lib memberID now₂ c d = some joined ∧
      joined.ctx.status = some 200 ∧
      ∃ posted, CreateMessage lib msgID now₃ body c joined.db = some posted ∧
        posted.ctx.status = some 201 ∧
        posted.db.Messages = d.Messages ++
          [{ ID := msgID, CreatedAt := now₃, UpdatedAt := now₃, DeletedAt := none,
             Content := SanitizeString req.Content, UserID := u, ChannelID := c.Param "id",
             ThreadID := threadRef req }] := by
  have hmem : d.membership (c.Param "id") (c.Get "user_id") = none := by
    rw [hu]; exact (membership_none_iff_isMember d (c.Param "id") u).2 hnomem
  have hnp : ¬ (channel.Typ = ChannelTypePrivate ∧ c.Get "role" ≠ some (Value.str "admin")) :=
    fun h => public_ne_private (hpub.symm.trans h.1)
  refine ⟨(createMessage_access lib msgID now₁ body c d req channel hbind hch).2.1 ⟨hpub, hmem⟩,
    _, (joinChannel_cases lib memberID now₂ c d channel hch).2.2 hnp hmem u hu hcu hfm, rfl, ?_⟩
  have hmem' : ({ d with ChannelMembers := d.ChannelMembers ++
      [{ ID := memberID, CreatedAt := now₂, UpdatedAt := now₂, DeletedAt := none,
         ChannelID := c.Param "id", UserID := u }] } : Database).membership (c.Param "id")
        (c.Get "user_id") ≠ none := by
    rw [hu]
    intro hcon
    have := (membership_none_iff_isMember _ (c.Param "id") u).1 hcon
    rw [isMember_append_self d
      { ID := memberID, CreatedAt := now₂, UpdatedAt := now₂, DeletedAt := none,
        ChannelID := c.Param "id", UserID := u } rfl] at this
    cases this
  have hstore := createMessage_reaches_store lib msgID now₃ body c
    ({ d with ChannelMembers := d.ChannelMembers ++
      [{ ID := memberID, CreatedAt := now₂, UpdatedAt := now₂, DeletedAt := none,
         ChannelID := c.Param "id", UserID := u }] } : Database)
    req channel u hbind hch
    (fun h => public_ne_private (hpub.symm.trans h.1)) (fun h => hmem' h.2) hu hcu hcc hthr
  obtain ⟨r, hr1, hr2, hr3⟩ := storeMessage_fresh c
    ({ d with ChannelMembers := d.ChannelMembers ++
      [{ ID := memberID, CreatedAt := now₂, UpdatedAt := now₂, DeletedAt := none,
         ChannelID := c.Param "id", UserID := u }] } : Database) (c.Get "user_id")
    { ID := msgID, CreatedAt := now₃, UpdatedAt := now₃, DeletedAt := none,
      Content := SanitizeString req.Content, UserID := u, ChannelID := c.Param "id",
      ThreadID := threadRef req } hfmsg
  exact ⟨r, hstore.trans hr1, hr2, by rw [hr3]⟩

/-- Witness of C14: `bob` posts `hi` in the public channel `general`
before and after joining it. -/
theorem C14_post_after_join_witness :
    CreateMessage sampleStd "00000000-0000-7000-8000-0000000000b9" 9
        (some { Content := "hi", ThreadID := none }) (handlerCtx generalID bobID "normal")
        sampleDb =
      failWith (handlerCtx generalID bobID "normal") sampleDb 403
        "Must join channel to post messages" ∧
    ∃ joined, JoinChannel sampleStd "00000000-0000-7000-8000-0000000000c9" 10
        (handlerCtx generalID bobID "normal") sampleDb = some joined ∧
      joined.ctx.status = some 200 ∧
      ∃ posted, CreateMessage sampleStd "00000000-0000-7000-8000-0000000000b9" 11
          (some { Content := "hi", ThreadID := none }) (handlerCtx generalID bobID "normal")
          joined.db = some posted ∧
        posted.ctx.status = some 201 ∧
        posted.db.Messages = sampleDb.Messages ++
          [{ ID := "00000000-0000-7000-8000-0000000000b9", CreatedAt := 11, UpdatedAt := 11,
             DeletedAt := none, Content := SanitizeString "hi", UserID := bobID,
             ChannelID := (handlerCtx generalID bobID "normal").Param "id",
             ThreadID := threadRef { Content := "hi", ThreadID := none } }] :=
  C14_post_after_join sampleStd "00000000-0000-7000-8000-0000000000b9"
    "00000000-0000-7000-8000-0000000000c9" 9 10 11
    (some { Content := "hi", ThreadID := none }) (handlerCtx generalID bobID "normal") sampleDb
    { Content := "hi", ThreadID := none }
    { ID := generalID, CreatedAt := 1, UpdatedAt := 1, DeletedAt := none, Name := "general",
      Description := "", Typ := "public", CreatedBy := rootID }
    bobID (by decide) (by decide) rfl (by decide) (by decide) (by decide) (by decide)
    (by decide) (by intro t h; simp [threadRef] at h) (by decide) (by decide)

/-- C20: for a caller who passes the access checks of `CreateMessage` on
an existing channel and whose user id is a string, a request whose
`thread_id` is not empty and is not the id of a message of that channel
(no message has the id, or the message is in another channel or is
soft-deleted) is answered 400 and stores nothing; when the caller's id and
the channel id are UUIDs the answer is `Invalid thread message`. -/
theorem C20_invalid_thread_rejected (lib : StdLib) (newID : String) (now : ℕ)
    (body : Option CreateMessageRequest) (c : Context) (d : Database)
    (req : CreateMessageRequest) (channel : Channel) (u t : String)
    (hbind : bindCreateMessage body = some req)
    (hch : d.firstChannel (fun ch => ch.ID = c.Param "id") = some channel)
    (h1 : ¬ (channel.Typ = ChannelTypePrivate ∧ c.Get "role" ≠ some (Value.str "admin") ∧
        d.membership (c.Param "id") (c.Get "user_id") = none))
    (h2 : ¬ (channel.Typ = ChannelTypePublic ∧
        d.membership (c.Param "id") (c.Get "user_id") = none))
    (hu : c.Get "user_id" = some (Value.str u))
    (ht : threadRef req = some t)
    (hno : ∀ m ∈ d.Messages, m.DeletedAt = none → m.ID = t → m.ChannelID ≠ c.Param "id") :
    statusOf (CreateMessage lib newID now body c d) = some 400 ∧
    dbOf (CreateMessage lib newID now body c d) = some d ∧
    (lib.parseUUID u ≠ none → lib.parseUUID (c.Param "id") ≠ none →
      CreateMessage lib newID now body c d = failWith c d 400 "Invalid thread message") := by
  have h := createMessage_bad_thread lib newID now body c d req channel u t hbind hch h1 h2 hu ht
    (firstMessage_eq_none d t (c.Param "id") hno)
  rw [h]
  rcases hcu : lib.parseUUID u with _ | u'
  · exact ⟨rfl, rfl, fun hn => absurd rfl hn⟩
  · rcases hcc : lib.parseUUID (c.Param "id") with _ | ch'
    · exact ⟨rfl, rfl, fun _ hn => absurd rfl hn⟩
    · exact ⟨rfl, rfl, fun _ _ => rfl⟩

/-- Witness of C20: `ann`, a member of `general`, replies there to a
message of the channel `random`. -/
theorem C20_invalid_thread_rejected_witness :
    CreateMessage sampleStd "00000000-0000-7000-8000-0000000000b9" 9
        (some { Content := "hi", ThreadID := some otherID })
        (handlerCtx generalID annID "normal") sampleDb =
      failWith (handlerCtx generalID annID "normal") sampleDb 400 "Invalid thread message" :=
  (C20_invalid_thread_rejected sampleStd "00000000-0000-7000-8000-0000000000b9" 9
    (some { Content := "hi", ThreadID := some otherID })
    (handlerCtx generalID annID "normal") sampleDb
    { Content := "hi", ThreadID := some otherID }
    { ID := generalID, CreatedAt := 1, UpdatedAt := 1, DeletedAt := none, Name := "general",
      Description := "", Typ := "public", CreatedBy := rootID }
    annID otherID (by decide) (by decide) (by decide) (by decide) (by decide) (by decide)
    (by decide)).2.2 (by decide) (by decide)

/-- C16: `LeaveChannel` never reads the role. It answers 404 when the
caller has no membership in the channel, and 404 or 400 when the channel
is one named `general`; whenever the answer is not 200 the tables are
unchanged. It answers 200 only for a caller who has a membership in a
channel that is not one named `general`, and then soft-deletes that
membership row, so that no row with its id is live afterwards. -/
theorem C16_leave_rules (now : ℕ) (c : Context) (d : Database) :
    (d.membership (c.Param "id") (c.Get "user_id") = none →
      LeaveChannel now c d = failWith c d 404 "Not a member of this channel") ∧
    ((∃ ch ∈ d.Channels, ch.DeletedAt = none ∧ ch.ID = c.Param "id" ∧ ch.Name = "general") →
      LeaveChannel now c d = failWith c d 404 "Not a member of this channel" ∨
      LeaveChannel now c d = failWith c d 400 "Cannot leave the general channel") ∧
    (∀ r, LeaveChannel now c d = some r → r.ctx.status ≠ some 200 → r.db = d) ∧
    (∀ r, LeaveChannel now c d = some r → r.ctx.status = some 200 →
      ∃ row, d.membership (c.Param "id") (c.Get "user_id") = some row ∧
        (¬ ∃ ch ∈ d.Channels, ch.DeletedAt = none ∧ ch.ID = c.Param "id" ∧
          ch.Name = "general") ∧
        r.db = d.deleteMember row now ∧
        (∀ m ∈ r.db.ChannelMembers, m.ID = row.ID → m.DeletedAt ≠ none)) := by
  obtain ⟨hnone, hgen, hok⟩ := leaveChannel_cases now c d
  have hcond : (∃ ch ∈ d.Channels, ch.DeletedAt = none ∧ ch.ID = c.Param "id" ∧
      ch.Name = "general") →
      d.firstChannel (fun ch => ch.ID = c.Param "id" && ch.Name = "general") ≠ none := by
    rintro ⟨ch, hmem, hlive, hid, hname⟩
    exact firstChannel_ne_none d _ ⟨ch, hmem, hlive, by simp [hid, hname]⟩
  refine ⟨hnone, ?_, ?_, ?_⟩
  · intro hex
    cases hm : d.membership (c.Param "id") (c.Get "user_id") with
    | none => exact Or.inl (hnone hm)
    | some row => exact Or.inr (hgen row hm (hcond hex))
  · intro r hr hs
    cases hm : d.membership (c.Param "id") (c.Get "user_id") with
    | none =>
      rw [hnone hm] at hr
      exact failWith_db hr
    | some row =>
      cases hfc : d.firstChannel (fun ch => ch.ID = c.Param "id" && ch.Name = "general") with
      | some ch =>
        rw [hgen row hm (by rw [hfc]; simp)] at hr
        exact failWith_db hr
      | none =>
        rw [hok row hm hfc, Option.some.injEq] at hr
        rw [← hr] at hs
        exact absurd rfl hs
  · intro r hr hs
    cases hm : d.membership (c.Param "id") (c.Get "user_id") with
    | none =>
      rw [hnone hm, failWith, Option.some.injEq] at hr
      rw [← hr] at hs
      simp [Context.JSON] at hs
    | some row =>
      cases hfc : d.firstChannel (fun ch => ch.ID = c.Param "id" && ch.Name = "general") with
      | some ch =>
        rw [hgen row hm (by rw [hfc]; simp), failWith, Option.some.injEq] at hr
        rw [← hr] at hs
        simp [Context.JSON] at hs
      | none =>
        rw [hok row hm hfc, Option.some.injEq] at hr
        refine ⟨row, rfl, fun hex => hcond hex hfc, by rw [← hr], ?_⟩
        rw [← hr]
        exact deleteMember_not_live d row now

/-- Witness of C16: `ann`, the admin `root` and `bob` each try to leave
`general`; `ann`, a member, is answered 400, the others 404. -/
theorem C16_leave_rules_witness :
    LeaveChannel 9 (handlerCtx generalID annID "normal") sampleDb =
      failWith (handlerCtx generalID annID "normal") sampleDb 400
        "Cannot leave the general channel" ∧
    LeaveChannel 9 (handlerCtx generalID rootID "admin") sampleDb =
      failWith (handlerCtx generalID rootID "admin") sampleDb 404
        "Not a member of this channel" :=
  ⟨((C16_leave_rules 9 (handlerCtx generalID annID "normal") sampleDb).2.1
      ⟨{ ID := generalID, CreatedAt := 1, UpdatedAt := 1, DeletedAt := none, Name := "general",
         Description := "", Typ := "public", CreatedBy := rootID },
       by decide, by decide, by decide, by decide⟩).resolve_left (by
        intro h
        have := congrArg statusOf h
        revert this
        decide),
   (C16_leave_rules 9 (handlerCtx generalID rootID "admin") sampleDb).1 (by decide)⟩

/-- C17: for a body that binds and asks for the type `private`:
a caller whose role is not `admin` is always rejected with nothing
created (409 when the normalised name is taken, 403 otherwise); an admin
whose user id is a UUID in canonical text, asking for a name that is not
taken, with a channel id that is not taken, is answered 201 and a channel
of type `private` with the normalised name is appended to the table. -/
theorem C17_private_channels_admin_only (lib : StdLib) (channelID memberID : String)
    (now nowMember : ℕ) (body : Option CreateChannelRequest) (c : Context) (d : Database)
    (req : CreateChannelRequest)
    (hbind : bindCreateChannel body = some req)
    (hpriv : req.Typ = ChannelTypePrivate) :
    (c.Get "role" ≠ some (Value.str "admin") →
      (d.firstChannel (fun ch => ch.Name = channelName lib req.Name) = none →
        CreateChannel lib channelID memberID now nowMember body c d =
          failWith c d 403 "Only admins can create private channels") ∧
      (d.firstChannel (fun ch => ch.Name = channelName lib req.Name) ≠ none →
        CreateChannel lib channelID memberID now nowMember body c d =
          failWith c d 409 "Channel already exists")) ∧
    (c.Get "role" = some (Value.str "admin") →
      d.firstChannel (fun ch => ch.Name = channelName lib req.Name) = none →
      ∀ u, c.Get "user_id" = some (Value.str u) → lib.parseUUID u = some u →
      (∀ ch ∈ d.Channels, ch.ID ≠ channelID) →
      ∃ r, CreateChannel lib channelID memberID now nowMember body c d = some r ∧
        r.ctx.status = some 201 ∧
        r.db.Channels = d.Channels ++
          [{ ID := channelID, CreatedAt := now, UpdatedAt := now, DeletedAt := none,
             Name := channelName lib req.Name,
             Description := SanitizeString req.Description,
             Typ := ChannelTypePrivate, CreatedBy := u }]) := by
  refine ⟨fun hrole => ⟨?_, ?_⟩, ?_⟩
  · intro hfree
    unfold CreateChannel
    simp only [hbind, hfree, hpriv, hrole, ne_eq, not_false_eq_true, and_self, if_true,
      private_ne_empty]
  · intro htaken
    unfold CreateChannel
    simp only [hbind]
    cases hfc : d.firstChannel (fun ch => ch.Name = channelName lib req.Name) with
    | none => exact absurd hfc htaken
    | some ch => rfl
  · intro hrole hfree u hu hcu hfresh
    have hany : d.Channels.any (fun r => decide (r.ID = channelID)) = false := by
      rw [List.any_eq_false]
      intro ch hch
      simpa using hfresh ch hch
    unfold CreateChannel
    simp only [hbind, hfree, hrole, hu, hcu, ne_eq, not_true_eq_false, and_false, if_false,
      Database.createChannel, hany, not_false_eq_true, if_true, hpriv, private_ne_empty,
      Bool.false_eq_true]
    exact ⟨_, rfl, rfl, createMember_getD_channels _ _⟩

/-- Witness of C17: `bob` and the admin `root` each ask for a private
channel named `Ops Room`. -/
theorem C17_private_channels_admin_only_witness :
    CreateChannel sampleStd "00000000-0000-7000-8000-0000000000a9"
        "00000000-0000-7000-8000-0000000000c9" 9 10
        (some { Name := "Ops Room", Description := "", Typ := "private" })
        (handlerCtx "" bobID "normal") sampleDb =
      failWith (handlerCtx "" bobID "normal") sampleDb 403
        "Only admins can create private channels" ∧
    ∃ r, CreateChannel sampleStd "00000000-0000-7000-8000-0000000000a9"
        "00000000-0000-7000-8000-0000000000c9" 9 10
        (some { Name := "Ops Room", Description := "", Typ := "private" })
        (handlerCtx "" rootID "admin") sampleDb = some r ∧
      r.ctx.status = some 201 ∧
      r.db.Channels = sampleDb.Channels ++
        [{ ID := "00000000-0000-7000-8000-0000000000a9", CreatedAt := 9, UpdatedAt := 9,
           DeletedAt := none, Name := channelName sampleStd "Ops Room",
           Description := SanitizeString "", Typ := ChannelTypePrivate, CreatedBy := rootID }] :=
  ⟨((C17_private_channels_admin_only sampleStd "00000000-0000-7000-8000-0000000000a9"
      "00000000-0000-7000-8000-0000000000c9" 9 10
      (some { Name := "Ops Room", Description := "", Typ := "private" })
      (handlerCtx "" bobID "normal") sampleDb
      { Name := "Ops Room", Description := "", Typ := "private" } (by decide) rfl).1
      (by decide)).1 (by decide),
   (C17_private_channels_admin_only sampleStd "00000000-0000-7000-8000-0000000000a9"
      "00000000-0000-7000-8000-0000000000c9" 9 10
      (some { Name := "Ops Room", Description := "", Typ := "private" })
      (handlerCtx "" rootID "admin") sampleDb
      { Name := "Ops Room", Description := "", Typ := "private" } (by decide) rfl).2
      (by decide) (by decide) rootID (by decide) (by decide) (by decide)⟩

/-- C18: on an existing channel `GetChannel` and `GetChannelMembers`
answer 403 exactly when the channel is private, the caller's role is not
`admin` and the caller has no membership in it, and 200 in every other
case; neither changes the tables. -/
theorem C18_view_channel_access (c : Context) (d : Database) (channel : Channel)
    (hch : d.firstChannel (fun ch => ch.ID = c.Param "id") = some channel) :
    statusOf (GetChannel c d) =
      (if channel.Typ = ChannelTypePrivate ∧ c.Get "role" ≠ some (Value.str "admin") ∧
          d.membership (c.Param "id") (c.Get "user_id") = none then some 403 else some 200) ∧
    statusOf (GetChannelMembers c d) =
      (if channel.Typ = ChannelTypePrivate ∧ c.Get "role" ≠ some (Value.str "admin") ∧
          d.membership (c.Param "id") (c.Get "user_id") = none then some 403 else some 200) ∧
    dbOf (GetChannel c d) = some d ∧ dbOf (GetChannelMembers c d) = some d := by
  unfold GetChannel GetChannelMembers
  simp only [hch]
  by_cases h : channel.Typ = ChannelTypePrivate ∧ c.Get "role" ≠ some (Value.str "admin") ∧
      d.membership (c.Param "id") (c.Get "user_id") = none
  · simp only [if_pos h]
    exact ⟨rfl, rfl, rfl, rfl⟩
  · simp only [if_neg h]
    exact ⟨rfl, rfl, rfl, rfl⟩

/-- Witness of C18: `bob` may not view the private channel `staff`. -/
theorem C18_view_channel_access_witness :
    statusOf (GetChannel (handlerCtx staffID bobID "normal") sampleDb) = some 403 ∧
    statusOf (GetChannelMembers (handlerCtx staffID bobID "normal") sampleDb) = some 403 :=
  have h := C18_view_channel_access (handlerCtx staffID bobID "normal") sampleDb
    { ID := staffID, CreatedAt := 2, UpdatedAt := 2, DeletedAt := none, Name := "staff",
      Description := "", Typ := "private", CreatedBy := rootID } (by decide)
  ⟨h.1.trans (by decide), h.2.1.trans (by decide)⟩

/-- C19, as the code has it: `bob`, who has no membership in the public
channel `general`, is answered 403 when he asks for its messages. -/
theorem C19_public_messages_need_membership :
    sampleDb.firstChannel (fun ch => ch.ID = generalID) =
      some { ID := generalID, CreatedAt := 1, UpdatedAt := 1, DeletedAt := none,
             Name := "general", Description := "", Typ := "public", CreatedBy := rootID } ∧
    sampleDb.isMember generalID bobID = false ∧
    statusOf (GetMessages sampleStd (handlerCtx generalID bobID "normal") sampleDb) =
      some 403 := by
  decide

/-- C19, amended: on an existing channel `GetMessages` answers 403 exactly
when the caller has no membership in it and the channel is public, or is
private while the caller's role is not `admin`; in every other case it
answers 200. The tables are unchanged. -/
theorem C19_view_messages_access (lib : StdLib) (c : Context) (d : Database)
    (channel : Channel)
    (hch : d.firstChannel (fun ch => ch.ID = c.Param "id") = some channel) :
    statusOf (GetMessages lib c d) =
      (if d.membership (c.Param "id") (c.Get "user_id") = none ∧
          (channel.Typ = ChannelTypePublic ∨
            (channel.Typ = ChannelTypePrivate ∧ c.Get "role" ≠ some (Value.str "admin")))
        then some 403 else some 200) ∧
    dbOf (GetMessages lib c d) = some d := by
  unfold GetMessages
  simp only [hch]
  by_cases h1 : channel.Typ = ChannelTypePrivate ∧ c.Get "role" ≠ some (Value.str "admin") ∧
      d.membership (c.Param "id") (c.Get "user_id") = none
  · have hc : d.membership (c.Param "id") (c.Get "user_id") = none ∧
        (channel.Typ = ChannelTypePublic ∨
          (channel.Typ = ChannelTypePrivate ∧ c.Get "role" ≠ some (Value.str "admin"))) :=
      ⟨h1.2.2, Or.inr ⟨h1.1, h1.2.1⟩⟩
    rw [if_pos h1, if_pos hc]
    exact ⟨rfl, rfl⟩
  · rw [if_neg h1]
    by_cases h2 : channel.Typ = ChannelTypePublic ∧
        d.membership (c.Param "id") (c.Get "user_id") = none
    · have hc : d.membership (c.Param "id") (c.Get "user_id") = none ∧
          (channel.Typ = ChannelTypePublic ∨
            (channel.Typ = ChannelTypePrivate ∧ c.Get "role" ≠ some (Value.str "admin"))) :=
        ⟨h2.2, Or.inl h2.1⟩
      rw [if_pos h2, if_pos hc]
      exact ⟨rfl, rfl⟩
    · have hc : ¬ (d.membership (c.Param "id") (c.Get "user_id") = none ∧
          (channel.Typ = ChannelTypePublic ∨
            (channel.Typ = ChannelTypePrivate ∧ c.Get "role" ≠ some (Value.str "admin")))) := by
        rintro ⟨hm, hp | hp⟩
        · exact h2 ⟨hp, hm⟩
        · exact h1 ⟨hp.1, hp.2, hm⟩
      rw [if_neg h2, if_neg hc]
      exact ⟨rfl, rfl⟩

/-- Witness of the amended C19: `ann`, a member of `general`, is answered
200 when she asks for its messages. -/
theorem C19_view_messages_access_witness :
    statusOf (GetMessages sampleStd (handlerCtx generalID annID "normal") sampleDb) =
      some 200 :=
  (C19_view_messages_access sampleStd (handlerCtx generalID annID "normal") sampleDb
    { ID := generalID, CreatedAt := 1, UpdatedAt := 1, DeletedAt := none, Name := "general",
      Description := "", Typ := "public", CreatedBy := rootID } (by decide)).1.trans
    (by decide)

/-! ## Theorems: sanitising, creating a channel, listing messages -/

theorem failWith_status {c : Context} {d : Database} {code : ℕ} {msg : String} {r : Reply}
    (h : failWith c d code msg = some r) : r.ctx.status = some code := by
  simp only [failWith, Option.some.injEq] at h
  subst h
  rfl

theorem createChannel_some {d d₁ : Database} {row : Channel}
    (h : d.createChannel row = some d₁) : d₁.Channels = d.Channels ++ [row] := by
  unfold Database.createChannel at h
  split at h
  · cases h
  · simp only [Option.some.injEq] at h
    subst h
    rfl

/-- The query of `GetMessages` returns its rows newest first. -/
theorem rootMessages_sorted (d : Database) (channelID : String) (limit offset : ℕ) :
    List.Sorted (fun a b => b.CreatedAt ≤ a.CreatedAt)
      (d.rootMessages channelID limit offset) := by
  unfold Database.rootMessages
  exact ((List.sorted_insertionSort (fun a b : Message => b.CreatedAt ≤ a.CreatedAt) _).sublist
    (List.drop_sublist _ _)).sublist (List.take_sublist _ _)

/-- The query of `GetMessages` returns live root messages of the channel. -/
theorem rootMessages_mem (d : Database) (channelID : String) (limit offset : ℕ) (m : Message)
    (h : m ∈ d.rootMessages channelID limit offset) :
    m ∈ d.Messages ∧ m.DeletedAt = none ∧ m.ChannelID = channelID ∧ m.ThreadID = none := by
  unfold Database.rootMessages at h
  have h1 := (List.drop_sublist _ _).subset ((List.take_sublist _ _).subset h)
  rw [(List.perm_insertionSort _ _).mem_iff, List.mem_filter] at h1
  simpa using h1

/-- The first character of a trimmed text is not white space. -/
theorem trimSpace_head (s : String) (ch : Char) (h : (TrimSpace s).data.head? = some ch) :
    isSpace ch = false := by
  unfold TrimSpace at h
  simp only at h
  obtain ⟨t, ht⟩ := List.rdropWhile_prefix isSpace (s.data.dropWhile isSpace)
  cases hl : (s.data.dropWhile isSpace).rdropWhile isSpace with
  | nil => rw [hl] at h; cases h
  | cons a rest =>
    rw [hl] at h ht
    simp only [List.head?_cons, Option.some.injEq] at h
    subst h
    have hd : (s.data.dropWhile isSpace).head? = some a := by rw [← ht]; rfl
    have := List.head?_dropWhile_not isSpace s.data
    rw [hd] at this
    simpa using this

/-- The last character of a trimmed text is not white space. -/
theorem trimSpace_last (s : String) (ch : Char) (h : (TrimSpace s).data.getLast? = some ch) :
    isSpace ch = false := by
  unfold TrimSpace at h
  simp only at h
  have hne : (s.data.dropWhile isSpace).rdropWhile isSpace ≠ [] := by
    intro hnil; rw [hnil] at h; cases h
  have := List.rdropWhile_last_not isSpace (s.data.dropWhile isSpace) hne
  rw [List.getLast?_eq_getLast _ hne, Option.some.injEq] at h
  rw [h] at this
  simpa using this

theorem trimSpace_subset (s : String) : (TrimSpace s).data ⊆ s.data := by
  unfold TrimSpace
  exact fun x hx => (List.dropWhile_sublist isSpace).subset
    ((List.rdropWhile_prefix isSpace _).subset hx)

/-- What `SanitizeString` does guarantee: every character of the result
is a character of the input that is not the null byte and is at least 32
or tab, newline or carriage return, and the result neither begins nor ends
with white space. -/
theorem sanitizeString_clean (input : String) :
    (∀ ch ∈ (SanitizeString input).data,
      ch ≠ Char.ofNat 0 ∧ (32 ≤ ch.val ∨ ch = '\t' ∨ ch = '\n' ∨ ch = '\r') ∧
        ch ∈ input.data) ∧
    (∀ ch, (SanitizeString input).data.head? = some ch → isSpace ch = false) ∧
    (∀ ch, (SanitizeString input).data.getLast? = some ch → isSpace ch = false) := by
  refine ⟨fun ch h => ?_, fun ch h => trimSpace_head _ ch h, fun ch h => trimSpace_last _ ch h⟩
  unfold SanitizeString at h
  have h1 := trimSpace_subset _ h
  simp only [List.mem_filter, Bool.or_eq_true, decide_eq_true_eq] at h1
  obtain ⟨⟨hin, hnz⟩, hk⟩ := h1
  refine ⟨hnz, ?_, hin⟩
  rcases hk with ((hk | hk) | hk) | hk
  · exact Or.inl hk
  · exact Or.inr (Or.inl hk)
  · exact Or.inr (Or.inr (Or.inl hk))
  · exact Or.inr (Or.inr (Or.inr hk))

/-! ## The claims about sanitising, channel creation and message lists -/

/-- C23, counterexample: the user `ann` asks for a channel `Ops Room` of
type `secret`; the request binds, the answer is 201, and the channel is
stored with type `secret`, which is neither of the two declared types. -/
theorem C23_arbitrary_type_stored :
    bindCreateChannel (some { Name := "Ops Room", Description := "", Typ := "secret" }) =
      some { Name := "Ops Room", Description := "", Typ := "secret" } ∧
    statusOf (CreateChannel sampleStd "00000000-0000-7000-8000-0000000000a9"
      "00000000-0000-7000-8000-0000000000c9" 20 21
      (some { Name := "Ops Room", Description := "", Typ := "secret" })
      (handlerCtx "" annID "normal") sampleDb) = some 201 ∧
    (dbOf (CreateChannel sampleStd "00000000-0000-7000-8000-0000000000a9"
      "00000000-0000-7000-8000-0000000000c9" 20 21
      (some { Name := "Ops Room", Description := "", Typ := "secret" })
      (handlerCtx "" annID "normal") sampleDb)).map (fun d => d.Channels) =
      some (sampleDb.Channels ++
        [{ ID := "00000000-0000-7000-8000-0000000000a9", CreatedAt := 20, UpdatedAt := 20,
           DeletedAt := none, Name := "ops-room", Description := "", Typ := "secret",
           CreatedBy := annID }]) ∧
    "secret" ≠ ChannelTypePublic ∧ "secret" ≠ ChannelTypePrivate := by
  decide

/-- C23, amended: whenever `CreateChannel` answers 201 the request bound,
and the one channel it stored carries as its type the text of the
request's type field when that is not empty, whatever that text is, and
`public` when it is empty; the text `private` is stored for an admin only. -/
theorem C23_stored_type_is_request_text (lib : StdLib) (channelID memberID : String)
    (now nowMember : ℕ) (body : Option CreateChannelRequest) (c : Context) (d : Database)
    (hs : statusOf (CreateChannel lib channelID memberID now nowMember body c d) = some 201) :
    ∃ req createdBy r, bindCreateChannel body = some req ∧
      CreateChannel lib channelID memberID now nowMember body c d = some r ∧
      (req.Typ = ChannelTypePrivate → c.Get "role" = some (Value.str "admin")) ∧
      r.db.Channels = d.Channels ++
        [{ ID := channelID, CreatedAt := now, UpdatedAt := now, DeletedAt := none,
           Name := channelName lib req.Name,
           Description := SanitizeString req.Description,
           Typ := if req.Typ = "" then ChannelTypePublic else req.Typ,
           CreatedBy := createdBy }] := by
  rcases h : CreateChannel lib channelID memberID now nowMember body c d with _ | r
  · rw [h] at hs; cases hs
  rw [h] at hs
  replace hs : r.ctx.status = some 201 := hs
  unfold CreateChannel at h
  split at h
  · rw [failWith_status h] at hs; cases hs
  · rename_i req hbind
    dsimp only at h
    split at h
    · rw [failWith_status h] at hs; cases hs
    · split at h
      · rw [failWith_status h] at hs; cases hs
      · rename_i hgate
        split at h
        · split at h
          · rw [failWith_status h] at hs; cases hs
          · rename_i createdBy hcb
            split at h
            · rw [failWith_status h] at hs; cases hs
            · rename_i d₁ hd₁
              simp only [Option.some.injEq] at h
              subst h
              refine ⟨req, createdBy, _, hbind, rfl, ?_, ?_⟩
              · intro hp
                by_contra hr
                exact hgate ⟨by rw [hp]; exact private_ne_empty, hp, hr⟩
              · simp only [createMember_getD_channels]
                rw [createChannel_some hd₁]
                by_cases he : req.Typ = "" <;> simp [he]
        · cases h

/-- Witness of C23 (amended): the request of `ann` for a channel of type
`secret`. -/
theorem C23_stored_type_is_request_text_witness :
    ∃ req createdBy r,
      bindCreateChannel (some { Name := "Ops Room", Description := "", Typ := "secret" }) =
        some req ∧
      CreateChannel sampleStd "00000000-0000-7000-8000-0000000000a9"
        "00000000-0000-7000-8000-0000000000c9" 20 21
        (some { Name := "Ops Room", Description := "", Typ := "secret" })
        (handlerCtx "" annID "normal") sampleDb = some r ∧
      (req.Typ = ChannelTypePrivate →
        (handlerCtx "" annID "normal").Get "role" = some (Value.str "admin")) ∧
      r.db.Channels = sampleDb.Channels ++
        [{ ID := "00000000-0000-7000-8000-0000000000a9", CreatedAt := 20, UpdatedAt := 20,
           DeletedAt := none, Name := channelName sampleStd req.Name,
           Description := SanitizeString req.Description,
           Typ := if req.Typ = "" then ChannelTypePublic else req.Typ,
           CreatedBy := createdBy }] :=
  C23_stored_type_is_request_text sampleStd "00000000-0000-7000-8000-0000000000a9"
    "00000000-0000-7000-8000-0000000000c9" 20 21
    (some { Name := "Ops Room", Description := "", Typ := "secret" })
    (handlerCtx "" annID "normal") sampleDb (by decide)

/-- C27, the failing input: `SanitizeString` returns the text `a`, U+007F,
`b` unchanged, although U+007F (delete) is a control character and is
neither tab, newline nor carriage return. The loop keeps every character
that is at least 32. -/
theorem C27_sanitize_keeps_delete_character :
    SanitizeString "a\x7fb" = "a\x7fb" ∧
    Char.ofNat 0x7F ∈ (SanitizeString "a\x7fb").data ∧
    isControl (Char.ofNat 0x7F) = true ∧
    Char.ofNat 0x7F ≠ '\t' ∧ Char.ofNat 0x7F ≠ '\n' ∧ Char.ofNat 0x7F ≠ '\r' := by
  decide

/-- C28: whenever `GetMessages` answers 200, the list it returns is the
reverse of the result of its query for the limit and the offset that the
request's `limit` and `offset` parameters parse to (limit 50 unless the
parameter is a number from 1 to 100, offset 0 unless it is a number that
is not negative). The query result holds the live root messages of the
channel newest first, so the returned list is in chronological order,
oldest first. -/
theorem C28_messages_oldest_first (lib : StdLib) (c : Context) (d : Database)
    (hs : statusOf (GetMessages lib c d) = some 200) :
    ∃ r : Reply, GetMessages lib c d = some r ∧
      r.data = .messages (((d.rootMessages (c.Param "id")
        (match lib.Atoi (c.DefaultQuery "limit" "50") with
          | none => (50 : ℤ)
          | some n => if n ≤ 0 ∨ n > 100 then 50 else n).toNat
        (match lib.Atoi (c.DefaultQuery "offset" "0") with
          | none => (0 : ℤ)
          | some n => if n < 0 then 0 else n).toNat).map
        d.messageResponse).reverse) ∧
      List.Sorted (fun a b => b.CreatedAt ≤ a.CreatedAt)
        (d.rootMessages (c.Param "id")
        (match lib.Atoi (c.DefaultQuery "limit" "50") with
          | none => (50 : ℤ)
          | some n => if n ≤ 0 ∨ n > 100 then 50 else n).toNat
        (match lib.Atoi (c.DefaultQuery "offset" "0") with
          | none => (0 : ℤ)
          | some n => if n < 0 then 0 else n).toNat) ∧
      List.Sorted (fun (a b : MessageResponse) => a.CreatedAt ≤ b.CreatedAt)
        (((d.rootMessages (c.Param "id")
        (match lib.Atoi (c.DefaultQuery "limit" "50") with
          | none => (50 : ℤ)
          | some n => if n ≤ 0 ∨ n > 100 then 50 else n).toNat
        (match lib.Atoi (c.DefaultQuery "offset" "0") with
          | none => (0 : ℤ)
          | some n => if n < 0 then 0 else n).toNat).map
          d.messageResponse).reverse) := by
  unfold GetMessages at hs ⊢
  dsimp only at hs ⊢
  split at hs
  · simp [statusOf, failWith, Context.JSON] at hs
  · split at hs
    · simp [statusOf, failWith, Context.JSON] at hs
    · split at hs
      · simp [statusOf, failWith, Context.JSON] at hs
      · rename_i h1 h2
        simp only [if_neg h1, if_neg h2]
        refine ⟨_, rfl, rfl, rootMessages_sorted _ _ _ _, ?_⟩
        rw [List.Sorted, List.pairwise_reverse, List.pairwise_map]
        exact rootMessages_sorted _ _ _ _

/-- Witness of C28: `ann`, a member of `general`, lists its messages with
the default limit and offset. -/
theorem C28_messages_oldest_first_witness :
    ∃ r : Reply, GetMessages sampleStd (handlerCtx generalID annID "normal") sampleDb = some r ∧
      r.data = .messages (((sampleDb.rootMessages ((handlerCtx generalID annID "normal").Param "id")
        (match sampleStd.Atoi ((handlerCtx generalID annID "normal").DefaultQuery "limit" "50") with
          | none => (50 : ℤ)
          | some n => if n ≤ 0 ∨ n > 100 then 50 else n).toNat
        (match sampleStd.Atoi ((handlerCtx generalID annID "normal").DefaultQuery "offset" "0") with
          | none => (0 : ℤ)
          | some n => if n < 0 then 0 else n).toNat).map
        sampleDb.messageResponse).reverse) ∧
      List.Sorted (fun a b => b.CreatedAt ≤ a.CreatedAt)
        (sampleDb.rootMessages ((handlerCtx generalID annID "normal").Param "id")
        (match sampleStd.Atoi ((handlerCtx generalID annID "normal").DefaultQuery "limit" "50") with
          | none => (50 : ℤ)
          | some n => if n ≤ 0 ∨ n > 100 then 50 else n).toNat
        (match sampleStd.Atoi ((handlerCtx generalID annID "normal").DefaultQuery "offset" "0") with
          | none => (0 : ℤ)
          | some n => if n < 0 then 0 else n).toNat) ∧
      List.Sorted (fun (a b : MessageResponse) => a.CreatedAt ≤ b.CreatedAt)
        (((sampleDb.rootMessages ((handlerCtx generalID annID "normal").Param "id")
        (match sampleStd.Atoi ((handlerCtx generalID annID "normal").DefaultQuery "limit" "50") with
          | none => (50 : ℤ)
          | some n => if n ≤ 0 ∨ n > 100 then 50 else n).toNat
        (match sampleStd.Atoi ((handlerCtx generalID annID "normal").DefaultQuery "offset" "0") with
          | none => (0 : ℤ)
          | some n => if n < 0 then 0 else n).toNat).map
          sampleDb.messageResponse).reverse) :=
  C28_messages_oldest_first sampleStd (handlerCtx generalID annID "normal") sampleDb
    (by decide)

/-- C30, the failing input: the name that is one space passes the binding
(its length is 1), its normalised form is the empty text, and
`CreateChannel` answers 201 and stores a channel whose name is empty. -/
theorem C30_blank_name_stored_empty :
    bindCreateChannel (some { Name := " ", Description := "", Typ := "" }) =
      some { Name := " ", Description := "", Typ := "" } ∧
    channelName sampleStd " " = "" ∧
    statusOf (CreateChannel sampleStd "00000000-0000-7000-8000-0000000000a9"
      "00000000-0000-7000-8000-0000000000c9" 20 21
      (some { Name := " ", Description := "", Typ := "" })
      (handlerCtx "" annID "normal") sampleDb) = some 201 ∧
    (dbOf (CreateChannel sampleStd "00000000-0000-7000-8000-0000000000a9"
      "00000000-0000-7000-8000-0000000000c9" 20 21
      (some { Name := " ", Description := "", Typ := "" })
      (handlerCtx "" annID "normal") sampleDb)).map (fun d => d.Channels) =
      some (sampleDb.Channels ++
        [{ ID := "00000000-0000-7000-8000-0000000000a9", CreatedAt := 20, UpdatedAt := 20,
           DeletedAt := none, Name := "", Description := "", Typ := "public",
           CreatedBy := annID }]) := by
  decide

/-! ## Theorems: threads and memberships -/

theorem createMember_unique {d d' : Database} {row : ChannelMember}
    (h : d.createMember row = some d') (hu : d.membersUnique) : d'.membersUnique := by
  unfold Database.createMember at h
  split at h
  · cases h
  · split at h
    · cases h
    · rename_i hdup
      simp only [Option.some.injEq] at h
      subst h
      unfold Database.membersUnique at hu ⊢
      simp only [List.filter_append, List.map_append]
      rw [List.nodup_append]
      refine ⟨hu, ?_, ?_⟩
      · by_cases hl : row.DeletedAt.isNone = true
        · simp [List.filter, hl]
        · simp [List.filter, hl]
      · intro a ha hb
        by_cases hl : row.DeletedAt.isNone = true
        · simp only [List.filter, hl, List.map_cons, List.map_nil, List.mem_singleton] at hb
          subst hb
          apply hdup
          simp only [hl, Bool.true_and]
          unfold Database.isMember
          rw [List.any_eq_true]
          simp only [List.mem_map, List.mem_filter, Prod.mk.injEq] at ha
          obtain ⟨m, ⟨hm, hlive⟩, hc, hu'⟩ := ha
          exact ⟨m, hm, by simp [hlive, hc, hu']⟩
        · simp [List.filter, hl] at hb

theorem deleteMember_unique (d : Database) (row : ChannelMember) (now : ℕ)
    (hu : d.membersUnique) : (d.deleteMember row now).membersUnique := by
  unfold Database.membersUnique at hu ⊢
  unfold Database.deleteMember
  simp only
  have key : ∀ l : List ChannelMember,
      ((l.map (fun m => if m.ID = row.ID ∧ m.DeletedAt = none then
          { m with DeletedAt := some now } else m)).filter (fun m => m.DeletedAt.isNone)) =
        (l.filter (fun m => m.DeletedAt.isNone)).filter (fun m => decide (m.ID ≠ row.ID)) := by
    intro l
    induction l with
    | nil => rfl
    | cons a l ih =>
      simp only [List.map_cons]
      by_cases h1 : a.DeletedAt = none
      · by_cases h2 : a.ID = row.ID
        · simp [List.filter, h1, h2, ih]
        · simp [List.filter, h1, h2, ih]
      · have h1' : a.DeletedAt.isNone = false := by
          cases hd : a.DeletedAt with
          | none => exact absurd hd h1
          | some x => rfl
        simp [List.filter, h1, h1', ih]
  rw [key]
  exact hu.sublist ((List.filter_sublist _).map _)

theorem joinChannel_db (lib : StdLib) (newID : String) (now : ℕ) (c : Context)
    (d : Database) (r : Reply) (h : JoinChannel lib newID now c d = some r) :
    r.db = d ∨ ∃ row, d.createMember row = some r.db := by
  unfold JoinChannel at h
  dsimp only at h
  split at h
  · exact Or.inl (failWith_db h)
  · split at h
    · exact Or.inl (failWith_db h)
    · split at h
      · exact Or.inl (failWith_db h)
      · split at h
        · split at h
          · exact Or.inl (failWith_db h)
          · split at h
            · exact Or.inl (failWith_db h)
            · rename_i d' hd'
              simp only [Option.some.injEq] at h
              subst h
              exact Or.inr ⟨_, hd'⟩
        · cases h

theorem leaveChannel_db (now : ℕ) (c : Context) (d : Database) (r : Reply)
    (h : LeaveChannel now c d = some r) :
    r.db = d ∨ ∃ row, r.db = d.deleteMember row now := by
  unfold LeaveChannel at h
  dsimp only at h
  split at h
  · exact Or.inl (failWith_db h)
  · split at h
    · exact Or.inl (failWith_db h)
    · simp only [Option.some.injEq] at h
      subst h
      exact Or.inr ⟨_, rfl⟩

theorem createChannel_db (lib : StdLib) (channelID memberID : String)
    (now nowMember : ℕ) (body : Option CreateChannelRequest) (c : Context) (d : Database)
    (r : Reply) (h : CreateChannel lib channelID memberID now nowMember body c d = some r) :
    r.db = d ∨ ∃ ch d₁ row, d.createChannel ch = some d₁ ∧
      r.db = (d₁.createMember row).getD d₁ := by
  unfold CreateChannel at h
  split at h
  · exact Or.inl (failWith_db h)
  · dsimp only at h
    split at h
    · exact Or.inl (failWith_db h)
    · split at h
      · exact Or.inl (failWith_db h)
      · split at h
        · split at h
          · exact Or.inl (failWith_db h)
          · split at h
            · exact Or.inl (failWith_db h)
            · rename_i d₁ hd₁
              simp only [Option.some.injEq] at h
              subst h
              exact Or.inr ⟨_, d₁, _, hd₁, rfl⟩
        · cases h

theorem createChannel_members {d d₁ : Database} {row : Channel}
    (h : d.createChannel row = some d₁) : d₁.ChannelMembers = d.ChannelMembers := by
  unfold Database.createChannel at h
  split at h
  · cases h
  · simp only [Option.some.injEq] at h
    subst h
    rfl

theorem channelOp_unique (lib : StdLib) (d : Database) (op : ChannelOp)
    (hu : d.membersUnique) : (op.run lib d).membersUnique := by
  cases op with
  | create channelID memberID now nowMember body c =>
    simp only [ChannelOp.run, dbOf]
    cases h : CreateChannel lib channelID memberID now nowMember body c d with
    | none => exact hu
    | some r =>
      simp only [Option.map_some', Option.getD_some]
      rcases createChannel_db _ _ _ _ _ _ _ _ _ h with h1 | ⟨ch, d₁, row, hd₁, h1⟩
      · rw [h1]; exact hu
      · rw [h1]
        have hu₁ : d₁.membersUnique := by
          unfold Database.membersUnique at hu ⊢
          rw [createChannel_members hd₁]; exact hu
        cases hm : d₁.createMember row with
        | none => exact hu₁
        | some d₂ => exact createMember_unique hm hu₁
  | join newID now c =>
    simp only [ChannelOp.run, dbOf]
    cases h : JoinChannel lib newID now c d with
    | none => exact hu
    | some r =>
      simp only [Option.map_some', Option.getD_some]
      rcases joinChannel_db _ _ _ _ _ _ h with h1 | ⟨row, h1⟩
      · rw [h1]; exact hu
      · exact createMember_unique h1 hu
  | leave now c =>
    simp only [ChannelOp.run, dbOf]
    cases h : LeaveChannel now c d with
    | none => exact hu
    | some r =>
      simp only [Option.map_some', Option.getD_some]
      rcases leaveChannel_db _ _ _ _ h with h1 | ⟨row, h1⟩
      · rw [h1]; exact hu
      · rw [h1]; exact deleteMember_unique _ _ _ hu

theorem firstMessage_some (d : Database) (cond : Message → Bool) (m : Message)
    (h : d.firstMessage cond = some m) :
    m ∈ d.Messages ∧ m.DeletedAt = none ∧ cond m = true := by
  have := leastBy_mem _ _ _ h
  simpa [List.mem_filter] using this

theorem storeMessage_created {c : Context} {d : Database} {userID : Option Value}
    {message : Message} {r : Reply} (h : storeMessage c d userID message = some r)
    (hs : r.ctx.status = some 201) : r.db.Messages = d.Messages ++ [message] := by
  unfold storeMessage at h
  split at h
  · rw [failWith_status h] at hs; cases hs
  · rename_i d' hd'
    simp only [Option.some.injEq] at h
    subst h
    unfold Database.createMessage at hd'
    split at hd'
    · cases hd'
    · simp only [Option.some.injEq] at hd'
      subst hd'
      rfl

/-! ## The claims about threads and memberships -/

/-- C21, counterexample: in the sample tables no reply is nested. `ann`
posts `replyOne` as a reply to the root message `hello`; the tables still
hold no nested reply. `ann` then posts `replyTwo` with `replyOne` as its
thread: the answer is 201 and the stored message is a reply to a reply. -/
theorem C21_reply_to_reply_stored :
    sampleDb.repliesFlat = true ∧
    dbOf (CreateMessage sampleStd replyOne 30 (some { Content := "re", ThreadID := some helloID })
      (handlerCtx generalID annID "normal") sampleDb) =
      some { sampleDb with Messages := sampleDb.Messages ++
        [{ ID := replyOne, CreatedAt := 30, UpdatedAt := 30, DeletedAt := none, Content := "re",
           UserID := annID, ChannelID := generalID, ThreadID := some helloID }] } ∧
    ({ sampleDb with Messages := sampleDb.Messages ++
        [{ ID := replyOne, CreatedAt := 30, UpdatedAt := 30, DeletedAt := none, Content := "re",
           UserID := annID, ChannelID := generalID, ThreadID := some helloID }] } :
      Database).repliesFlat = true ∧
    statusOf (CreateMessage sampleStd replyTwo 31
      (some { Content := "re re", ThreadID := some replyOne })
      (handlerCtx generalID annID "normal")
      { sampleDb with Messages := sampleDb.Messages ++
        [{ ID := replyOne, CreatedAt := 30, UpdatedAt := 30, DeletedAt := none, Content := "re",
           UserID := annID, ChannelID := generalID, ThreadID := some helloID }] }) = some 201 ∧
    dbOf (CreateMessage sampleStd replyTwo 31
      (some { Content := "re re", ThreadID := some replyOne })
      (handlerCtx generalID annID "normal")
      { sampleDb with Messages := sampleDb.Messages ++
        [{ ID := replyOne, CreatedAt := 30, UpdatedAt := 30, DeletedAt := none, Content := "re",
           UserID := annID, ChannelID := generalID, ThreadID := some helloID }] }) =
      some { sampleDb with Messages := sampleDb.Messages ++
        [{ ID := replyOne, CreatedAt := 30, UpdatedAt := 30, DeletedAt := none, Content := "re",
           UserID := annID, ChannelID := generalID, ThreadID := some helloID },
         { ID := replyTwo, CreatedAt := 31, UpdatedAt := 31, DeletedAt := none,
           Content := "re re", UserID := annID, ChannelID := generalID,
           ThreadID := some replyOne }] } ∧
    ({ sampleDb with Messages := sampleDb.Messages ++
        [{ ID := replyOne, CreatedAt := 30, UpdatedAt := 30, DeletedAt := none, Content := "re",
           UserID := annID, ChannelID := generalID, ThreadID := some helloID },
         { ID := replyTwo, CreatedAt := 31, UpdatedAt := 31, DeletedAt := none,
           Content := "re re", UserID := annID, ChannelID := generalID,
           ThreadID := some replyOne }] } : Database).repliesFlat = false := by
  decide

/-- C21, amended: whenever `CreateMessage` answers 201 it stored one
message. That message has no thread parent when the request names none;
when the request names a thread `t`, its parent is `t` and the tables held
a message with id `t` in the channel of the request that was not deleted.
Nothing requires that message to be a root. -/
theorem C21_reply_parent_in_channel (lib : StdLib) (newID : String) (now : ℕ)
    (body : Option CreateMessageRequest) (c : Context) (d : Database)
    (hs : statusOf (CreateMessage lib newID now body c d) = some 201) :
    ∃ req message r, bindCreateMessage body = some req ∧
      CreateMessage lib newID now body c d = some r ∧
      r.db.Messages = d.Messages ++ [message] ∧ message.ID = newID ∧
      (threadRef req = none → message.ThreadID = none) ∧
      (∀ t, threadRef req = some t → message.ThreadID = lib.parseUUID t ∧
        ∃ p ∈ d.Messages, p.DeletedAt = none ∧ p.ID = t ∧ p.ChannelID = c.Param "id") := by
  rcases h : CreateMessage lib newID now body c d with _ | r
  · rw [h] at hs; cases hs
  rw [h] at hs
  replace hs : r.ctx.status = some 201 := hs
  unfold CreateMessage at h
  dsimp only at h
  split at h
  · rw [failWith_status h] at hs; cases hs
  · rename_i req hbind
    split at h
    · rw [failWith_status h] at hs; cases hs
    · split at h
      · rw [failWith_status h] at hs; cases hs
      · split at h
        · rw [failWith_status h] at hs; cases hs
        · split at h
          · split at h
            · rw [failWith_status h] at hs; cases hs
            · split at h
              · rw [failWith_status h] at hs; cases hs
              · split at h
                · rename_i hthr
                  exact ⟨req, _, r, hbind, rfl, storeMessage_created h hs, rfl,
                    fun _ => rfl, fun t ht => by simp [threadRef, hthr] at ht⟩
                · rename_i threadID hthr
                  split at h
                  · rename_i hempty
                    exact ⟨req, _, r, hbind, rfl, storeMessage_created h hs, rfl,
                      fun _ => rfl, fun t ht => by simp [threadRef, hthr, hempty] at ht⟩
                  · rename_i hne
                    split at h
                    · rw [failWith_status h] at hs; cases hs
                    · rename_i p hp
                      split at h
                      · rw [failWith_status h] at hs; cases hs
                      · rename_i threadUUID hU
                        refine ⟨req, _, r, hbind, rfl, storeMessage_created h hs, rfl,
                          fun hn => by simp [threadRef, hthr, hne] at hn, fun t ht => ?_⟩
                        simp only [threadRef, hthr, hne, if_false, Option.some.injEq] at ht
                        subst ht
                        obtain ⟨hmem, hlive, hc⟩ := firstMessage_some _ _ _ hp
                        simp only [Bool.and_eq_true, decide_eq_true_eq] at hc
                        exact ⟨hU.symm, p, hmem, hlive, hc.1, hc.2⟩
          · cases h

/-- Witness of C21 (amended): the reply of `ann` to the message `hello`. -/
theorem C21_reply_parent_in_channel_witness :
    ∃ req message r,
      bindCreateMessage (some { Content := "re", ThreadID := some helloID }) = some req ∧
      CreateMessage sampleStd replyOne 30 (some { Content := "re", ThreadID := some helloID })
        (handlerCtx generalID annID "normal") sampleDb = some r ∧
      r.db.Messages = sampleDb.Messages ++ [message] ∧ message.ID = replyOne ∧
      (threadRef req = none → message.ThreadID = none) ∧
      (∀ t, threadRef req = some t → message.ThreadID = sampleStd.parseUUID t ∧
        ∃ p ∈ sampleDb.Messages, p.DeletedAt = none ∧ p.ID = t ∧
          p.ChannelID = (handlerCtx generalID annID "normal").Param "id") :=
  C21_reply_parent_in_channel sampleStd replyOne 30
    (some { Content := "re", ThreadID := some helloID })
    (handlerCtx generalID annID "normal") sampleDb (by decide)

/-- C22: membership uniqueness is kept by every sequence of calls of
`CreateChannel`, `JoinChannel` and `LeaveChannel`: if no pair of channel
and user has two live memberships before, none has after. The insert of a
membership is the one of `createMember`, which the unique index of
`CreateIndexes` guards. -/
theorem C22_membership_uniqueness_invariant (lib : StdLib) (d : Database)
    (ops : List ChannelOp) (hu : d.membersUnique) :
    (ops.foldl (fun d op => op.run lib d) d).membersUnique := by
  induction ops generalizing d with
  | nil => exact hu
  | cons op ops ih => exact ih _ (channelOp_unique lib d op hu)


/-- Witness of C22: on the sample tables `bob` joins `general` twice,
leaves it, joins again, and creates a channel. -/
theorem C22_membership_uniqueness_invariant_witness :
    sampleDb.membersUnique ∧
    (([ChannelOp.join "00000000-0000-7000-8000-0000000000c4" 40
          (handlerCtx generalID bobID "normal"),
        ChannelOp.join "00000000-0000-7000-8000-0000000000c5" 41
          (handlerCtx generalID bobID "normal"),
        ChannelOp.leave 42 (handlerCtx randomID bobID "normal"),
        ChannelOp.join "00000000-0000-7000-8000-0000000000c6" 43
          (handlerCtx randomID bobID "normal"),
        ChannelOp.create "00000000-0000-7000-8000-0000000000a9"
          "00000000-0000-7000-8000-0000000000c7" 44 45
          (some { Name := "Ops Room", Description := "", Typ := "" })
          (handlerCtx "" bobID "normal")].foldl
        (fun d op => op.run sampleStd d) sampleDb).membersUnique) :=
  ⟨by decide, C22_membership_uniqueness_invariant sampleStd sampleDb _ (by decide)⟩

/-! ## Theorems and claims: input validation and user updates -/

theorem containsChars_iff (l sub : List Char) : containsChars l sub = true ↔ sub <:+: l := by
  induction l with
  | nil =>
    simp only [containsChars, List.isEmpty_iff, List.infix_nil]
  | cons a l ih =>
    simp only [containsChars, Bool.or_eq_true, ih, List.infix_cons_iff, List.isPrefixOf_iff_prefix]

theorem contains_iff (s sub : String) : Contains s sub = true ↔ sub.data <:+: s.data :=
  containsChars_iff _ _

/-- C25: `ValidateContentType` answers 415 and aborts exactly when the
method is POST, PUT or PATCH and the header `Content-Type` contains
neither `application/json` nor `multipart/form-data`; in every other
case, so for every other method, the rest of the chain runs. -/
theorem C25_content_type_gate (next : Context → Context) (c : Context) :
    ValidateContentType next c =
      (if (c.Request.Method = "POST" ∨ c.Request.Method = "PUT" ∨ c.Request.Method = "PATCH") ∧
          ¬ "application/json".data <:+: (c.GetHeader "Content-Type").data ∧
          ¬ "multipart/form-data".data <:+: (c.GetHeader "Content-Type").data then
        (c.JSON 415 [("error", "Unsupported content type"),
          ("message", "Expected application/json or multipart/form-data")]).Abort
      else next c) := by
  have e1 := contains_iff (c.GetHeader "Content-Type") "application/json"
  have e2 := contains_iff (c.GetHeader "Content-Type") "multipart/form-data"
  by_cases hm : c.Request.Method = "POST" ∨ c.Request.Method = "PUT" ∨ c.Request.Method = "PATCH"
  · by_cases h1 : Contains (c.GetHeader "Content-Type") "application/json" = true
    · rw [if_neg (fun h => h.2.1 (e1.1 h1))]
      simp [ValidateContentType, hm, h1]
    · by_cases h2 : Contains (c.GetHeader "Content-Type") "multipart/form-data" = true
      · rw [if_neg (fun h => h.2.2 (e2.1 h2))]
        simp [ValidateContentType, hm, h1, h2]
      · rw [if_pos ⟨hm, fun h => h1 (e1.2 h), fun h => h2 (e2.2 h)⟩]
        simp [ValidateContentType, hm, h1, h2]
  · rw [if_neg (fun h => hm h.1)]
    simp [ValidateContentType, hm]

theorem firstInvalid_some {re : RegexpLib} {lib : StdLib} {values : List (String × List String)}
    {key : String} (h : firstInvalid re lib values = some key) :
    ∃ e ∈ values, e.1 = key ∧ ∃ v ∈ e.2, isValidInput re lib v = false := by
  unfold firstInvalid at h
  rw [Option.map_eq_some'] at h
  obtain ⟨e, he, hk⟩ := h
  have hmem := List.mem_of_find?_eq_some he
  have hp := List.find?_some he
  rw [List.any_eq_true] at hp
  obtain ⟨v, hv, hbad⟩ := hp
  exact ⟨e, hmem, hk, v, hv, by simpa using hbad⟩

theorem firstInvalid_none {re : RegexpLib} {lib : StdLib} {values : List (String × List String)}
    (h : firstInvalid re lib values = none) :
    ∀ e ∈ values, ∀ v ∈ e.2, isValidInput re lib v = true := by
  unfold firstInvalid at h
  rw [Option.map_eq_none', List.find?_eq_none] at h
  intro e he v hv
  have := h e he
  rw [List.any_eq_true] at this
  by_contra hbad
  exact this ⟨v, hv, by simpa using hbad⟩

/-- The cases of `InputValidationMiddleware`: when a query value, a value
of the form of a POST, PUT or PATCH request whose `ParseForm` returned no
error, or a path parameter is refused by `isValidInput`, the answer is 400
with a `field` that names a parameter with a refused value, and the chain
is aborted; when none is refused the rest of the chain runs.
`isValidInput` looks at the lower-cased value only, so two values that
differ in letter case alone are treated alike. -/
theorem inputValidation_cases (re : RegexpLib) (lib : StdLib) (formErr : Bool)
    (next : Context → Context) (c : Context) :
    ((∃ key, (∃ e ∈ c.Request.Query, e.1 = key ∧ ∃ v ∈ e.2, isValidInput re lib v = false) ∨
        ((c.Request.Method = "POST" ∨ c.Request.Method = "PUT" ∨ c.Request.Method = "PATCH") ∧
          formErr = false ∧
          ∃ e ∈ c.Request.PostForm, e.1 = key ∧ ∃ v ∈ e.2, isValidInput re lib v = false) ∨
        (∃ p ∈ c.Params, p.1 = key ∧ isValidInput re lib p.2 = false)) →
      ∃ key err msg,
        InputValidationMiddleware re lib formErr next c =
          (c.JSON 400 [("error", err), ("message", msg), ("field", key)]).Abort ∧
        ((∃ e ∈ c.Request.Query, e.1 = key ∧ ∃ v ∈ e.2, isValidInput re lib v = false) ∨
        ((c.Request.Method = "POST" ∨ c.Request.Method = "PUT" ∨ c.Request.Method = "PATCH") ∧
          formErr = false ∧
          ∃ e ∈ c.Request.PostForm, e.1 = key ∧ ∃ v ∈ e.2, isValidInput re lib v = false) ∨
        (∃ p ∈ c.Params, p.1 = key ∧ isValidInput re lib p.2 = false))) ∧
    ((¬ ∃ key, (∃ e ∈ c.Request.Query, e.1 = key ∧ ∃ v ∈ e.2, isValidInput re lib v = false) ∨
        ((c.Request.Method = "POST" ∨ c.Request.Method = "PUT" ∨ c.Request.Method = "PATCH") ∧
          formErr = false ∧
          ∃ e ∈ c.Request.PostForm, e.1 = key ∧ ∃ v ∈ e.2, isValidInput re lib v = false) ∨
        (∃ p ∈ c.Params, p.1 = key ∧ isValidInput re lib p.2 = false)) →
      InputValidationMiddleware re lib formErr next c = next c) ∧
    (∀ v w, ToLower lib v = ToLower lib w → isValidInput re lib v = isValidInput re lib w) := by
  have main : (∃ key err msg,
        InputValidationMiddleware re lib formErr next c =
          (c.JSON 400 [("error", err), ("message", msg), ("field", key)]).Abort ∧
        ((∃ e ∈ c.Request.Query, e.1 = key ∧ ∃ v ∈ e.2, isValidInput re lib v = false) ∨
        ((c.Request.Method = "POST" ∨ c.Request.Method = "PUT" ∨ c.Request.Method = "PATCH") ∧
          formErr = false ∧
          ∃ e ∈ c.Request.PostForm, e.1 = key ∧ ∃ v ∈ e.2, isValidInput re lib v = false) ∨
        (∃ p ∈ c.Params, p.1 = key ∧ isValidInput re lib p.2 = false))) ∨
      (InputValidationMiddleware re lib formErr next c = next c ∧
       ¬ ∃ key, (∃ e ∈ c.Request.Query, e.1 = key ∧ ∃ v ∈ e.2, isValidInput re lib v = false) ∨
        ((c.Request.Method = "POST" ∨ c.Request.Method = "PUT" ∨ c.Request.Method = "PATCH") ∧
          formErr = false ∧
          ∃ e ∈ c.Request.PostForm, e.1 = key ∧ ∃ v ∈ e.2, isValidInput re lib v = false) ∨
        (∃ p ∈ c.Params, p.1 = key ∧ isValidInput re lib p.2 = false)) := by
    rcases hq : firstInvalid re lib c.Request.Query with _ | key
    · have hq' := firstInvalid_none hq
      by_cases hm : c.Request.Method = "POST" ∨ c.Request.Method = "PUT" ∨
          c.Request.Method = "PATCH"
      · cases formErr with
        | true =>
          rcases hp : c.Params.find? (fun param => !isValidInput re lib param.2) with _ | param
          · right
            refine ⟨?_, ?_⟩
            · unfold InputValidationMiddleware
              simp only [hq, hm, hp, ↓reduceIte]
            rintro ⟨key, ⟨e, he, -, v, hv, hbad⟩ | ⟨-, hfalse, -⟩ | ⟨p, hpm, -, hbad⟩⟩
            · rw [hq' e he v hv] at hbad; cases hbad
            · cases hfalse
            · rw [List.find?_eq_none] at hp
              have := hp p hpm
              simp [hbad] at this
          · left
            refine ⟨param.1, "Invalid path parameter",
              "Path contains potentially malicious content", ?_, Or.inr (Or.inr ⟨param, List.mem_of_find?_eq_some hp, rfl,
              by simpa using List.find?_some hp⟩)⟩
            unfold InputValidationMiddleware
            simp only [hq, hm, hp, ↓reduceIte]
        | false =>
          rcases hfo : firstInvalid re lib c.Request.PostForm with _ | key
          · have hfo' := firstInvalid_none hfo
            rcases hp : c.Params.find? (fun param => !isValidInput re lib param.2) with _ | param
            · right
              refine ⟨?_, ?_⟩
              · unfold InputValidationMiddleware
                simp only [hq, hm, hp, hfo, ↓reduceIte, Bool.false_eq_true]
              rintro ⟨key, ⟨e, he, -, v, hv, hbad⟩ | ⟨-, -, e, he, -, v, hv, hbad⟩ |
                ⟨p, hpm, -, hbad⟩⟩
              · rw [hq' e he v hv] at hbad; cases hbad
              · rw [hfo' e he v hv] at hbad; cases hbad
              · rw [List.find?_eq_none] at hp
                have := hp p hpm
                simp [hbad] at this
            · left
              refine ⟨param.1, "Invalid path parameter",
              "Path contains potentially malicious content", ?_, Or.inr (Or.inr ⟨param, List.mem_of_find?_eq_some hp,
                rfl, by simpa using List.find?_some hp⟩)⟩
              unfold InputValidationMiddleware
              simp only [hq, hm, hp, hfo, ↓reduceIte, Bool.false_eq_true]
          · left
            refine ⟨key, "Invalid input detected",
              "Request contains potentially malicious content", ?_, Or.inr (Or.inl ⟨hm, rfl, firstInvalid_some hfo⟩)⟩
            unfold InputValidationMiddleware
            simp only [hq, hm, hfo, ↓reduceIte, Bool.false_eq_true]
      · rcases hp : c.Params.find? (fun param => !isValidInput re lib param.2) with _ | param
        · right
          refine ⟨?_, ?_⟩
          · unfold InputValidationMiddleware
            simp only [hq, hm, hp, ↓reduceIte]
          rintro ⟨key, ⟨e, he, -, v, hv, hbad⟩ | ⟨hm', -, -⟩ | ⟨p, hpm, -, hbad⟩⟩
          · rw [hq' e he v hv] at hbad; cases hbad
          · exact hm hm'
          · rw [List.find?_eq_none] at hp
            have := hp p hpm
            simp [hbad] at this
        · left
          refine ⟨param.1, "Invalid path parameter",
              "Path contains potentially malicious content", ?_, Or.inr (Or.inr ⟨param, List.mem_of_find?_eq_some hp, rfl,
            by simpa using List.find?_some hp⟩)⟩
          unfold InputValidationMiddleware
          simp only [hq, hm, hp, ↓reduceIte]
    · left
      refine ⟨key, "Invalid input detected",
              "Request contains potentially malicious content", ?_, Or.inl (firstInvalid_some hq)⟩
      unfold InputValidationMiddleware
      simp only [hq]
  refine ⟨fun hex => ?_, fun hno => ?_, fun v w hvw => ?_⟩
  · rcases main with h | ⟨-, h⟩
    · exact h
    · exact absurd hex h
  · rcases main with ⟨key, -, -, -, h⟩ | ⟨h, -⟩
    · exact absurd ⟨key, h⟩ hno
    · exact h
  · unfold isValidInput
    simp only [hvw]

/-- A sample of the cases of `InputValidationMiddleware`: the query value
`1 UNION SELECT 2` is refused and the response names the parameter `q`. -/
theorem inputValidation_cases_sample :
    ∃ key err msg,
      InputValidationMiddleware sampleRegexp sampleStd false (fun c => c)
          (queryCtx "1 UNION SELECT 2") =
        ((queryCtx "1 UNION SELECT 2").JSON 400
          [("error", err), ("message", msg), ("field", key)]).Abort ∧
      ((∃ e ∈ (queryCtx "1 UNION SELECT 2").Request.Query, e.1 = key ∧
          ∃ v ∈ e.2, isValidInput sampleRegexp sampleStd v = false) ∨
        (((queryCtx "1 UNION SELECT 2").Request.Method = "POST" ∨
            (queryCtx "1 UNION SELECT 2").Request.Method = "PUT" ∨
            (queryCtx "1 UNION SELECT 2").Request.Method = "PATCH") ∧
          false = false ∧
          ∃ e ∈ (queryCtx "1 UNION SELECT 2").Request.PostForm, e.1 = key ∧
            ∃ v ∈ e.2, isValidInput sampleRegexp sampleStd v = false) ∨
        (∃ p ∈ (queryCtx "1 UNION SELECT 2").Params, p.1 = key ∧
          isValidInput sampleRegexp sampleStd p.2 = false)) :=
  (inputValidation_cases sampleRegexp sampleStd false (fun c => c)
    (queryCtx "1 UNION SELECT 2")).1
    ⟨"q", Or.inl ⟨("q", ["1 UNION SELECT 2"]), by decide, rfl, "1 UNION SELECT 2", by decide,
      by decide⟩⟩

/-- C24, the failing input: a POST request with the form body
`q=<script>&z=%zz`. `ParseForm` stores the field `q` in `PostForm` and
returns the error of the malformed escape `%zz`, so the loop over the
form values is skipped: although `isValidInput` refuses the value
`<script>` of `q`, the middleware neither answers 400 nor aborts, and the
rest of the chain (here a handler that answers 200) runs. The same field
with a form that parses is answered 400. -/
theorem C24_refused_form_value_passes :
    isValidInput sampleRegexp sampleStd "<script>" = false ∧
    (InputValidationMiddleware sampleRegexp sampleStd true (fun c => c.JSON 200 [])
      (formCtx "<script>")).status = some 200 ∧
    (InputValidationMiddleware sampleRegexp sampleStd true (fun c => c.JSON 200 [])
      (formCtx "<script>")).aborted = false ∧
    (InputValidationMiddleware sampleRegexp sampleStd false (fun c => c.JSON 200 [])
      (formCtx "<script>")).status = some 400 ∧
    (InputValidationMiddleware sampleRegexp sampleStd false (fun c => c.JSON 200 [])
      (formCtx "<script>")).aborted = true := by
  decide

theorem first_user_id {db : DB} {userID : String} {user : User}
    (h : DB.First db (fun u => u.ID = userID) = some user) : user.ID = userID := by
  unfold DB.First at h
  have := List.find?_some h
  simp only [Bool.and_eq_true, decide_eq_true_eq] at this
  exact this.2

/-- C26: for a body that decodes and a target user that exists, a caller
whose role is not `admin` gets 403 and changes nothing whenever the target
is not the caller or the body sets `role` or `is_active`; otherwise the
caller's update answers 200 and writes the target's row with only the
display name replaced. A caller whose role is `admin` gets 200 and the row
written with display name, role and active flag replaced by those the body
sets. No other row and no other table changes. -/
theorem C26_update_user_rules (body : Option UpdateUserRequest) (c : Context) (d : Database)
    (req : UpdateUserRequest) (user : User)
    (hbody : body = some req)
    (huser : DB.First d.Users (fun u => u.ID = c.Param "id") = some user) :
    (c.Get "role" ≠ some (Value.str "admin") →
      (c.Get "user_id" ≠ some (Value.str (c.Param "id")) ∨ req.Role ≠ none ∨
        req.IsActive ≠ none) →
      statusOf (UpdateUser body c d) = some 403 ∧ dbOf (UpdateUser body c d) = some d) ∧
    (c.Get "role" ≠ some (Value.str "admin") →
      c.Get "user_id" = some (Value.str (c.Param "id")) → req.Role = none →
      req.IsActive = none →
      statusOf (UpdateUser body c d) = some 200 ∧
      dbOf (UpdateUser body c d) = some { d with Users := d.Users.map (fun u =>
        if u.ID = c.Param "id" then
          { user with DisplayName := req.DisplayName.getD user.DisplayName }
        else u) }) ∧
    (c.Get "role" = some (Value.str "admin") →
      statusOf (UpdateUser body c d) = some 200 ∧
      dbOf (UpdateUser body c d) = some { d with Users := d.Users.map (fun u =>
        if u.ID = c.Param "id" then
          { user with DisplayName := req.DisplayName.getD user.DisplayName,
                      Role := req.Role.getD user.Role,
                      IsActive := req.IsActive.getD user.IsActive }
        else u) }) := by
  have hid := first_user_id huser
  subst hbody
  refine ⟨fun hrole hbad => ?_, fun hrole hself hr hi => ?_, fun hrole => ?_⟩
  · unfold UpdateUser
    simp only [huser]
    by_cases hself : c.Get "user_id" = some (Value.str (c.Param "id"))
    · have hb : req.Role ≠ none ∨ req.IsActive ≠ none := by
        rcases hbad with h | h
        · exact absurd hself h
        · exact h
      simp only [hrole, hself, hb, ne_eq, not_false_eq_true, not_true_eq_false, and_false,
        and_self, ↓reduceIte]
      exact ⟨rfl, rfl⟩
    · simp only [hrole, hself, ne_eq, not_false_eq_true, and_self, ↓reduceIte]
      exact ⟨rfl, rfl⟩
  · unfold UpdateUser
    simp only [huser, hrole, hself, hr, hi, ne_eq, not_false_eq_true, not_true_eq_false,
      and_false, or_self, ↓reduceIte]
    refine ⟨rfl, ?_⟩
    rw [← hid]
    cases hdn : req.DisplayName <;> rfl
  · unfold UpdateUser
    simp only [huser, hrole, ne_eq, not_true_eq_false, false_and, ↓reduceIte]
    refine ⟨rfl, ?_⟩
    rw [← hid]
    cases hdn : req.DisplayName <;> cases hro : req.Role <;> cases hia : req.IsActive <;> rfl

/-- Witness of C26: `ann` may not rename `bob`, may rename herself, and
the admin `root` deactivates `bob`. -/
theorem C26_update_user_rules_witness :
    (statusOf (UpdateUser (some { DisplayName := some "B", Role := none, IsActive := none })
        (handlerCtx bobID annID "normal") sampleDb) = some 403 ∧
      dbOf (UpdateUser (some { DisplayName := some "B", Role := none, IsActive := none })
        (handlerCtx bobID annID "normal") sampleDb) = some sampleDb) ∧
    (statusOf (UpdateUser (some { DisplayName := some "Ann", Role := none, IsActive := none })
        (handlerCtx annID annID "normal") sampleDb) = some 200 ∧
      dbOf (UpdateUser (some { DisplayName := some "Ann", Role := none, IsActive := none })
        (handlerCtx annID annID "normal") sampleDb) =
        some { sampleDb with Users := sampleDb.Users.map (fun u =>
          if u.ID = (handlerCtx annID annID "normal").Param "id" then
            { ({ sampleUser with ID := annID } : User) with
              DisplayName := (some "Ann").getD ({ sampleUser with ID := annID } : User).DisplayName }
          else u) }) :=
  ⟨(C26_update_user_rules (some { DisplayName := some "B", Role := none, IsActive := none })
      (handlerCtx bobID annID "normal") sampleDb
      { DisplayName := some "B", Role := none, IsActive := none }
      { sampleUser with ID := bobID, Username := "bob", Email := "bob@example.com",
                        DisplayName := "Bob" } rfl (by decide)).1 (by decide)
      (Or.inl (by decide)),
   (C26_update_user_rules (some { DisplayName := some "Ann", Role := none, IsActive := none })
      (handlerCtx annID annID "normal") sampleDb
      { DisplayName := some "Ann", Role := none, IsActive := none }
      { sampleUser with ID := annID } rfl (by decide)).2.1 (by decide) (by decide) rfl rfl⟩

/-! ## Theorems and claims: the sweep against the decisions -/

theorem bucket_check_self {i : IPRateLimiter} {now : ℚ} (h : i.WF now) (k : String) (t : ℚ) :
    (i.check k t).1 = (((i.bucket k).getD (NewLimiter i.r i.b)).Allow t).1 ∧
    (i.check k t).2.bucket k = some (((i.bucket k).getD (NewLimiter i.r i.b)).Allow t).2 := by
  unfold IPRateLimiter.bucket
  cases hk : i.ips.lookup k with
  | none =>
    rw [check_of_lookup_none i k t hk]
    simp [List.getElem?_concat_length]
  | some p =>
    have hlt := h.ptr_lt k p hk
    rw [check_of_lookup_some i k t p _ hk (List.getElem?_eq_getElem hlt)]
    simp [hk, hlt]

theorem bucket_check_other {i : IPRateLimiter} {now : ℚ} (h : i.WF now) (k k' : String)
    (t : ℚ) (hne : k' ≠ k) : (i.check k t).2.bucket k' = i.bucket k' := by
  unfold IPRateLimiter.bucket
  cases hk : i.ips.lookup k with
  | none =>
    rw [check_of_lookup_none i k t hk]
    rw [AList.lookup_insert_ne hne]
    cases hk' : i.ips.lookup k' with
    | none => rfl
    | some q =>
      simp only [Option.bind_some]
      exact List.getElem?_append_left (h.ptr_lt k' q hk')
  | some p =>
    have hlt := h.ptr_lt k p hk
    rw [check_of_lookup_some i k t p _ hk (List.getElem?_eq_getElem hlt)]
    cases hk' : i.ips.lookup k' with
    | none => rfl
    | some q =>
      simp only [Option.bind_some]
      have hpq : p ≠ q := by
        rintro rfl
        exact hne (h.ptr_inj k' k p hk' hk)
      exact List.getElem?_set_ne hpq

theorem bucket_mem {i : IPRateLimiter} {k : String} {lim : Limiter}
    (h : i.bucket k = some lim) : lim ∈ i.objs := by
  unfold IPRateLimiter.bucket at h
  cases hk : i.ips.lookup k with
  | none => rw [hk] at h; cases h
  | some p =>
    rw [hk] at h
    exact List.getElem?_mem h

/-- A bucket that is full at `t₀` is full at every later time. -/
theorem Limiter.full_later (lim : Limiter) (t₀ t : ℚ) (hr : 0 ≤ lim.limit) (ht : t₀ ≤ t)
    (hfull : lim.TokensAt t₀ = (lim.burst : ℚ)) : lim.TokensAt t = (lim.burst : ℚ) := by
  unfold Limiter.TokensAt at hfull ⊢
  have h1 : (lim.burst : ℚ) ≤ lim.tokens + (t₀ - lim.last) * lim.limit := by
    rw [← hfull]; exact min_le_right _ _
  exact min_eq_left (by nlinarith [mul_nonneg (sub_nonneg.2 ht) hr])

/-- Two buckets with the same rate and burst that hold the same number of
tokens at `t` answer a check at `t` alike and are equal after it. -/
theorem Limiter.allow_congr (a b : Limiter) (t : ℚ) (hl : a.limit = b.limit)
    (hb : a.burst = b.burst) (ht : a.TokensAt t = b.TokensAt t) : a.Allow t = b.Allow t := by
  unfold Limiter.Allow
  simp only [ht]
  by_cases h : 1 ≤ b.TokensAt t
  · simp only [h, if_true, Prod.mk.injEq, true_and]
    cases a; cases b; simp_all
  · simp only [h, if_false, Prod.mk.injEq, true_and]
    cases a; cases b; simp_all

theorem sim_cleanupPass {i : IPRateLimiter} {now : ℚ} (h : i.WF now) (t : ℚ) :
    Sim t i (i.cleanupPass t) := by
  refine ⟨rfl, rfl, fun k => ?_⟩
  rw [bucket_cleanupPass]
  cases hb : i.bucket k with
  | none => exact Or.inl rfl
  | some lim =>
    obtain ⟨hl, hbu, -, -, -⟩ := h.obj lim (bucket_mem hb)
    by_cases hf : lim.TokensAt t = (i.b : ℚ)
    · right
      refine ⟨by simp [hf], lim, rfl, fun t' ht' => ?_⟩
      rw [← hbu]
      exact lim.full_later t t' (hl ▸ h.r_nonneg) ht' (hbu ▸ hf)
    · left
      simp [hf]

theorem sim_check {t₀ now : ℚ} {A B : IPRateLimiter} (hs : Sim t₀ A B) (hA : A.WF now)
    (hB : B.WF now) (k : String) (t : ℚ) (ht₀ : t₀ ≤ t) (ht : now ≤ t) :
    (B.check k t).1 = (A.check k t).1 ∧ Sim t₀ (A.check k t).2 (B.check k t).2 := by
  obtain ⟨hr, hb, hk⟩ := hs
  obtain ⟨a1, a2⟩ := bucket_check_self hA k t
  obtain ⟨b1, b2⟩ := bucket_check_self hB k t
  have key : ((B.bucket k).getD (NewLimiter B.r B.b)).Allow t =
      ((A.bucket k).getD (NewLimiter A.r A.b)).Allow t := by
    rcases hk k with he | ⟨hn, lim, hl, hfull⟩
    · rw [he, hr, hb]
    · rw [hn, hl]
      simp only [Option.getD_none, Option.getD_some]
      obtain ⟨hl1, hl2, -, -, -⟩ := hA.obj lim (bucket_mem hl)
      apply Limiter.allow_congr
      · rw [hl1, ← hr]; rfl
      · rw [hl2, ← hb]; rfl
      · rw [hfull t ht₀, NewLimiter_tokensAt B.r B.b t hB.r_nonneg (hB.now_nonneg.trans ht), hb]
  refine ⟨by rw [a1, b1, key], ?_, ?_, fun k' => ?_⟩
  · rw [check_r, check_r]; exact hr
  · rw [check_b, check_b]; exact hb
  · by_cases hkk : k' = k
    · subst hkk
      left
      rw [a2, b2, key]
    · rw [bucket_check_other hA k k' t hkk, bucket_check_other hB k k' t hkk, check_b]
      exact hk k'

theorem sim_sweep {t₀ : ℚ} {A B : IPRateLimiter} (hs : Sim t₀ A B) (t : ℚ) (ht₀ : t₀ ≤ t) :
    Sim t₀ (A.cleanupPass t) (B.cleanupPass t) := by
  obtain ⟨hr, hb, hk⟩ := hs
  refine ⟨hr, hb, fun k => ?_⟩
  left
  rw [bucket_cleanupPass, bucket_cleanupPass]
  rcases hk k with he | ⟨hn, lim, hl, hfull⟩
  · rw [he, hb]
  · rw [hn, hl]
    simp [hfull t ht₀]

theorem sim_run {t₀ : ℚ} (evs : List Event) :
    ∀ (now : ℚ) (A B : IPRateLimiter), Sim t₀ A B → A.WF now → B.WF now → t₀ ≤ now →
      List.Sorted (· ≤ ·) (now :: evs.map Event.time) → (B.run evs).1 = (A.run evs).1 := by
  induction evs with
  | nil => intro now A B _ _ _ _ _; rfl
  | cons e es ih =>
    intro now A B hs hA hB ht₀ hsort
    simp only [List.map_cons, List.sorted_cons] at hsort
    obtain ⟨hle, hrest⟩ := hsort
    have hnow : now ≤ e.time := hle _ (List.mem_cons_self _ _)
    cases e with
    | check k t =>
      obtain ⟨h1, h2⟩ := sim_check hs hA hB k t (ht₀.trans hnow) hnow
      rw [run_cons_check, run_cons_check]
      simp only
      rw [h1, ih t _ _ h2 (hA.check k t hnow) (hB.check k t hnow) (ht₀.trans hnow)
        (List.sorted_cons.2 hrest)]
    | sweep t =>
      rw [run_cons_sweep, run_cons_sweep]
      exact ih t _ _ (sim_sweep hs t (ht₀.trans hnow)) ((hA.mono hnow).cleanupPass t)
        ((hB.mono hnow).cleanupPass t) (ht₀.trans hnow) (List.sorted_cons.2 hrest)

/-- C29: the eviction sweep never changes an admission decision. For a
well-formed store, a sweep at time `t` and any later events in the order
of their times (admission checks, and further sweeps), the decisions of
the checks after the sweep are those of the same checks without it. -/
theorem C29_sweep_preserves_decisions (i : IPRateLimiter) (now t : ℚ) (evs : List Event) (hwf : i.WF now)
    (hnt : now ≤ t) (hs : List.Sorted (· ≤ ·) (t :: evs.map Event.time)) :
    ((i.cleanupPass t).run evs).1 = (i.run evs).1 :=
  sim_run evs t i (i.cleanupPass t) (sim_cleanupPass (hwf.mono hnt) t) (hwf.mono hnt)
    ((hwf.mono hnt).cleanupPass t) (le_refl _) hs

/-- Witness of C29: a store of rate 1 and burst 3 that has admitted one
request of a client at time 0; a sweep at time 5 evicts the bucket, and
four checks of the client at time 5 and one at time 6 follow. -/
theorem C29_sweep_preserves_decisions_witness :
    ((((NewIPRateLimiter 1 3).run [Event.check "10.0.0.1" 0]).2.cleanupPass 5).run
        [Event.check "10.0.0.1" 5, Event.check "10.0.0.1" 5, Event.check "10.0.0.1" 5,
         Event.check "10.0.0.1" 5, Event.check "10.0.0.1" 6]).1 =
      (((NewIPRateLimiter 1 3).run [Event.check "10.0.0.1" 0]).2.run
        [Event.check "10.0.0.1" 5, Event.check "10.0.0.1" 5, Event.check "10.0.0.1" 5,
         Event.check "10.0.0.1" 5, Event.check "10.0.0.1" 6]).1 :=
  C29_sweep_preserves_decisions _ 0 5 _
    ((NewIPRateLimiter_wf 1 3 (by norm_num) (by norm_num)).run [Event.check "10.0.0.1" 0]
      (by simp [Event.time]) 0 (by simp [Event.time]))
    (by norm_num) (by simp [Event.time]; norm_num)

end Turnate
